import Mathlib

/-!
Verification of the `native-window` typed IPC channel and window facade.

The development shallowly embeds the TypeScript source of
`native-window-ipc` (host-side `createChannel`, `getClientScript`,
`encode` / `decode`, origin normalization) and of the `native-window`
package (`NativeWindow` wrapper, `sanitizeForJs`).  JavaScript platform
primitives that the source calls (`JSON.parse` / `JSON.stringify`, the
WHATWG `URL` origin getter, `Math.random().toString(36)`) are modelled
explicitly; each model notes its scope.

All recursive functions that are not structurally recursive use an
explicit fuel argument so that every definition reduces inside the
kernel and concrete instances can be settled by `decide` or `rfl`.
-/

set_option maxRecDepth 10000

/-- JSON values, restricted to the integer fragment for numbers.  This is
the value universe over which the channel's envelopes are modelled; it
matches what `JSON.parse` produces for messages whose numbers are
integers (the payload shapes exercised by the channel tests and
examples).  Field lists are kept in insertion order, mirroring
JavaScript object key order. -/
inductive JValue where
  | null : JValue
  | bool (b : Bool) : JValue
  | num (n : Int) : JValue
  | str (s : String) : JValue
  | arr (elems : List JValue) : JValue
  | obj (fields : List (String × JValue)) : JValue

/-- Digit character for a value below ten. -/
def digitChar (n : Nat) : Char := Char.ofNat (48 + n)

/-- Lowercase hexadecimal digit character for a value below sixteen,
matching the lowercase hex that `JSON.stringify` emits in `\u00XX`
escapes. -/
def hexDigitChar (n : Nat) : Char :=
  if n < 10 then Char.ofNat (48 + n) else Char.ofNat (87 + n)

/-- Decimal digits of a natural number, most significant first.  Fuel
drives the recursion; `fuel ≥ n` is always sufficient. -/
def natDigitsF : Nat → Nat → List Char
  | 0, n => [digitChar n]
  | fuel + 1, n =>
    if n < 10 then [digitChar n]
    else natDigitsF fuel (n / 10) ++ [digitChar (n % 10)]

/-- Decimal digits of a natural number, most significant first. -/
def natChars (n : Nat) : List Char := natDigitsF n n

/-- Decimal representation of an integer, as `Number.prototype.toString`
renders integral doubles. -/
def intChars (i : Int) : List Char :=
  if i < 0 then '-' :: natChars i.natAbs else natChars i.toNat

/-- Escape of one character inside a JSON string literal, exactly as
`JSON.stringify` renders it: the two-character escapes for quote,
backslash, backspace, form feed, newline, carriage return and tab, a
`\u00XX` escape for the remaining control characters, and the character
itself otherwise. -/
def escapeJsonChar (c : Char) : List Char :=
  if c = '"' then ['\\', '"']
  else if c = '\\' then ['\\', '\\']
  else if c = '\x08' then ['\\', 'b']
  else if c = '\x0c' then ['\\', 'f']
  else if c = '\n' then ['\\', 'n']
  else if c = '\r' then ['\\', 'r']
  else if c = '\t' then ['\\', 't']
  else if c.toNat < 32 then
    ['\\', 'u', '0', '0', hexDigitChar (c.toNat / 16), hexDigitChar (c.toNat % 16)]
  else [c]

/-- Body of a JSON string literal for the given characters. -/
def escapeJsonChars (cs : List Char) : List Char := cs.flatMap escapeJsonChar

/-- A quoted JSON string literal. -/
def quoteJson (s : String) : List Char := '"' :: escapeJsonChars s.data ++ ['"']

mutual

/-- Serializer for `JValue`, modelling `JSON.stringify` (no replacer, no
spacing). -/
def stringifyVal : JValue → List Char
  | .null => "null".data
  | .bool true => "true".data
  | .bool false => "false".data
  | .num n => intChars n
  | .str s => quoteJson s
  | .arr vs => '[' :: stringifyElems vs ++ [']']
  | .obj fs => '\x7b' :: stringifyFields fs ++ ['\x7d']

/-- Comma-separated serialization of array elements. -/
def stringifyElems : List JValue → List Char
  | [] => []
  | [v] => stringifyVal v
  | v :: w :: vs => stringifyVal v ++ ',' :: stringifyElems (w :: vs)

/-- Comma-separated serialization of object fields. -/
def stringifyFields : List (String × JValue) → List Char
  | [] => []
  | [kv] => quoteJson kv.1 ++ ':' :: stringifyVal kv.2
  | kv :: kw :: fs =>
    (quoteJson kv.1 ++ ':' :: stringifyVal kv.2) ++ ',' :: stringifyFields (kw :: fs)

end

/-- Model of `JSON.stringify` on the embedded value universe. -/
def jsonStringify (v : JValue) : String := String.mk (stringifyVal v)

mutual

/-- Fuel sufficient for `parseVal` to parse the serialization of a
value. -/
def jsize : JValue → Nat
  | .null => 1
  | .bool _ => 1
  | .num _ => 1
  | .str _ => 1
  | .arr vs => 1 + jsizeElems vs
  | .obj fs => 1 + jsizeFields fs

/-- Fuel sufficient for `parseElems` on serialized elements. -/
def jsizeElems : List JValue → Nat
  | [] => 1
  | [v] => 1 + jsize v
  | v :: w :: vs => 1 + jsize v + jsizeElems (w :: vs)

/-- Fuel sufficient for `parseFields` on serialized fields. -/
def jsizeFields : List (String × JValue) → Nat
  | [] => 1
  | [kv] => 1 + jsize kv.2
  | kv :: kw :: fs => 1 + jsize kv.2 + jsizeFields (kw :: fs)

end

/-- JSON whitespace. -/
def isJsonWs (c : Char) : Bool := c = ' ' || c = '\t' || c = '\n' || c = '\r'

/-- ASCII decimal digit test. -/
def isDigitChar (c : Char) : Bool := '0' ≤ c && c ≤ '9'

/-- Numeric value of a hexadecimal digit character, if it is one. -/
def hexVal (c : Char) : Option Nat :=
  if '0' ≤ c && c ≤ '9' then some (c.toNat - 48)
  else if 'a' ≤ c && c ≤ 'f' then some (c.toNat - 87)
  else if 'A' ≤ c && c ≤ 'F' then some (c.toNat - 55)
  else none

/-- Strip an expected literal character sequence from the front of the
input, returning the remainder on success. -/
def stripPfxChars : List Char → List Char → Option (List Char)
  | [], s => some s
  | _ :: _, [] => none
  | p :: ps, c :: cs => if c = p then stripPfxChars ps cs else none

/-- Parser for the body of a JSON string literal, returning the decoded
characters and the input following the closing quote.  Mirrors
`JSON.parse`: the standard escapes, `\uXXXX` (surrogate code points are
rejected by this model), and a hard error on raw control characters. -/
def parseStrBody : List Char → Option (List Char × List Char)
  | [] => none
  | c :: rest =>
    if c = '"' then some ([], rest)
    else if c = '\\' then
      match rest with
      | [] => none
      | e :: r =>
        if e = '"' then (parseStrBody r).map (fun p => ('"' :: p.1, p.2))
        else if e = '\\' then (parseStrBody r).map (fun p => ('\\' :: p.1, p.2))
        else if e = '/' then (parseStrBody r).map (fun p => ('/' :: p.1, p.2))
        else if e = 'b' then (parseStrBody r).map (fun p => ('\x08' :: p.1, p.2))
        else if e = 'f' then (parseStrBody r).map (fun p => ('\x0c' :: p.1, p.2))
        else if e = 'n' then (parseStrBody r).map (fun p => ('\n' :: p.1, p.2))
        else if e = 'r' then (parseStrBody r).map (fun p => ('\r' :: p.1, p.2))
        else if e = 't' then (parseStrBody r).map (fun p => ('\t' :: p.1, p.2))
        else if e = 'u' then
          match r with
          | h1 :: h2 :: h3 :: h4 :: r2 =>
            match hexVal h1, hexVal h2, hexVal h3, hexVal h4 with
            | some a, some b, some c2, some d =>
              let code := 4096 * a + 256 * b + 16 * c2 + d
              if code < 55296 then
                (parseStrBody r2).map (fun p => (Char.ofNat code :: p.1, p.2))
              else none
            | _, _, _, _ => none
          | _ => none
        else none
    else if c.toNat < 32 then none
    else (parseStrBody rest).map (fun p => (c :: p.1, p.2))

/-- Parser for an integer literal (optional minus sign, digits).  The
model covers the integer fragment of JSON numbers: a fraction or an
exponent makes the parse fail rather than producing a non-integral
number. -/
def parseIntLit (cs : List Char) : Option (Int × List Char) :=
  match cs with
  | [] => none
  | c :: cs0 =>
    let sign : Bool := c = '-'
    let cs2 : List Char := if c = '-' then cs0 else c :: cs0
    let ds := cs2.takeWhile isDigitChar
    let rest := cs2.dropWhile isDigitChar
    let bad : Bool :=
      match rest with
      | c2 :: _ => c2 = '.' || c2 = 'e' || c2 = 'E'
      | [] => false
    if ds.isEmpty then none
    else if bad then none
    else
      let n : Nat := ds.foldl (fun a c3 => 10 * a + (c3.toNat - 48)) 0
      some (if sign then -(n : Int) else (n : Int), rest)

/-- Prepend a key/value pair to the already-merged fields that follow
it, with JavaScript object semantics: a duplicate key keeps the first
occurrence's position and the last occurrence's value. -/
def consField (k : String) (v : JValue) (fs : List (String × JValue)) :
    List (String × JValue) :=
  match fs.find? (fun kv => kv.1 == k) with
  | some kv => (k, kv.2) :: fs.filter (fun kv => !(kv.1 == k))
  | none => (k, v) :: fs

mutual

/-- Fueled parser for one JSON value, mirroring `JSON.parse`.  Returns
the parsed value and the unconsumed input.  A fuel of `input length + 1`
is always sufficient, since every recursive step consumes input. -/
def parseVal : Nat → List Char → Option (JValue × List Char)
  | 0, _ => none
  | fuel + 1, l =>
    match l.dropWhile isJsonWs with
    | [] => none
    | c :: r =>
      if c = 'n' then (stripPfxChars ['u', 'l', 'l'] r).map (fun r2 => (.null, r2))
      else if c = 't' then (stripPfxChars ['r', 'u', 'e'] r).map (fun r2 => (.bool true, r2))
      else if c = 'f' then (stripPfxChars ['a', 'l', 's', 'e'] r).map (fun r2 => (.bool false, r2))
      else if c = '"' then (parseStrBody r).map (fun p => (.str (String.mk p.1), p.2))
      else if c = '[' then
        match r.dropWhile isJsonWs with
        | [] => none
        | c2 :: r2 =>
          if c2 = ']' then some (.arr [], r2)
          else (parseElems fuel r).map (fun p => (.arr p.1, p.2))
      else if c = '\x7b' then
        match r.dropWhile isJsonWs with
        | [] => none
        | c2 :: r2 =>
          if c2 = '\x7d' then some (.obj [], r2)
          else (parseFields fuel r).map (fun p => (.obj p.1, p.2))
      else (parseIntLit (c :: r)).map (fun p => (.num p.1, p.2))

/-- Fueled parser for a non-empty comma-separated value list up to the
closing bracket. -/
def parseElems : Nat → List Char → Option (List JValue × List Char)
  | 0, _ => none
  | fuel + 1, l =>
    match parseVal fuel l with
    | none => none
    | some (v, r) =>
      match r.dropWhile isJsonWs with
      | [] => none
      | c :: r2 =>
        if c = ',' then (parseElems fuel r2).map (fun p => (v :: p.1, p.2))
        else if c = ']' then some ([v], r2)
        else none

/-- Fueled parser for a non-empty `"key": value` list up to the closing
brace, with last-wins duplicate keys as in `JSON.parse`. -/
def parseFields : Nat → List Char → Option (List (String × JValue) × List Char)
  | 0, _ => none
  | fuel + 1, l =>
    match l.dropWhile isJsonWs with
    | [] => none
    | c :: r =>
      if c = '"' then
        match parseStrBody r with
        | none => none
        | some (kcs, r1) =>
          match r1.dropWhile isJsonWs with
          | [] => none
          | c2 :: r2 =>
            if c2 = ':' then
              match parseVal fuel r2 with
              | none => none
              | some (v, r3) =>
                match r3.dropWhile isJsonWs with
                | [] => none
                | c3 :: r4 =>
                  if c3 = ',' then
                    (parseFields fuel r4).map
                      (fun p => (consField (String.mk kcs) v p.1, p.2))
                  else if c3 = '\x7d' then some ([(String.mk kcs, v)], r4)
                  else none
            else none
      else none

end

/-- Model of `JSON.parse` (no reviver): parse one value, allow trailing
whitespace only. -/
def jsonParse (s : String) : Option JValue :=
  match parseVal (s.length + 1) s.data with
  | some (v, rest) => if (rest.dropWhile isJsonWs).isEmpty then some v else none
  | none => none

-- ── JSON well-formedness and parsing tails ─────────────────────────

/-- Distinctness of object keys at one level. -/
def nodupKeys : List (String × JValue) → Bool
  | [] => true
  | kv :: fs => !(fs.any (fun kw => kw.1 == kv.1)) && nodupKeys fs

mutual

/-- Well-formedness of a value as the image of a JavaScript value:
every object level has pairwise distinct keys.  `JSON.parse` output and
every value representable in JavaScript satisfy this. -/
def jwfVal : JValue → Bool
  | .null => true
  | .bool _ => true
  | .num _ => true
  | .str _ => true
  | .arr vs => jwfElems vs
  | .obj fs => nodupKeys fs && jwfFields fs

/-- Well-formedness of array elements. -/
def jwfElems : List JValue → Bool
  | [] => true
  | v :: vs => jwfVal v && jwfElems vs

/-- Well-formedness of object field values. -/
def jwfFields : List (String × JValue) → Bool
  | [] => true
  | kv :: fs => jwfVal kv.2 && jwfFields fs

end

/-- Admissible first characters following a serialized value: nothing,
or a separator or closer.  All recursive call sites of the parser
satisfy this. -/
def goodTail : List Char → Prop
  | [] => True
  | c :: _ => c = ',' ∨ c = ']' ∨ c = '\x7d'

-- ── Envelope wire format (native-window-ipc index.ts) ──────────────

/-- Wire format for typed messages (`interface Envelope`): `$ch` and an
optional payload `p` (`none` models a missing `p` key, i.e. an
`undefined` payload). -/
structure Envelope where
  ch : String
  p : Option JValue

/-- Default maximum IPC message size (1 MB), `MAX_MESSAGE_SIZE`. -/
def MAX_MESSAGE_SIZE : Nat := 1048576

/-- JavaScript own-property lookup on a parsed object (first match in
key order). -/
def lookupField : List (String × JValue) → String → Option JValue
  | [], _ => none
  | kv :: fs, k => if kv.1 == k then some kv.2 else lookupField fs k

/-- The post-parse part of `decode`: delete a top-level own `__proto__`
property, then require an object with a string `$ch` (`isEnvelope`).
Arrays and primitives have no own `$ch` and are rejected. -/
def decodeVal : JValue → Option Envelope
  | .obj fields =>
    let fields2 := fields.filter (fun kv => !(kv.1 == "__proto__"))
    match lookupField fields2 "$ch" with
    | some (.str s) => some ⟨s, lookupField fields2 "p"⟩
    | _ => none
  | _ => none

/-- `decode(raw, maxSize)` from index.ts: enforce the size cap, parse
JSON, strip a top-level `__proto__`, require an envelope. -/
def decode (raw : String) (maxSize : Nat) : Option Envelope :=
  if maxSize < raw.length then none
  else
    match jsonParse raw with
    | some v => decodeVal v
    | none => none

/-- `encode(type, payload)` from index.ts:
`JSON.stringify({$ch: type, p: payload})`.  When the payload is
`undefined` (`none`), `JSON.stringify` omits the `p` key. -/
def encode (type : String) (payload : Option JValue) : String :=
  match payload with
  | some v => jsonStringify (.obj [("$ch", .str type), ("p", v)])
  | none => jsonStringify (.obj [("$ch", .str type)])

-- ── Schemas (SchemaLike / safeParse) ───────────────────────────────

/-- Result of `safeParse`: either failure, or success carrying the
(possibly transformed) data. -/
inductive SPResult where
  | fail : SPResult
  | succ (data : Option JValue) : SPResult

/-- A schema exposing `safeParse`, the one-method contract of
`SchemaLike`. -/
structure SchemaLike where
  safeParse : Option JValue → SPResult

/-- `validatePayload` from index.ts: run `safeParse`, keep the parsed
data on success so schema transforms are honored. -/
def validatePayload (schema : SchemaLike) (data : Option JValue) : Option (Option JValue) :=
  match schema.safeParse data with
  | .succ d => some d
  | .fail => none

/-- A schema map, `Record<string, SchemaLike>` with insertion order. -/
def SchemaMap : Type := List (String × SchemaLike)

/-- JavaScript `key in map` on a plain schema-map object. -/
def keyIn (m : SchemaMap) (k : String) : Bool :=
  m.any (fun kv => kv.1 == k)

/-- JavaScript property read `map[key]` on a schema map. -/
def lookupSchema : SchemaMap → String → Option SchemaLike
  | [], _ => none
  | kv :: m, k => if kv.1 == k then some kv.2 else lookupSchema m k

-- ── Channel prefix helpers (createChannel) ─────────────────────────

/-- `prefixCh`: prepend `channelId:` when a channel id is configured. -/
def prefixCh (channelId : String) (type : String) : String :=
  if channelId = "" then type else channelId ++ ":" ++ type

/-- `unprefixCh`: with no channel id, pass through; otherwise require
and remove the `channelId:` lead, yielding `none` (drop) on mismatch. -/
def unprefixCh (channelId : String) (ch : String) : Option String :=
  if channelId = "" then some ch
  else (stripPfxChars (channelId ++ ":").data ch.data).map String.mk

-- ── WHATWG URL origin model ────────────────────────────────────────

/-- ASCII lowercasing of one character. -/
def asciiLower (c : Char) : Char :=
  if 'A' ≤ c && c ≤ 'Z' then Char.ofNat (c.toNat + 32) else c

/-- ASCII letter test. -/
def isAlphaChar (c : Char) : Bool :=
  ('a' ≤ c && c ≤ 'z') || ('A' ≤ c && c ≤ 'Z')

/-- URL scheme character (after the first). -/
def isSchemeChar (c : Char) : Bool :=
  isAlphaChar c || isDigitChar c || c = '+' || c = '-' || c = '.'

/-- Characters this model admits in a host name. -/
def isHostChar (c : Char) : Bool :=
  isAlphaChar c || isDigitChar c || c = '.' || c = '-' || c = '_'

/-- Default port of the special schemes that carry a host-based origin.
Other schemes (including `file`, `data`, `about`, `blob`) yield the
opaque origin, serialized as `"null"`. -/
def specialSchemePort (scheme : String) : Option Nat :=
  if scheme = "http" then some 80
  else if scheme = "https" then some 443
  else if scheme = "ws" then some 80
  else if scheme = "wss" then some 443
  else if scheme = "ftp" then some 21
  else none

/-- Split `scheme:` from the front of a URL: an ASCII letter followed by
scheme characters and a colon. -/
def splitScheme (cs : List Char) : Option (List Char × List Char) :=
  match cs with
  | [] => none
  | c :: _ =>
    if isAlphaChar c then
      match cs.dropWhile isSchemeChar with
      | c2 :: rest => if c2 = ':' then some (cs.takeWhile isSchemeChar, rest) else none
      | [] => none
    else none

/-- Strip `userinfo@` from an authority: keep everything after the last
`@`. -/
def afterLastAt (cs : List Char) : List Char :=
  if cs.contains '@' then ((cs.reverse.takeWhile (fun c => c ≠ '@')).reverse) else cs

/-- Split `host[:port]`; a second colon makes the authority invalid for
this model. -/
def splitHostPort (cs : List Char) : Option (List Char × Option (List Char)) :=
  let h := cs.takeWhile (fun c => c ≠ ':')
  match cs.dropWhile (fun c => c ≠ ':') with
  | [] => some (h, none)
  | _ :: p => if p.contains ':' then none else some (h, some p)

/-- Numeric value of a digit sequence. -/
def digitsToNat (ds : List Char) : Nat :=
  ds.foldl (fun a c => 10 * a + (c.toNat - 48)) 0

/-- Modelled from the spec: the WHATWG URL Standard `origin` getter of
the platform `URL` class, which `normalizeOrigin` and `isOriginTrusted`
call and which is not part of this repository.  Covers absolute URLs of
the special host-based schemes (scheme and host lowercased, default
ports stripped, userinfo stripped, port capped at 65535), returns the
opaque-origin serialization `"null"` for other schemes, and `none` for
inputs that do not parse as a URL (no scheme, empty host, invalid host
or port characters).  IPv6 hosts, percent-encoding and IDNA are outside
the model. -/
def urlOrigin (url : String) : Option String :=
  match splitScheme url.data with
  | none => none
  | some (schemeCs, rest) =>
    let scheme := String.mk (schemeCs.map asciiLower)
    match specialSchemePort scheme with
    | none => some "null"
    | some defPort =>
      let rest2 := rest.dropWhile (fun c => c = '/' || c = '\\')
      let auth := rest2.takeWhile (fun c => !(c = '/' || c = '\\' || c = '?' || c = '#'))
      let hostport := afterLastAt auth
      match splitHostPort hostport with
      | none => none
      | some (hostCs, portCs) =>
        if hostCs.isEmpty then none
        else if !(hostCs.all isHostChar) then none
        else
          let host := String.mk (hostCs.map asciiLower)
          match portCs with
          | none => some (scheme ++ "://" ++ host)
          | some pcs =>
            if pcs.isEmpty then some (scheme ++ "://" ++ host)
            else if !(pcs.all isDigitChar) then none
            else
              let port := digitsToNat pcs
              if 65535 < port then none
              else if port = defPort then some (scheme ++ "://" ++ host)
              else some (scheme ++ "://" ++ host ++ ":" ++ String.mk (natChars port))

/-- `normalizeOrigin` from index.ts: `new URL(origin).origin`, with the
opaque origin `"null"` and parse failures mapped to `null`. -/
def normalizeOrigin (origin : String) : Option String :=
  match urlOrigin origin with
  | some o => if o = "null" then none else some o
  | none => none

/-- `isOriginTrusted(url, trustedOrigins)` from index.ts: parse the URL
and test membership of its origin in the (already normalized) list;
malformed URLs are untrusted. -/
def isOriginTrusted (url : String) (trustedOrigins : List String) : Bool :=
  match urlOrigin url with
  | some o => trustedOrigins.contains o
  | none => false

-- ── createChannel: configuration, state, message processing ────────

/-- The options of `createChannel` after `channelId` resolution.
`trustedOrigins = none` models the option being absent. -/
structure ChannelConfig where
  schemas : SchemaMap
  injectClient : Bool
  trustedOrigins : Option (List String)
  maxMessageSize : Option Nat
  rateLimit : Option Nat
  maxListenersPerEvent : Option Nat
  channelId : String

/-- `normalizedOrigins`: trusted origins normalized through
`normalizeOrigin`, unparseable entries dropped. -/
def normalizedOrigins (cfg : ChannelConfig) : Option (List String) :=
  cfg.trustedOrigins.map (fun l => l.filterMap normalizeOrigin)

/-- Mutable state of one channel: the sliding-window rate-limiter
timestamps and the listener map.  Handlers are identified by numbers;
each event's handlers are kept in insertion order with set semantics,
mirroring `Map<string, Set<handler>>`. -/
structure ChannelState where
  rateWindow : List Int
  listeners : List (String × List Nat)

/-- JavaScript `Map.get`. -/
def lisGet : List (String × List Nat) → String → Option (List Nat)
  | [], _ => none
  | kv :: m, k => if kv.1 == k then some kv.2 else lisGet m k

/-- JavaScript `Map.set` (insertion order preserved, existing key
updated in place). -/
def lisSet (m : List (String × List Nat)) (k : String) (v : List Nat) :
    List (String × List Nat) :=
  if m.any (fun kv => kv.1 == k) then
    m.map (fun kv => if kv.1 == k then (k, v) else kv)
  else m ++ [(k, v)]

/-- JavaScript `Set.add`: append if not present. -/
def addToSet (s : List Nat) (h : Nat) : List Nat :=
  if s.contains h then s else s ++ [h]

/-- `createChannel`'s `on(type, handler)`: drop unknown event types,
create the (possibly empty) handler set, drop when
`maxListenersPerEvent` is reached, otherwise add. -/
def channelOn (cfg : ChannelConfig) (st : ChannelState) (t : String) (h : Nat) :
    ChannelState :=
  if !(keyIn cfg.schemas t) then st
  else
    let st1 :=
      match lisGet st.listeners t with
      | some _ => st
      | none => { st with listeners := lisSet st.listeners t [] }
    let set := (lisGet st1.listeners t).getD []
    match cfg.maxListenersPerEvent with
    | some cap =>
      if cap ≤ set.length then st1
      else { st1 with listeners := lisSet st1.listeners t (addToSet set h) }
    | none => { st1 with listeners := lisSet st1.listeners t (addToSet set h) }

/-- `createChannel`'s `off(type, handler)`: remove by identity. -/
def channelOff (st : ChannelState) (t : String) (h : Nat) : ChannelState :=
  match lisGet st.listeners t with
  | none => st
  | some s => { st with listeners := lisSet st.listeners t (s.filter (fun x => x ≠ h)) }

/-- `createChannel`'s `send(type, payload)`: encode with the channel
prefix and post through the window, unconditionally.  The returned list
is the sequence of messages posted to the window by this call. -/
def channelSend (cfg : ChannelConfig) (type : String) (payload : Option JValue) :
    List String :=
  [encode (prefixCh cfg.channelId type) payload]

/-- Where the incoming-message handler of `createChannel` stopped for
one message.  Each constructor corresponds to one `return` site of the
source; `dispatched` carries the unprefixed event type, the handler set
in invocation order and the validated payload each handler receives;
`invalidPayload` is the `onValidationError` site. -/
inductive MsgOutcome where
  | rateLimited : MsgOutcome
  | badDecode : MsgOutcome
  | badPrefix : MsgOutcome
  | untrustedOrigin : MsgOutcome
  | noListeners : MsgOutcome
  | notInSchema : MsgOutcome
  | invalidPayload (eventType : String) (payload : Option JValue) : MsgOutcome
  | dispatched (eventType : String) (handlers : List Nat) (payload : Option JValue) : MsgOutcome

/-- Whether the origin gate drops a message from `sourceUrl`. -/
def originBlocked (cfg : ChannelConfig) (sourceUrl : String) : Bool :=
  match normalizedOrigins cfg with
  | some l => !(l.isEmpty) && !(isOriginTrusted sourceUrl l)
  | none => false

/-- The portion of the `win.onMessage` handler after the rate limiter:
decode, unprefix, origin gate, listener lookup, schema allowlist,
validation, dispatch — in source order. -/
def processDecoded (cfg : ChannelConfig) (st : ChannelState) (raw : String)
    (sourceUrl : String) : ChannelState × MsgOutcome :=
  match decode raw (cfg.maxMessageSize.getD MAX_MESSAGE_SIZE) with
  | none => (st, .badDecode)
  | some env =>
    match unprefixCh cfg.channelId env.ch with
    | none => (st, .badPrefix)
    | some eventType =>
      if originBlocked cfg sourceUrl then (st, .untrustedOrigin)
      else
        match lisGet st.listeners eventType with
        | none => (st, .noListeners)
        | some set =>
          if !(keyIn cfg.schemas eventType) then (st, .notInSchema)
          else
            match lookupSchema cfg.schemas eventType with
            | some schema =>
              match validatePayload schema env.p with
              | none => (st, .invalidPayload eventType env.p)
              | some data => (st, .dispatched eventType set data)
            | none => (st, .dispatched eventType set env.p)

/-- The `win.onMessage` handler of `createChannel` for one incoming
`(raw, sourceUrl)` at time `now` (`Date.now()` in milliseconds): the
sliding-window rate limiter followed by `processDecoded`. -/
def processMessage (cfg : ChannelConfig) (st : ChannelState) (now : Int)
    (raw : String) (sourceUrl : String) : ChannelState × MsgOutcome :=
  match cfg.rateLimit with
  | some r =>
    if 0 < r then
      let w := st.rateWindow.dropWhile (fun t => t ≤ now - 1000)
      if r ≤ w.length then ({ st with rateWindow := w }, .rateLimited)
      else processDecoded cfg { st with rateWindow := w ++ [now] } raw sourceUrl
    else processDecoded cfg st raw sourceUrl
  | none => processDecoded cfg st raw sourceUrl

/-- Whether an outcome invoked handlers. -/
def isDispatch : MsgOutcome → Bool
  | .dispatched _ _ _ => true
  | _ => false

/-- Process a time-stamped message sequence, threading the channel
state; yields each message's timestamp and outcome. -/
def runMessages (cfg : ChannelConfig) :
    ChannelState → List (Int × String × String) → List (Int × MsgOutcome)
  | _, [] => []
  | st, m :: rest =>
    let r := processMessage cfg st m.1 m.2.1 m.2.2
    (m.1, r.2) :: runMessages cfg r.1 rest

/-- Count of messages in `out` that dispatched handlers inside the
closed time interval `[a, b]`. -/
def dispatchCountIn (out : List (Int × MsgOutcome)) (a b : Int) : Nat :=
  (out.filter (fun p => decide (a ≤ p.1) && decide (p.1 ≤ b) && isDispatch p.2)).length

-- ── createChannel: client script injection ─────────────────────────

/-- The injection decision taken at channel initialization: inject
immediately only when `injectClient` is set and no normalized trusted
origin is configured. -/
def initialInjectClient (cfg : ChannelConfig) : Bool :=
  cfg.injectClient &&
    (match normalizedOrigins cfg with
     | none => true
     | some l => l.isEmpty)

/-- The injection decision of the `onPageLoad` handler registered by
`createChannel` (registered only when `injectClient` is set): inject on
`finished` events, and when normalized trusted origins exist, only for
URLs whose origin is trusted. -/
def pageLoadInjectClient (cfg : ChannelConfig) (event : String) (url : String) : Bool :=
  cfg.injectClient && (event == "finished") &&
    (match normalizedOrigins cfg with
     | none => true
     | some l => l.isEmpty || isOriginTrusted url l)

-- ── channelId resolution (createChannel) and the random nonce ──────

/-- The `channelId` option: absent, `true` (auto nonce) or a literal
string. -/
inductive ChannelIdOpt where
  | absent : ChannelIdOpt
  | auto : ChannelIdOpt
  | given (s : String) : ChannelIdOpt

/-- JavaScript `String.prototype.slice(start, stop)` for non-negative
arguments. -/
def jsSlice (s : String) (start stop : Nat) : String :=
  String.mk ((s.data.drop start).take (stop - start))

/-- `createChannel`'s channelId resolution:
`channelIdOpt === true ? Math.random().toString(36).slice(2, 10) :
(channelIdOpt ?? "")`.  The second argument is the string produced by
`Math.random().toString(36)`. -/
def resolveChannelId (opt : ChannelIdOpt) (randStr : String) : String :=
  match opt with
  | .auto => jsSlice randStr 2 10
  | .given s => s
  | .absent => ""

/-- Base-36 digit as produced by `Number.prototype.toString(36)`. -/
def isBase36Digit (c : Char) : Bool :=
  isDigitChar c || ('a' ≤ c && c ≤ 'z')

/-- Modelled from the spec: the possible outputs of
`Math.random().toString(36)` for a double in `[0, 1)` — either `"0"`
(for the value zero) or `"0."` followed by at least one base-36 digit.
Exact digit counts depend on the double's binary value; dyadic
rationals such as one half produce short expansions (`"0.i"`). -/
def isRandomToString36 (s : String) : Prop :=
  s = "0" ∨
    ∃ ds : List Char, ds ≠ [] ∧ (∀ c ∈ ds, isBase36Digit c = true) ∧
      s.data = '0' :: '.' :: ds

-- ── getClientScript ────────────────────────────────────────────────

/-- `getClientScript(options)` from index.ts: the self-contained
webview bridge script, with the channel prefix spliced in as a JSON
string literal (`JSON.stringify(prefix)`).  The two fixed template
halves are transcribed byte-for-byte from the source. -/
def getClientScript (channelId : Option String) : String :=
  "(function()\x7b\nvar _slice=Array.prototype.slice;\nvar _filter=Array.prototype.filter;\nvar _push=Array.prototype.push;\nvar _indexOf=Array.prototype.indexOf;\nvar _splice=Array.prototype.splice;\nvar _pfx="
    ++ String.mk (stringifyVal (.str (channelId.getD "")))
    ++ ";\nvar _l=Object.create(null);\nvar _el=[];\nfunction _e(t,p)\x7breturn JSON.stringify(\x7b$ch:_pfx?_pfx+\":\"+t:t,p:p\x7d)\x7d\nfunction _d(r)\x7bif(r.length>1048576)return null;try\x7bvar o=JSON.parse(r);if(typeof o===\"object\"&&o!==null&&\"__proto__\" in o)delete o.__proto__;if(o&&typeof o.$ch===\"string\")return o\x7dcatch(e)\x7b\x7dreturn null\x7d\nfunction _uch(ch)\x7bif(!_pfx)return ch;if(ch.indexOf(_pfx+\":\")===0)return ch.slice(_pfx.length+1);return null\x7d\nvar ch=\x7b\nsend:function(t,p)\x7bwindow.ipc.postMessage(_e(t,p))\x7d,\non:function(t,h)\x7bif(!_l[t])_l[t]=[];_l[t].push(h)\x7d,\noff:function(t,h)\x7bif(!_l[t])return;_l[t]=_filter.call(_l[t],function(f)\x7breturn f!==h\x7d)\x7d\n\x7d;\nvar _orig=window.__native_message__;\ntry\x7bObject.defineProperty(window,\x27__native_message__\x27,\x7bvalue:function(msg)\x7b\nvar env=_d(msg);\nif(env)\x7bvar key=_uch(env.$ch);if(key!==null&&_l[key])\x7bvar fns=_slice.call(_l[key]);for(var i=0;i<fns.length;i++)\x7btry\x7bfns[i](env.p)\x7dcatch(e)\x7b\x7d\x7d\x7d\nelse\x7bfor(var j=0;j<_el.length;j++)\x7btry\x7b_el[j](msg)\x7dcatch(e)\x7b\x7d\x7dif(_orig)\x7b_orig(msg)\x7d\x7d\x7d\nelse\x7bfor(var j=0;j<_el.length;j++)\x7btry\x7b_el[j](msg)\x7dcatch(e)\x7b\x7d\x7dif(_orig)\x7b_orig(msg)\x7d\x7d\n\x7d,writable:false,configurable:false\x7d)\x7dcatch(e)\x7b\x7d\ntry\x7bObject.defineProperty(window,\x27__native_message_listeners__\x27,\x7bvalue:Object.freeze(\x7badd:function(fn)\x7bif(typeof fn===\x27function\x27)_push.call(_el,fn)\x7d,remove:function(fn)\x7bvar i=_indexOf.call(_el,fn);if(i!==-1)_splice.call(_el,i,1)\x7d\x7d),writable:false,configurable:false\x7d)\x7dcatch(e)\x7b\x7d\ntry\x7bObject.defineProperty(window,\x27__channel__\x27,\x7bvalue:Object.freeze(ch),writable:false,configurable:false\x7d)\x7dcatch(e)\x7b\x7d\n\x7d)();"

/-- The fixed template half of the client script preceding the spliced
prefix literal (`var _pfx=`), byte-for-byte from the source. -/
def clientHeader : String :=
  "(function()\x7b\nvar _slice=Array.prototype.slice;\nvar _filter=Array.prototype.filter;\nvar _push=Array.prototype.push;\nvar _indexOf=Array.prototype.indexOf;\nvar _splice=Array.prototype.splice;\nvar _pfx="

/-- The fixed template half of the client script following the spliced
prefix literal, byte-for-byte from the source. -/
def clientTail : String :=
  ";\nvar _l=Object.create(null);\nvar _el=[];\nfunction _e(t,p)\x7breturn JSON.stringify(\x7b$ch:_pfx?_pfx+\":\"+t:t,p:p\x7d)\x7d\nfunction _d(r)\x7bif(r.length>1048576)return null;try\x7bvar o=JSON.parse(r);if(typeof o===\"object\"&&o!==null&&\"__proto__\" in o)delete o.__proto__;if(o&&typeof o.$ch===\"string\")return o\x7dcatch(e)\x7b\x7dreturn null\x7d\nfunction _uch(ch)\x7bif(!_pfx)return ch;if(ch.indexOf(_pfx+\":\")===0)return ch.slice(_pfx.length+1);return null\x7d\nvar ch=\x7b\nsend:function(t,p)\x7bwindow.ipc.postMessage(_e(t,p))\x7d,\non:function(t,h)\x7bif(!_l[t])_l[t]=[];_l[t].push(h)\x7d,\noff:function(t,h)\x7bif(!_l[t])return;_l[t]=_filter.call(_l[t],function(f)\x7breturn f!==h\x7d)\x7d\n\x7d;\nvar _orig=window.__native_message__;\ntry\x7bObject.defineProperty(window,\x27__native_message__\x27,\x7bvalue:function(msg)\x7b\nvar env=_d(msg);\nif(env)\x7bvar key=_uch(env.$ch);if(key!==null&&_l[key])\x7bvar fns=_slice.call(_l[key]);for(var i=0;i<fns.length;i++)\x7btry\x7bfns[i](env.p)\x7dcatch(e)\x7b\x7d\x7d\x7d\nelse\x7bfor(var j=0;j<_el.length;j++)\x7btry\x7b_el[j](msg)\x7dcatch(e)\x7b\x7d\x7dif(_orig)\x7b_orig(msg)\x7d\x7d\x7d\nelse\x7bfor(var j=0;j<_el.length;j++)\x7btry\x7b_el[j](msg)\x7dcatch(e)\x7b\x7d\x7dif(_orig)\x7b_orig(msg)\x7d\x7d\n\x7d,writable:false,configurable:false\x7d)\x7dcatch(e)\x7b\x7d\ntry\x7bObject.defineProperty(window,\x27__native_message_listeners__\x27,\x7bvalue:Object.freeze(\x7badd:function(fn)\x7bif(typeof fn===\x27function\x27)_push.call(_el,fn)\x7d,remove:function(fn)\x7bvar i=_indexOf.call(_el,fn);if(i!==-1)_splice.call(_el,i,1)\x7d\x7d),writable:false,configurable:false\x7d)\x7dcatch(e)\x7b\x7d\ntry\x7bObject.defineProperty(window,\x27__channel__\x27,\x7bvalue:Object.freeze(ch),writable:false,configurable:false\x7d)\x7dcatch(e)\x7b\x7d\n\x7d)();"

-- ── NativeWindow wrapper (native-window index.ts) ──────────────────

/-- Commands issued to the native layer by the wrapper methods. -/
inductive NativeCmd where
  | loadUrl (url : String) : NativeCmd
  | loadHtml (html : String) : NativeCmd
  | postMessage (msg : String) : NativeCmd
  | setTitle (t : String) : NativeCmd
  | setSize (w h : Int) : NativeCmd
  | setMinSize (w h : Int) : NativeCmd
  | setMaxSize (w h : Int) : NativeCmd
  | setPosition (x y : Int) : NativeCmd
  | setResizable (b : Bool) : NativeCmd
  | setDecorations (b : Bool) : NativeCmd
  | setAlwaysOnTop (b : Bool) : NativeCmd
  | show : NativeCmd
  | hide : NativeCmd
  | close : NativeCmd
  | focus : NativeCmd
  | maximize : NativeCmd
  | minimize : NativeCmd
  | unmaximize : NativeCmd
  | reload : NativeCmd
  | getCookies (url : Option String) : NativeCmd
  | evaluateJs (script : String) : NativeCmd

/-- Local state of the `NativeWindow` wrapper: the `_closed` flag. -/
structure WinState where
  closed : Bool

/-- The mutating methods of the `NativeWindow` wrapper, including
`getCookies` and `evaluateJs` reached through the `unsafe` accessor. -/
inductive NWMethod where
  | loadUrl (url : String) : NWMethod
  | loadHtml (html : String) : NWMethod
  | postMessage (msg : String) : NWMethod
  | setTitle (t : String) : NWMethod
  | setSize (w h : Int) : NWMethod
  | setMinSize (w h : Int) : NWMethod
  | setMaxSize (w h : Int) : NWMethod
  | setPosition (x y : Int) : NWMethod
  | setResizable (b : Bool) : NWMethod
  | setDecorations (b : Bool) : NWMethod
  | setAlwaysOnTop (b : Bool) : NWMethod
  | show : NWMethod
  | hide : NWMethod
  | close : NWMethod
  | focus : NWMethod
  | maximize : NWMethod
  | minimize : NWMethod
  | unmaximize : NWMethod
  | reload : NWMethod
  | getCookies (url : Option String) : NWMethod
  | unsafeEvaluateJs (script : String) : NWMethod

/-- `_ensureOpen()`: throw `"Window is closed"` when the `_closed` flag
is set. -/
def ensureOpen (st : WinState) : Except String Unit :=
  if st.closed then .error "Window is closed" else .ok ()

/-- One wrapper method call against the current state: every method
first runs `_ensureOpen` and then issues its native command; `close`
sets the local `_closed` flag before issuing the native close, so a
second `close()` fails fast.  `unsafeEvaluateJs` models
`win.unsafe.evaluateJs(s)`: the `unsafe` accessor checks `_ensureOpen`
and the returned closure re-checks it against the state at call time,
so a reference cached before `close()` also fails. -/
def runMethod : NWMethod → WinState → Except String (WinState × List NativeCmd)
  | .loadUrl u, st => do
    let _ ← ensureOpen st
    pure (st, [.loadUrl u])
  | .loadHtml h, st => do
    let _ ← ensureOpen st
    pure (st, [.loadHtml h])
  | .postMessage m, st => do
    let _ ← ensureOpen st
    pure (st, [.postMessage m])
  | .setTitle t, st => do
    let _ ← ensureOpen st
    pure (st, [.setTitle t])
  | .setSize w h, st => do
    let _ ← ensureOpen st
    pure (st, [.setSize w h])
  | .setMinSize w h, st => do
    let _ ← ensureOpen st
    pure (st, [.setMinSize w h])
  | .setMaxSize w h, st => do
    let _ ← ensureOpen st
    pure (st, [.setMaxSize w h])
  | .setPosition x y, st => do
    let _ ← ensureOpen st
    pure (st, [.setPosition x y])
  | .setResizable b, st => do
    let _ ← ensureOpen st
    pure (st, [.setResizable b])
  | .setDecorations b, st => do
    let _ ← ensureOpen st
    pure (st, [.setDecorations b])
  | .setAlwaysOnTop b, st => do
    let _ ← ensureOpen st
    pure (st, [.setAlwaysOnTop b])
  | .show, st => do
    let _ ← ensureOpen st
    pure (st, [.show])
  | .hide, st => do
    let _ ← ensureOpen st
    pure (st, [.hide])
  | .close, st => do
    let _ ← ensureOpen st
    pure (⟨true⟩, [.close])
  | .focus, st => do
    let _ ← ensureOpen st
    pure (st, [.focus])
  | .maximize, st => do
    let _ ← ensureOpen st
    pure (st, [.maximize])
  | .minimize, st => do
    let _ ← ensureOpen st
    pure (st, [.minimize])
  | .unmaximize, st => do
    let _ ← ensureOpen st
    pure (st, [.unmaximize])
  | .reload, st => do
    let _ ← ensureOpen st
    pure (st, [.reload])
  | .getCookies u, st => do
    let _ ← ensureOpen st
    pure (st, [.getCookies u])
  | .unsafeEvaluateJs s, st => do
    let _ ← ensureOpen st
    let _ ← ensureOpen st
    pure (st, [.evaluateJs s])

-- ── sanitizeForJs (native-window index.ts) ─────────────────────────

/-- Case-insensitive ASCII character comparison. -/
def lowerEq (a b : Char) : Bool := asciiLower a == asciiLower b

/-- Strip an expected character sequence case-insensitively. -/
def stripPfxCI : List Char → List Char → Option (List Char)
  | [], s => some s
  | _ :: _, [] => none
  | p :: ps, c :: cs => if lowerEq c p then stripPfxCI ps cs else none

/-- Fueled left-to-right non-overlapping global replacement, the
semantics of `String.prototype.replace` with a `g`-flagged literal
pattern.  A fuel of the input length is always sufficient for non-empty
patterns. -/
def replaceAllF : Nat → List Char → List Char → List Char → List Char
  | 0, _, _, s => s
  | _ + 1, _, _, [] => []
  | fuel + 1, pat, repl, c :: rest =>
    match stripPfxChars pat (c :: rest) with
    | some after => repl ++ replaceAllF fuel pat repl after
    | none => c :: replaceAllF fuel pat repl rest

/-- Global replacement of a literal pattern. -/
def replaceAll (pat repl s : List Char) : List Char :=
  replaceAllF s.length pat repl s

/-- Fueled case-insensitive global replacement, the semantics of a
`gi`-flagged literal pattern. -/
def replaceAllCIF : Nat → List Char → List Char → List Char → List Char
  | 0, _, _, s => s
  | _ + 1, _, _, [] => []
  | fuel + 1, pat, repl, c :: rest =>
    match stripPfxCI pat (c :: rest) with
    | some after => repl ++ replaceAllCIF fuel pat repl after
    | none => c :: replaceAllCIF fuel pat repl rest

/-- Case-insensitive global replacement of a literal pattern. -/
def replaceAllCI (pat repl s : List Char) : List Char :=
  replaceAllCIF s.length pat repl s

/-- `sanitizeForJs(input)` from index.ts: the eleven chained global
replacements, innermost applied first exactly as the source chains
`.replace` calls — backslash, single quote, double quote, backtick,
`$\x7b`, newline, carriage return, NUL, U+2028, U+2029, and the
case-insensitive `</script>`. -/
def sanitizeForJs (input : String) : String :=
  String.mk (
    replaceAllCI "</script>".data "<\\/script>".data (
    replaceAll ['\u2029'] "\\u2029".data (
    replaceAll ['\u2028'] "\\u2028".data (
    replaceAll ['\x00'] "\\0".data (
    replaceAll ['\r'] "\\r".data (
    replaceAll ['\n'] "\\n".data (
    replaceAll ['$', '\x7b'] "\\$\x7b".data (
    replaceAll ['\x60'] "\\\x60".data (
    replaceAll ['"'] "\\\"".data (
    replaceAll ['\x27'] "\\\x27".data (
    replaceAll ['\\'] "\\\\".data input.data)))))))))))

-- ── String-fact helpers for the generated script and sanitizer ─────

/-- Whether `p` is a prefix of `s` (character lists). -/
def startsWithChars (p s : List Char) : Bool := (stripPfxChars p s).isSome

/-- Whether `p` occurs (contiguously) anywhere in `s`. -/
def occursChars (p : List Char) : List Char → Bool
  | [] => (stripPfxChars p []).isSome
  | c :: rest => (stripPfxChars p (c :: rest)).isSome || occursChars p rest

/-- Whether every occurrence of `pat` in the list is immediately
followed by `next`. -/
def occurrencesFollowedBy (pat next : List Char) : List Char → Bool
  | [] => true
  | c :: rest =>
    (match stripPfxChars pat (c :: rest) with
     | some after => startsWithChars next after
     | none => true) && occurrencesFollowedBy pat next rest

/-- Length of the backslash run at the end of `pre`: the number of
backslashes immediately preceding whatever follows. -/
def trailingBackslashes (pre : List Char) : Nat :=
  (pre.reverse.takeWhile (fun c => c = '\\')).length

/-- Every occurrence of `mark` in `s` is preceded by an odd number of
backslashes, so inside a JavaScript string literal every such
occurrence is escaped. -/
def oddEscapedBefore (mark : List Char) (s : List Char) : Prop :=
  ∀ pre post, s = pre ++ mark ++ post → Odd (trailingBackslashes pre)

/-- Case-insensitive (ASCII) containment of `pat` in `s`. -/
def containsCI (pat s : List Char) : Prop :=
  ∃ pre mid post, s = pre ++ mid ++ post ∧ mid.map asciiLower = pat.map asciiLower

/-- Shape test behind `isEnvelope`: the parsed value is an object whose
own `$ch` property is a string.  (A top-level `__proto__` key does not
affect this: `decode` deletes it and `$ch` is a different key.) -/
def envelopeOk (v : JValue) : Bool :=
  match v with
  | .obj fs =>
    (match lookupField fs "$ch" with
     | some (.str _) => true
     | _ => false)
  | _ => false

/-- Parity automaton step for trailing-backslash runs: a backslash
flips the parity, any other character resets the run to length 0. -/
def parityStep (par : Bool) (c : Char) : Bool := if c = '\\' then !par else false

/-- Parity of the trailing backslash run after scanning `s` starting
from run parity `par` (`true` = odd). -/
def parityAfter (par : Bool) (s : List Char) : Bool := s.foldl parityStep par

/-- Scanner checking that at every position of `s` where `mark` starts,
the parity of the immediately preceding backslash run equals `want`. -/
def scanReq (mark : List Char) (want : Bool) : Bool → List Char → Bool
  | _, [] => true
  | par, c :: rest =>
    (!(startsWithChars mark (c :: rest)) || (par == want)) &&
      scanReq mark want (parityStep par c) rest

/-- Whether `p` occurs case-insensitively (ASCII) anywhere in the list. -/
def occursCI (p : List Char) : List Char → Bool
  | [] => (stripPfxCI p []).isSome
  | c :: rest => (stripPfxCI p (c :: rest)).isSome || occursCI p rest

-- ════════════════════════ Theorems ════════════════════════════════

-- ── JSON model: digits ─────────────────────────────────────────────

theorem digitChar_toNat (d : Nat) (h : d < 10) : (digitChar d).toNat = 48 + d := by
  interval_cases d <;> decide

theorem isDigit_digitChar (d : Nat) (h : d < 10) : isDigitChar (digitChar d) = true := by
  interval_cases d <;> decide

theorem natDigitsF_ne_nil (fuel n : Nat) : natDigitsF fuel n ≠ [] := by
  cases fuel with
  | zero => simp [natDigitsF]
  | succ f =>
    by_cases h : n < 10 <;> simp [natDigitsF, h]

theorem natDigitsF_digits :
    ∀ fuel n, n ≤ fuel → ∀ c ∈ natDigitsF fuel n, isDigitChar c = true := by
  intro fuel
  induction fuel with
  | zero =>
    intro n hn c hc
    have h0 : n = 0 := Nat.le_zero.mp hn
    subst h0
    simp [natDigitsF] at hc
    subst hc
    decide
  | succ f ih =>
    intro n hn c hc
    by_cases h10 : n < 10
    · simp [natDigitsF, h10] at hc
      subst hc
      exact isDigit_digitChar n h10
    · simp [natDigitsF, h10] at hc
      rcases hc with hc | hc
      · have hlt : n / 10 ≤ f := by
          have := Nat.div_lt_self (by omega : 0 < n) (by omega : 1 < 10)
          omega
        exact ih (n / 10) hlt c hc
      · subst hc
        exact isDigit_digitChar _ (Nat.mod_lt _ (by norm_num))

theorem natDigitsF_foldl :
    ∀ fuel n, n ≤ fuel → ∀ acc : Nat,
      (natDigitsF fuel n).foldl (fun a c => 10 * a + (c.toNat - 48)) acc =
        acc * 10 ^ (natDigitsF fuel n).length + n := by
  intro fuel
  induction fuel with
  | zero =>
    intro n hn acc
    have h0 : n = 0 := Nat.le_zero.mp hn
    subst h0
    simp [natDigitsF, digitChar_toNat 0 (by norm_num)]
    ring
  | succ f ih =>
    intro n hn acc
    by_cases h10 : n < 10
    · simp [natDigitsF, h10, digitChar_toNat n h10]
      ring
    · have heq : natDigitsF (f + 1) n = natDigitsF f (n / 10) ++ [digitChar (n % 10)] := by
        simp [natDigitsF, h10]
      have hlt : n / 10 ≤ f := by
        have := Nat.div_lt_self (by omega : 0 < n) (by omega : 1 < 10)
        omega
      rw [heq, List.foldl_append, ih (n / 10) hlt acc]
      have hmod : (digitChar (n % 10)).toNat = 48 + n % 10 :=
        digitChar_toNat _ (Nat.mod_lt _ (by norm_num))
      have hdm := Nat.div_add_mod n 10
      simp [hmod, List.length_append, pow_succ]
      ring_nf
      omega

theorem natChars_foldl (n : Nat) :
    (natChars n).foldl (fun a c => 10 * a + (c.toNat - 48)) 0 = n := by
  have := natDigitsF_foldl n n le_rfl 0
  simpa [natChars] using this

theorem natChars_digits (n : Nat) : ∀ c ∈ natChars n, isDigitChar c = true :=
  natDigitsF_digits n n le_rfl

theorem natChars_ne_nil (n : Nat) : natChars n ≠ [] := natDigitsF_ne_nil n n

-- ── JSON model: integer literals ───────────────────────────────────

theorem stripPfxChars_self (p : List Char) : ∀ s, stripPfxChars p (p ++ s) = some s := by
  induction p with
  | nil => intro s; simp [stripPfxChars]
  | cons c cs ih => intro s; simp [stripPfxChars, ih]

theorem takeWhile_append_of (p : Char → Bool) (ds rest : List Char)
    (hds : ∀ c ∈ ds, p c = true)
    (hr : ∀ c r', rest = c :: r' → p c = false) :
    (ds ++ rest).takeWhile p = ds ∧ (ds ++ rest).dropWhile p = rest := by
  induction ds with
  | nil =>
    cases rest with
    | nil => simp
    | cons c r' =>
      have := hr c r' rfl
      simp [List.takeWhile_cons, List.dropWhile_cons, this]
  | cons c cs ih =>
    have hc : p c = true := hds c (by simp)
    have hrec := ih (fun x hx => hds x (by simp [hx]))
    simp [List.takeWhile_cons, List.dropWhile_cons, hc, hrec.1, hrec.2]

theorem goodTail_head_facts (rest : List Char) (h : goodTail rest) :
    ∀ c r', rest = c :: r' →
      isDigitChar c = false ∧ (c = '.') = False ∧ (c = 'e') = False ∧ (c = 'E') = False := by
  intro c r' heq
  subst heq
  rcases h with h | h | h <;> (subst h; refine ⟨by decide, by decide, by decide, by decide⟩)

theorem digitChar_ne_minus (c : Char) (h : isDigitChar c = true) : (c = '-') = False := by
  simp only [eq_iff_iff, iff_false]
  intro hc
  subst hc
  simp [isDigitChar] at h

theorem parseIntLit_digits (d : Char) (ds rest : List Char)
    (hdig : ∀ c ∈ d :: ds, isDigitChar c = true)
    (hr : ∀ c r', rest = c :: r' →
      isDigitChar c = false ∧ (c = '.') = False ∧ (c = 'e') = False ∧ (c = 'E') = False) :
    parseIntLit (d :: (ds ++ rest)) =
      some ((((d :: ds).foldl (fun a c3 => 10 * a + (c3.toNat - 48)) 0 : Nat) : Int), rest) := by
  have hdigd : isDigitChar d = true := hdig d (by simp)
  have hne : (d = '-') = False := digitChar_ne_minus d hdigd
  have htw := takeWhile_append_of isDigitChar (d :: ds) rest hdig (fun c r' h => (hr c r' h).1)
  simp only [List.cons_append] at htw
  cases rest with
  | nil =>
    simp only [List.append_nil] at htw
    simp [parseIntLit, hne, htw.1, htw.2]
  | cons c2 r' =>
    obtain ⟨hd, h1, h2, h3⟩ := hr c2 r' rfl
    simp [parseIntLit, hne, htw.1, htw.2, h1, h2, h3]

theorem parseIntLit_neg_digits (d : Char) (ds rest : List Char)
    (hdig : ∀ c ∈ d :: ds, isDigitChar c = true)
    (hr : ∀ c r', rest = c :: r' →
      isDigitChar c = false ∧ (c = '.') = False ∧ (c = 'e') = False ∧ (c = 'E') = False) :
    parseIntLit ('-' :: (d :: (ds ++ rest))) =
      some (-(((d :: ds).foldl (fun a c3 => 10 * a + (c3.toNat - 48)) 0 : Nat) : Int), rest) := by
  have htw := takeWhile_append_of isDigitChar (d :: ds) rest hdig (fun c r' h => (hr c r' h).1)
  simp only [List.cons_append] at htw
  cases rest with
  | nil =>
    simp only [List.append_nil] at htw
    simp [parseIntLit, htw.1, htw.2]
  | cons c2 r' =>
    obtain ⟨hd, h1, h2, h3⟩ := hr c2 r' rfl
    simp [parseIntLit, htw.1, htw.2, h1, h2, h3]

theorem parseIntLit_intChars (i : Int) (rest : List Char) (hrest : goodTail rest) :
    parseIntLit (intChars i ++ rest) = some (i, rest) := by
  have hr := goodTail_head_facts rest hrest
  by_cases hneg : i < 0
  · rw [intChars, if_pos hneg]
    obtain ⟨d, ds, hds⟩ : ∃ d ds, natChars i.natAbs = d :: ds := by
      cases h : natChars i.natAbs with
      | nil => exact absurd h (natChars_ne_nil _)
      | cons d ds => exact ⟨d, ds, rfl⟩
    have hdig : ∀ c ∈ d :: ds, isDigitChar c = true := by
      rw [← hds]; exact natChars_digits _
    have hfold : (d :: ds).foldl (fun a c3 => 10 * a + (c3.toNat - 48)) 0 = i.natAbs := by
      rw [← hds]; exact natChars_foldl _
    show parseIntLit ('-' :: (natChars i.natAbs ++ rest)) = _
    rw [hds]
    rw [show (d :: ds) ++ rest = d :: (ds ++ rest) from rfl]
    rw [parseIntLit_neg_digits d ds rest hdig hr, hfold]
    congr 1
    congr 1
    omega
  · rw [intChars, if_neg hneg]
    obtain ⟨d, ds, hds⟩ : ∃ d ds, natChars i.toNat = d :: ds := by
      cases h : natChars i.toNat with
      | nil => exact absurd h (natChars_ne_nil _)
      | cons d ds => exact ⟨d, ds, rfl⟩
    have hdig : ∀ c ∈ d :: ds, isDigitChar c = true := by
      rw [← hds]; exact natChars_digits _
    have hfold : (d :: ds).foldl (fun a c3 => 10 * a + (c3.toNat - 48)) 0 = i.toNat := by
      rw [← hds]; exact natChars_foldl _
    rw [hds]
    rw [show (d :: ds) ++ rest = d :: (ds ++ rest) from rfl]
    rw [parseIntLit_digits d ds rest hdig hr, hfold]
    congr 1
    congr 1
    omega

-- ── JSON model: string literals ────────────────────────────────────

theorem hexVal_hexDigitChar (m : Nat) (h : m < 16) : hexVal (hexDigitChar m) = some m := by
  interval_cases m <;> decide

theorem parseStrBody_escape :
    ∀ cs rest, parseStrBody (escapeJsonChars cs ++ '"' :: rest) = some (cs, rest) := by
  intro cs
  induction cs with
  | nil =>
    intro rest
    show parseStrBody ('"' :: rest) = some ([], rest)
    rw [parseStrBody.eq_def]
    simp
  | cons c cs ih =>
    intro rest
    have hstep : escapeJsonChars (c :: cs) = escapeJsonChar c ++ escapeJsonChars cs := by
      simp [escapeJsonChars]
    rw [hstep, List.append_assoc]
    by_cases h1 : c = '"'
    · subst h1
      show parseStrBody ('\\' :: '"' :: (escapeJsonChars cs ++ '"' :: rest)) = _
      rw [parseStrBody.eq_def]
      simp [ih]
    · by_cases h2 : c = '\\'
      · subst h2
        show parseStrBody ('\\' :: '\\' :: (escapeJsonChars cs ++ '"' :: rest)) = _
        rw [parseStrBody.eq_def]
        simp [ih]
      · by_cases h3 : c = '\x08'
        · subst h3
          show parseStrBody ('\\' :: 'b' :: (escapeJsonChars cs ++ '"' :: rest)) = _
          rw [parseStrBody.eq_def]
          simp [ih]
        · by_cases h4 : c = '\x0c'
          · subst h4
            show parseStrBody ('\\' :: 'f' :: (escapeJsonChars cs ++ '"' :: rest)) = _
            rw [parseStrBody.eq_def]
            simp [ih]
          · by_cases h5 : c = '\n'
            · subst h5
              show parseStrBody ('\\' :: 'n' :: (escapeJsonChars cs ++ '"' :: rest)) = _
              rw [parseStrBody.eq_def]
              simp [ih]
            · by_cases h6 : c = '\r'
              · subst h6
                show parseStrBody ('\\' :: 'r' :: (escapeJsonChars cs ++ '"' :: rest)) = _
                rw [parseStrBody.eq_def]
                simp [ih]
              · by_cases h7 : c = '\t'
                · subst h7
                  show parseStrBody ('\\' :: 't' :: (escapeJsonChars cs ++ '"' :: rest)) = _
                  rw [parseStrBody.eq_def]
                  simp [ih]
                · by_cases h8 : c.toNat < 32
                  · have hesc : escapeJsonChar c =
                        ['\\', 'u', '0', '0', hexDigitChar (c.toNat / 16),
                          hexDigitChar (c.toNat % 16)] := by
                      simp [escapeJsonChar, h1, h2, h3, h4, h5, h6, h7, h8]
                    rw [hesc]
                    simp only [List.cons_append, List.nil_append]
                    rw [parseStrBody.eq_def]
                    have hdiv : c.toNat / 16 < 16 := by omega
                    have hmod : c.toNat % 16 < 16 := Nat.mod_lt _ (by norm_num)
                    have hv1 := hexVal_hexDigitChar _ hdiv
                    have hv2 := hexVal_hexDigitChar _ hmod
                    have hz : hexVal '0' = some 0 := by decide
                    have hcode : 4096 * 0 + 256 * 0 + 16 * (c.toNat / 16) + c.toNat % 16 =
                        c.toNat := by
                      have := Nat.div_add_mod c.toNat 16
                      omega
                    have hlt : c.toNat < 55296 := by omega
                    simp [hv1, hv2, hz, hcode, hlt, Char.ofNat_toNat, ih]
                    have hdm : 16 * (c.toNat / 16) + c.toNat % 16 = c.toNat := by omega
                    exact ⟨by omega, by rw [hdm, Char.ofNat_toNat]⟩
                  · have hesc : escapeJsonChar c = [c] := by
                      simp [escapeJsonChar, h1, h2, h3, h4, h5, h6, h7, h8]
                    rw [hesc]
                    simp only [List.cons_append, List.nil_append]
                    rw [parseStrBody.eq_def]
                    simp [h1, h2, h8, ih]

-- ── JSON model: serialization heads and sizes ──────────────────────

theorem digit_facts (c : Char) (h : isDigitChar c = true) :
    (c = 'n') = False ∧ (c = 't') = False ∧ (c = 'f') = False ∧ (c = '"') = False ∧
      (c = '[') = False ∧ (c = '\x7b') = False ∧ isJsonWs c = false ∧
      (c = ']') = False ∧ (c = '\x7d') = False ∧ (c = ',') = False ∧ (c = ':') = False := by
  refine ⟨?_, ?_, ?_, ?_, ?_, ?_, ?_, ?_, ?_, ?_, ?_⟩
  · exact eq_false fun hc => by subst hc; exact absurd h (by decide)
  · exact eq_false fun hc => by subst hc; exact absurd h (by decide)
  · exact eq_false fun hc => by subst hc; exact absurd h (by decide)
  · exact eq_false fun hc => by subst hc; exact absurd h (by decide)
  · exact eq_false fun hc => by subst hc; exact absurd h (by decide)
  · exact eq_false fun hc => by subst hc; exact absurd h (by decide)
  · cases hw : isJsonWs c with
    | false => rfl
    | true =>
      exfalso
      simp only [isJsonWs, Bool.or_eq_true, decide_eq_true_eq] at hw
      rcases hw with ((h1 | h1) | h1) | h1 <;> (subst h1; exact absurd h (by decide))
  · exact eq_false fun hc => by subst hc; exact absurd h (by decide)
  · exact eq_false fun hc => by subst hc; exact absurd h (by decide)
  · exact eq_false fun hc => by subst hc; exact absurd h (by decide)
  · exact eq_false fun hc => by subst hc; exact absurd h (by decide)

theorem stringify_head (v : JValue) :
    ∃ c r, stringifyVal v = c :: r ∧
      (c = 'n' ∨ c = 't' ∨ c = 'f' ∨ c = '"' ∨ c = '[' ∨ c = '\x7b' ∨ c = '-' ∨
        isDigitChar c = true) := by
  cases v with
  | null => exact ⟨'n', _, rfl, by tauto⟩
  | bool b =>
    cases b with
    | true => exact ⟨'t', _, rfl, by tauto⟩
    | false => exact ⟨'f', _, rfl, by tauto⟩
  | num n =>
    show ∃ c r, intChars n = c :: r ∧ _
    by_cases hneg : n < 0
    · rw [intChars, if_pos hneg]
      exact ⟨'-', _, rfl, by tauto⟩
    · rw [intChars, if_neg hneg]
      obtain ⟨d, ds, hds⟩ : ∃ d ds, natChars n.toNat = d :: ds := by
        cases h : natChars n.toNat with
        | nil => exact absurd h (natChars_ne_nil _)
        | cons d ds => exact ⟨d, ds, rfl⟩
      have hd : isDigitChar d = true := by
        have := natChars_digits n.toNat
        rw [hds] at this
        exact this d (by simp)
      exact ⟨d, ds, hds, by tauto⟩
  | str s => exact ⟨'"', _, rfl, by tauto⟩
  | arr vs => exact ⟨'[', _, rfl, by tauto⟩
  | obj fs => exact ⟨'\x7b', _, rfl, by tauto⟩

theorem stringify_head_props (v : JValue) :
    ∃ c r, stringifyVal v = c :: r ∧ isJsonWs c = false ∧ (c = ']') = False ∧
      (c = '\x7d') = False := by
  obtain ⟨c, r, heq, hc⟩ := stringify_head v
  refine ⟨c, r, heq, ?_, ?_, ?_⟩
  · rcases hc with h | h | h | h | h | h | h | h
    · subst h; decide
    · subst h; decide
    · subst h; decide
    · subst h; decide
    · subst h; decide
    · subst h; decide
    · subst h; decide
    · exact (digit_facts c h).2.2.2.2.2.2.1
  · rcases hc with h | h | h | h | h | h | h | h
    · subst h; decide
    · subst h; decide
    · subst h; decide
    · subst h; decide
    · subst h; decide
    · subst h; decide
    · subst h; decide
    · exact (digit_facts c h).2.2.2.2.2.2.2.1
  · rcases hc with h | h | h | h | h | h | h | h
    · subst h; decide
    · subst h; decide
    · subst h; decide
    · subst h; decide
    · subst h; decide
    · subst h; decide
    · subst h; decide
    · exact (digit_facts c h).2.2.2.2.2.2.2.2.1

theorem jsize_pos (v : JValue) : 1 ≤ jsize v := by
  cases v <;> simp [jsize]

theorem jsizeElems_pos (vs : List JValue) : 1 ≤ jsizeElems vs := by
  cases vs with
  | nil => simp [jsizeElems]
  | cons v ws =>
    cases ws with
    | nil => simp [jsizeElems]
    | cons w vs' =>
      have := jsize_pos v
      simp [jsizeElems]
      omega

theorem jsizeFields_pos (fs : List (String × JValue)) : 1 ≤ jsizeFields fs := by
  cases fs with
  | nil => simp [jsizeFields]
  | cons kv fs' =>
    cases fs' with
    | nil => simp [jsizeFields]
    | cons kw fs'' =>
      have := jsize_pos kv.2
      simp [jsizeFields]
      omega

-- ── JSON model: parse ∘ stringify round trip ───────────────────────

theorem consField_of_not_mem (k : String) (v : JValue) (fs : List (String × JValue))
    (h : fs.any (fun kv => kv.1 == k) = false) : consField k v fs = (k, v) :: fs := by
  have hfind : fs.find? (fun kv => kv.1 == k) = none := by
    rw [List.find?_eq_none]
    intro x hx
    intro hxk
    have : fs.any (fun kv => kv.1 == k) = true := List.any_eq_true.mpr ⟨x, hx, hxk⟩
    rw [h] at this
    exact Bool.noConfusion this
  simp [consField, hfind]

theorem parse_stringify_core :
    ∀ N,
      (∀ v, jsize v ≤ N → jwfVal v = true → ∀ fuel rest, jsize v ≤ fuel → goodTail rest →
        parseVal fuel (stringifyVal v ++ rest) = some (v, rest)) ∧
      (∀ vs, vs ≠ [] → jsizeElems vs ≤ N → jwfElems vs = true →
        ∀ fuel rest, jsizeElems vs ≤ fuel →
        parseElems fuel (stringifyElems vs ++ ']' :: rest) = some (vs, rest)) ∧
      (∀ fs, fs ≠ [] → jsizeFields fs ≤ N → jwfFields fs = true → nodupKeys fs = true →
        ∀ fuel rest, jsizeFields fs ≤ fuel →
        parseFields fuel (stringifyFields fs ++ '\x7d' :: rest) = some (fs, rest)) := by
  intro N
  induction N with
  | zero =>
    refine ⟨fun v hv => absurd hv (by have := jsize_pos v; omega),
      fun vs _ hv => absurd hv (by have := jsizeElems_pos vs; omega),
      fun fs _ hv => absurd hv (by have := jsizeFields_pos fs; omega)⟩
  | succ N ih =>
    obtain ⟨ihV, ihE, ihF⟩ := ih
    refine ⟨?_, ?_, ?_⟩
    · -- values
      intro v hvN hwf fuel rest hfuel htail
      obtain ⟨f, rfl⟩ : ∃ f, fuel = f + 1 := by
        have := jsize_pos v
        cases fuel with
        | zero => omega
        | succ f => exact ⟨f, rfl⟩
      cases v with
      | null =>
        have hs : stringifyVal JValue.null = ['n', 'u', 'l', 'l'] := rfl
        rw [hs]
        rw [parseVal.eq_def]
        simp [stripPfxChars, isJsonWs, List.dropWhile_cons]
      | bool b =>
        cases b with
        | true =>
          have hs : stringifyVal (JValue.bool true) = ['t', 'r', 'u', 'e'] := rfl
          rw [hs]
          rw [parseVal.eq_def]
          simp [stripPfxChars, isJsonWs, List.dropWhile_cons]
        | false =>
          have hs : stringifyVal (JValue.bool false) = ['f', 'a', 'l', 's', 'e'] := rfl
          rw [hs]
          rw [parseVal.eq_def]
          simp [stripPfxChars, isJsonWs, List.dropWhile_cons]
      | num n =>
        have hs : stringifyVal (JValue.num n) = intChars n := by simp [stringifyVal]
        rw [hs]
        have hint := parseIntLit_intChars n rest htail
        by_cases hneg : n < 0
        · have hi : intChars n = '-' :: natChars n.natAbs := by rw [intChars, if_pos hneg]
          rw [hi]
          rw [hi] at hint
          rw [parseVal.eq_def]
          simp only [List.cons_append]
          have hdw : (('-' : Char) :: (natChars n.natAbs ++ rest)).dropWhile isJsonWs =
              '-' :: (natChars n.natAbs ++ rest) := by
            rw [List.dropWhile_cons, show isJsonWs '-' = false from by decide]
            simp
          rw [hdw]
          simp only [List.cons_append] at hint
          simp [hint]
        · have hi : intChars n = natChars n.toNat := by rw [intChars, if_neg hneg]
          rw [hi]
          rw [hi] at hint
          obtain ⟨d, ds, hds⟩ : ∃ d ds, natChars n.toNat = d :: ds := by
            cases h : natChars n.toNat with
            | nil => exact absurd h (natChars_ne_nil _)
            | cons d ds => exact ⟨d, ds, rfl⟩
          have hd : isDigitChar d = true := by
            have := natChars_digits n.toNat
            rw [hds] at this
            exact this d (by simp)
          obtain ⟨f1, f2, f3, f4, f5, f6, f7, f8, f9, f10, f11⟩ := digit_facts d hd
          rw [hds]
          rw [hds] at hint
          rw [parseVal.eq_def]
          simp only [List.cons_append]
          have hdw : (d :: (ds ++ rest)).dropWhile isJsonWs = d :: (ds ++ rest) := by
            rw [List.dropWhile_cons]
            rw [f7]
            simp
          rw [hdw]
          simp only [List.cons_append] at hint
          simp [f1, f2, f3, f4, f5, f6, hint]
      | str s =>
        have hs : stringifyVal (JValue.str s) ++ rest =
            '"' :: (escapeJsonChars s.data ++ '"' :: rest) := by
          show quoteJson s ++ rest = _
          simp [quoteJson]
        rw [hs]
        rw [parseVal.eq_def]
        simp [parseStrBody_escape, isJsonWs, List.dropWhile_cons]
      | arr vs =>
        have hsz : jsizeElems vs ≤ N := by
          have : jsize (JValue.arr vs) = 1 + jsizeElems vs := by simp [jsize]
          omega
        have hszf : jsizeElems vs ≤ f := by
          have : jsize (JValue.arr vs) = 1 + jsizeElems vs := by simp [jsize]
          omega
        have hwfe : jwfElems vs = true := by
          have : jwfVal (JValue.arr vs) = jwfElems vs := by simp [jwfVal]
          rw [← this]
          exact hwf
        cases vs with
        | nil =>
          have hs : stringifyVal (JValue.arr []) = ['[', ']'] := rfl
          rw [hs]
          rw [parseVal.eq_def]
          simp [isJsonWs, List.dropWhile_cons]
        | cons v vs' =>
          have hse : ∃ c r, stringifyElems (v :: vs') = c :: r ∧ isJsonWs c = false ∧
              (c = ']') = False := by
            cases vs' with
            | nil =>
              obtain ⟨c, r, heq, hws, hbr, _⟩ := stringify_head_props v
              exact ⟨c, r, by simpa [stringifyElems] using heq, hws, hbr⟩
            | cons w vs'' =>
              obtain ⟨c, r, heq, hws, hbr, _⟩ := stringify_head_props v
              refine ⟨c, r ++ ',' :: stringifyElems (w :: vs''), ?_, hws, hbr⟩
              have : stringifyElems (v :: w :: vs'') =
                  stringifyVal v ++ ',' :: stringifyElems (w :: vs'') := by
                simp [stringifyElems]
              rw [this, heq]
              simp
          obtain ⟨c, r, hce, hws, hbr⟩ := hse
          have hs : stringifyVal (JValue.arr (v :: vs')) ++ rest =
              '[' :: (stringifyElems (v :: vs') ++ ']' :: rest) := by
            have : stringifyVal (JValue.arr (v :: vs')) =
                '[' :: stringifyElems (v :: vs') ++ [']'] := by simp [stringifyVal]
            rw [this]
            simp
          rw [hs]
          rw [parseVal.eq_def]
          have hre := ihE (v :: vs') (by simp) hsz hwfe f rest hszf
          have hdw0 : (('[' : Char) :: (stringifyElems (v :: vs') ++ ']' :: rest)).dropWhile
              isJsonWs = '[' :: (stringifyElems (v :: vs') ++ ']' :: rest) := by
            rw [List.dropWhile_cons, show isJsonWs '[' = false from by decide]
            simp
          have hdw : ((stringifyElems (v :: vs') ++ ']' :: rest).dropWhile isJsonWs) =
              c :: (r ++ ']' :: rest) := by
            rw [hce]
            simp only [List.cons_append]
            rw [List.dropWhile_cons, hws]
            simp
          simp [hdw0, hdw, hbr, hre]
      | obj fs =>
        have hsz : jsizeFields fs ≤ N := by
          have : jsize (JValue.obj fs) = 1 + jsizeFields fs := by simp [jsize]
          omega
        have hszf : jsizeFields fs ≤ f := by
          have : jsize (JValue.obj fs) = 1 + jsizeFields fs := by simp [jsize]
          omega
        have hnk : nodupKeys fs = true ∧ jwfFields fs = true := by
          simpa [jwfVal] using hwf
        cases fs with
        | nil =>
          have hs : stringifyVal (JValue.obj []) = ['\x7b', '\x7d'] := rfl
          rw [hs]
          rw [parseVal.eq_def]
          simp [isJsonWs, List.dropWhile_cons]
        | cons kv fs' =>
          have hse : ∃ r, stringifyFields (kv :: fs') = '"' :: r := by
            cases fs' with
            | nil =>
              refine ⟨escapeJsonChars kv.1.data ++ ['"'] ++ (':' :: stringifyVal kv.2), ?_⟩
              have : stringifyFields [kv] = quoteJson kv.1 ++ ':' :: stringifyVal kv.2 := by
                simp [stringifyFields]
              rw [this]
              simp [quoteJson]
            | cons kw fs'' =>
              refine ⟨escapeJsonChars kv.1.data ++ ['"'] ++ (':' :: stringifyVal kv.2) ++
                ',' :: stringifyFields (kw :: fs''), ?_⟩
              have : stringifyFields (kv :: kw :: fs'') =
                  (quoteJson kv.1 ++ ':' :: stringifyVal kv.2) ++
                    ',' :: stringifyFields (kw :: fs'') := by
                simp [stringifyFields]
              rw [this]
              simp [quoteJson]
          obtain ⟨rr, hce⟩ := hse
          have hs : stringifyVal (JValue.obj (kv :: fs')) ++ rest =
              '\x7b' :: (stringifyFields (kv :: fs') ++ '\x7d' :: rest) := by
            have : stringifyVal (JValue.obj (kv :: fs')) =
                '\x7b' :: stringifyFields (kv :: fs') ++ ['\x7d'] := by simp [stringifyVal]
            rw [this]
            simp
          rw [hs]
          rw [parseVal.eq_def]
          have hrf := ihF (kv :: fs') (by simp) hsz hnk.2 hnk.1 f rest hszf
          have hdw0 : (('\x7b' : Char) :: (stringifyFields (kv :: fs') ++ '\x7d' :: rest)).dropWhile
              isJsonWs = '\x7b' :: (stringifyFields (kv :: fs') ++ '\x7d' :: rest) := by
            rw [List.dropWhile_cons, show isJsonWs '\x7b' = false from by decide]
            simp
          have hdw : ((stringifyFields (kv :: fs') ++ '\x7d' :: rest).dropWhile isJsonWs) =
              '"' :: (rr ++ '\x7d' :: rest) := by
            rw [hce]
            simp only [List.cons_append]
            rw [List.dropWhile_cons, show isJsonWs '"' = false from by decide]
            simp
          simp [hdw0, hdw, hrf]
    · -- element lists
      intro vs hne hvN hwf fuel rest hfuel
      obtain ⟨f, rfl⟩ : ∃ f, fuel = f + 1 := by
        have := jsizeElems_pos vs
        cases fuel with
        | zero => omega
        | succ f => exact ⟨f, rfl⟩
      cases vs with
      | nil => exact absurd rfl hne
      | cons v vs' =>
        have hwfv : jwfVal v = true ∧ jwfElems vs' = true := by
          simpa [jwfElems] using hwf
        cases vs' with
        | nil =>
          have hsz : jsize v ≤ N ∧ jsize v ≤ f := by
            have : jsizeElems [v] = 1 + jsize v := by simp [jsizeElems]
            omega
          have hrv := ihV v hsz.1 hwfv.1 f (']' :: rest) hsz.2 (by simp [goodTail])
          have hs : stringifyElems [v] ++ ']' :: rest = stringifyVal v ++ ']' :: rest := by
            simp [stringifyElems]
          rw [hs]
          rw [parseElems.eq_def]
          simp [hrv, isJsonWs, List.dropWhile_cons]
        | cons w vs'' =>
          have hsz : jsize v ≤ N ∧ jsize v ≤ f ∧ jsizeElems (w :: vs'') ≤ N ∧
              jsizeElems (w :: vs'') ≤ f := by
            have : jsizeElems (v :: w :: vs'') = 1 + jsize v + jsizeElems (w :: vs'') := by
              simp [jsizeElems]
            have h2 := jsizeElems_pos (w :: vs'')
            have h3 := jsize_pos v
            omega
          have hrv := ihV v hsz.1 hwfv.1 f
            (',' :: (stringifyElems (w :: vs'') ++ ']' :: rest)) hsz.2.1 (by simp [goodTail])
          have hre := ihE (w :: vs'') (by simp) hsz.2.2.1 hwfv.2 f rest hsz.2.2.2
          have hs : stringifyElems (v :: w :: vs'') ++ ']' :: rest =
              stringifyVal v ++ (',' :: (stringifyElems (w :: vs'') ++ ']' :: rest)) := by
            have : stringifyElems (v :: w :: vs'') =
                stringifyVal v ++ ',' :: stringifyElems (w :: vs'') := by
              simp [stringifyElems]
            rw [this]
            simp
          rw [hs]
          rw [parseElems.eq_def]
          simp [hrv, hre, isJsonWs, List.dropWhile_cons]
    · -- field lists
      intro fs hne hvN hwf hnk fuel rest hfuel
      obtain ⟨f, rfl⟩ : ∃ f, fuel = f + 1 := by
        have := jsizeFields_pos fs
        cases fuel with
        | zero => omega
        | succ f => exact ⟨f, rfl⟩
      cases fs with
      | nil => exact absurd rfl hne
      | cons kv fs' =>
        have hwfv : jwfVal kv.2 = true ∧ jwfFields fs' = true := by
          simpa [jwfFields] using hwf
        have hnk2 : (fs'.any (fun kw => kw.1 == kv.1)) = false ∧ nodupKeys fs' = true := by
          simpa [nodupKeys] using hnk
        cases fs' with
        | nil =>
          have hsz : jsize kv.2 ≤ N ∧ jsize kv.2 ≤ f := by
            have : jsizeFields [kv] = 1 + jsize kv.2 := by simp [jsizeFields]
            omega
          have hrv := ihV kv.2 hsz.1 hwfv.1 f ('\x7d' :: rest) hsz.2 (by simp [goodTail])
          have hs : stringifyFields [kv] ++ '\x7d' :: rest =
              '"' :: (escapeJsonChars kv.1.data ++
                '"' :: (':' :: (stringifyVal kv.2 ++ '\x7d' :: rest))) := by
            have : stringifyFields [kv] = quoteJson kv.1 ++ ':' :: stringifyVal kv.2 := by
              simp [stringifyFields]
            rw [this]
            simp [quoteJson]
          rw [hs]
          rw [parseFields.eq_def]
          simp [parseStrBody_escape, hrv, isJsonWs, List.dropWhile_cons]
        | cons kw fs'' =>
          have hszk : jsize kv.2 ≤ N ∧ jsize kv.2 ≤ f ∧ jsizeFields (kw :: fs'') ≤ N ∧
              jsizeFields (kw :: fs'') ≤ f := by
            have : jsizeFields (kv :: kw :: fs'') =
                1 + jsize kv.2 + jsizeFields (kw :: fs'') := by simp [jsizeFields]
            have h2 := jsizeFields_pos (kw :: fs'')
            have h3 := jsize_pos kv.2
            omega
          have hrv := ihV kv.2 hszk.1 hwfv.1 f
            (',' :: (stringifyFields (kw :: fs'') ++ '\x7d' :: rest)) hszk.2.1
            (by simp [goodTail])
          have hrf := ihF (kw :: fs'') (by simp) hszk.2.2.1 hwfv.2 hnk2.2 f rest hszk.2.2.2
          have hs : stringifyFields (kv :: kw :: fs'') ++ '\x7d' :: rest =
              '"' :: (escapeJsonChars kv.1.data ++
                '"' :: (':' :: (stringifyVal kv.2 ++
                  (',' :: (stringifyFields (kw :: fs'') ++ '\x7d' :: rest))))) := by
            have : stringifyFields (kv :: kw :: fs'') =
                (quoteJson kv.1 ++ ':' :: stringifyVal kv.2) ++
                  ',' :: stringifyFields (kw :: fs'') := by
              simp [stringifyFields]
            rw [this]
            simp [quoteJson]
          rw [hs]
          rw [parseFields.eq_def]
          simp [parseStrBody_escape, hrv, hrf, consField_of_not_mem kv.1 kv.2 _ hnk2.1, isJsonWs, List.dropWhile_cons]

theorem jsize_le_length :
    ∀ N, (∀ v, jsize v ≤ N → jsize v ≤ (stringifyVal v).length) ∧
      (∀ vs, jsizeElems vs ≤ N → jsizeElems vs ≤ (stringifyElems vs).length + 1) ∧
      (∀ fs, jsizeFields fs ≤ N → jsizeFields fs ≤ (stringifyFields fs).length + 1) := by
  intro N
  induction N with
  | zero =>
    refine ⟨fun v hv => absurd hv (by have := jsize_pos v; omega),
      fun vs hv => absurd hv (by have := jsizeElems_pos vs; omega),
      fun fs hv => absurd hv (by have := jsizeFields_pos fs; omega)⟩
  | succ N ih =>
    obtain ⟨ihV, ihE, ihF⟩ := ih
    refine ⟨?_, ?_, ?_⟩
    · intro v hvN
      cases v with
      | null => simp [jsize, stringifyVal]
      | bool b => cases b <;> simp [jsize, stringifyVal]
      | num n =>
        have : (intChars n).length ≥ 1 := by
          by_cases hneg : n < 0
          · rw [intChars, if_pos hneg]; simp
          · rw [intChars, if_neg hneg]
            cases h : natChars n.toNat with
            | nil => exact absurd h (natChars_ne_nil _)
            | cons d ds => simp [h]
        have hs : stringifyVal (JValue.num n) = intChars n := by simp [stringifyVal]
        rw [hs]
        have : jsize (JValue.num n) = 1 := by simp [jsize]
        omega
      | str s =>
        have hs : stringifyVal (JValue.str s) = quoteJson s := by simp [stringifyVal]
        rw [hs]
        have : jsize (JValue.str s) = 1 := by simp [jsize]
        simp [quoteJson, this]
      | arr vs =>
        have h1 : jsize (JValue.arr vs) = 1 + jsizeElems vs := by simp [jsize]
        have h2 : jsizeElems vs ≤ N := by omega
        have h3 := ihE vs h2
        have hs : stringifyVal (JValue.arr vs) = '[' :: stringifyElems vs ++ [']'] := by
          simp [stringifyVal]
        rw [hs]
        simp only [List.length_append, List.length_cons, List.length_nil]
        omega
      | obj fs =>
        have h1 : jsize (JValue.obj fs) = 1 + jsizeFields fs := by simp [jsize]
        have h2 : jsizeFields fs ≤ N := by omega
        have h3 := ihF fs h2
        have hs : stringifyVal (JValue.obj fs) = '\x7b' :: stringifyFields fs ++ ['\x7d'] := by
          simp [stringifyVal]
        rw [hs]
        simp only [List.length_append, List.length_cons, List.length_nil]
        omega
    · intro vs hvN
      cases vs with
      | nil => simp [jsizeElems]
      | cons v vs' =>
        cases vs' with
        | nil =>
          have h1 : jsizeElems [v] = 1 + jsize v := by simp [jsizeElems]
          have h2 : jsize v ≤ N := by have := jsize_pos v; omega
          have h3 := ihV v h2
          have hs : stringifyElems [v] = stringifyVal v := by simp [stringifyElems]
          rw [hs]
          omega
        | cons w vs'' =>
          have h1 : jsizeElems (v :: w :: vs'') = 1 + jsize v + jsizeElems (w :: vs'') := by
            simp [jsizeElems]
          have h2 : jsize v ≤ N := by
            have := jsize_pos v
            have := jsizeElems_pos (w :: vs'')
            omega
          have h2b : jsizeElems (w :: vs'') ≤ N := by
            have := jsize_pos v
            omega
          have h3 := ihV v h2
          have h4 := ihE (w :: vs'') h2b
          have hs : stringifyElems (v :: w :: vs'') =
              stringifyVal v ++ ',' :: stringifyElems (w :: vs'') := by simp [stringifyElems]
          rw [hs]
          simp only [List.length_append, List.length_cons]
          omega
    · intro fs hvN
      cases fs with
      | nil => simp [jsizeFields]
      | cons kv fs' =>
        cases fs' with
        | nil =>
          have h1 : jsizeFields [kv] = 1 + jsize kv.2 := by simp [jsizeFields]
          have h2 : jsize kv.2 ≤ N := by have := jsize_pos kv.2; omega
          have h3 := ihV kv.2 h2
          have hs : stringifyFields [kv] = quoteJson kv.1 ++ ':' :: stringifyVal kv.2 := by
            simp [stringifyFields]
          rw [hs]
          simp only [List.length_append, List.length_cons]
          omega
        | cons kw fs'' =>
          have h1 : jsizeFields (kv :: kw :: fs'') =
              1 + jsize kv.2 + jsizeFields (kw :: fs'') := by simp [jsizeFields]
          have h2 : jsize kv.2 ≤ N := by
            have := jsize_pos kv.2
            have := jsizeFields_pos (kw :: fs'')
            omega
          have h2b : jsizeFields (kw :: fs'') ≤ N := by
            have := jsize_pos kv.2
            omega
          have h3 := ihV kv.2 h2
          have h4 := ihF (kw :: fs'') h2b
          have hs : stringifyFields (kv :: kw :: fs'') =
              (quoteJson kv.1 ++ ':' :: stringifyVal kv.2) ++
                ',' :: stringifyFields (kw :: fs'') := by simp [stringifyFields]
          rw [hs]
          simp only [List.length_append, List.length_cons]
          omega

/-- Parsing inverts serialization on well-formed values: the core
round-trip fact about the modelled `JSON.parse` and `JSON.stringify`. -/
theorem jsonParse_stringify (v : JValue) (hwf : jwfVal v = true) :
    jsonParse (jsonStringify v) = some v := by
  have hlen : (jsonStringify v).length = (stringifyVal v).length := rfl
  have hfuel : jsize v ≤ (stringifyVal v).length + 1 := by
    have := (jsize_le_length (jsize v)).1 v le_rfl
    omega
  have hcore := (parse_stringify_core (jsize v)).1 v le_rfl hwf
    ((stringifyVal v).length + 1) [] hfuel (by simp [goodTail])
  rw [jsonParse]
  have hdata : (jsonStringify v).data = stringifyVal v := rfl
  rw [hdata, hlen]
  simp only [List.append_nil] at hcore
  rw [hcore]
  simp

-- ── Envelope encode/decode lemmas ──────────────────────────────────

theorem jwf_envelope (type : String) (v : JValue) (h : jwfVal v = true) :
    jwfVal (.obj [("$ch", .str type), ("p", v)]) = true := by
  simp [jwfVal, jwfFields, nodupKeys, h]

theorem jwf_envelope_nop (type : String) :
    jwfVal (.obj [("$ch", .str type)]) = true := by
  simp [jwfVal, jwfFields, nodupKeys]

theorem decode_encode (type : String) (payload : Option JValue) (maxSize : Nat)
    (hwf : ∀ v, payload = some v → jwfVal v = true)
    (hsz : (encode type payload).length ≤ maxSize) :
    decode (encode type payload) maxSize = some ⟨type, payload⟩ := by
  rw [decode, if_neg (by omega)]
  cases payload with
  | none =>
    rw [show encode type none = jsonStringify (.obj [("$ch", .str type)]) from rfl]
    rw [jsonParse_stringify _ (jwf_envelope_nop type)]
    simp [decodeVal, lookupField]
  | some v =>
    rw [show encode type (some v) =
      jsonStringify (.obj [("$ch", .str type), ("p", v)]) from rfl]
    rw [jsonParse_stringify _ (jwf_envelope type v (hwf v rfl))]
    simp [decodeVal, lookupField]

theorem unprefixCh_prefixCh (cid t : String) : unprefixCh cid (prefixCh cid t) = some t := by
  by_cases h : cid = ""
  · simp [unprefixCh, prefixCh, h]
  · rw [prefixCh, if_neg h, unprefixCh, if_neg h]
    have hd : (cid ++ ":" ++ t).data = (cid ++ ":").data ++ t.data := by
      rw [show cid ++ ":" ++ t = (cid ++ ":") ++ t from by simp [String.append_assoc]]
      exact String.data_append _ _
    rw [hd, stripPfxChars_self]
    simp

-- ── C9: closed-window failure ──────────────────────────────────────

/-- C9: after `close()` or a native close has set the local `_closed`
flag, every mutating `NativeWindow` method — content loading,
`postMessage`, all setters, window-state methods, `getCookies`, and
`evaluateJs` reached through the `unsafe` accessor (including through a
reference obtained before the close, since the closure re-checks the
flag at call time) — fails synchronously with the "Window is closed"
error and issues no native command; and `close()` on an open window
sets the local flag before issuing the single native close, so a second
`close()` fails fast. -/
theorem closed_window_failure :
    (∀ (m : NWMethod) (st : WinState), st.closed = true →
      runMethod m st = .error "Window is closed") ∧
    runMethod .close ⟨false⟩ = .ok (⟨true⟩, [.close]) ∧
    runMethod .close ⟨true⟩ = .error "Window is closed" := by
  refine ⟨?_, rfl, rfl⟩
  intro m st h
  have hst : st = ⟨true⟩ := by cases st; simp_all
  subst hst
  cases m <;> rfl

/-- Witness for `closed_window_failure`: a closed window rejects
`loadUrl`, a cached-unsafe `evaluateJs`, and a second `close`. -/
theorem closed_window_failure_witness :
    runMethod (.loadUrl "https://x/") ⟨true⟩ = .error "Window is closed" ∧
      runMethod (.unsafeEvaluateJs "1+1") ⟨true⟩ = .error "Window is closed" ∧
      runMethod .close ⟨true⟩ = .error "Window is closed" :=
  ⟨closed_window_failure.1 (.loadUrl "https://x/") ⟨true⟩ rfl,
    closed_window_failure.1 (.unsafeEvaluateJs "1+1") ⟨true⟩ rfl,
    closed_window_failure.1 .close ⟨true⟩ rfl⟩

-- ── C8: channelId resolution ───────────────────────────────────────

/-- C8: channelId resolution keeps a literal string exactly and maps an
absent option to the empty prefix, but the auto nonce
`Math.random().toString(36).slice(2, 10)` does **not** always have 8
characters: `Math.random() = 0.5` yields the base-36 string `"0.i"`,
whose slice is the 1-character nonce `"i"`, contradicting the option
documentation ("auto-generate a random 8-character nonce") and the
spec.  The theorem evaluates the resolution at that failing input. -/
theorem channelId_resolution_bug :
    (∀ (s : String) (r : String), resolveChannelId (.given s) r = s) ∧
      (∀ r : String, resolveChannelId .absent r = "") ∧
      resolveChannelId (.given "AbC") "x" = "AbC" ∧
      isRandomToString36 "0.i" ∧
      resolveChannelId .auto "0.i" = "i" ∧
      ((resolveChannelId .auto "0.i").length = 8) = False := by
  refine ⟨fun s r => rfl, fun r => rfl, rfl, ?_, rfl, ?_⟩
  · exact Or.inr ⟨['i'], by simp, by intro c hc; simp at hc; subst hc; decide, rfl⟩
  · simp only [eq_iff_iff, iff_false]
    decide

-- ── C4: outgoing allowlist (send does not check the schema map) ────

/-- C4 counterexample: with schema map `{ping}`, `send("nope", 1)` on
the channel still posts one encoded message — it is not dropped, so the
claim that non-schema types are dropped silently is false on the code. -/
theorem send_unknown_type_counterexample :
    keyIn [("ping", (⟨fun d => .succ d⟩ : SchemaLike))] "nope" = false ∧
      channelSend ⟨[("ping", ⟨fun d => .succ d⟩)], true, none, none, none, none, ""⟩
          "nope" (some (.num 1)) =
        ["\x7b\"$ch\":\"nope\",\"p\":1\x7d"] ∧
      channelSend ⟨[("ping", ⟨fun d => .succ d⟩)], true, none, none, none, none, ""⟩
          "nope" (some (.num 1)) ≠ [] := by
  refine ⟨rfl, rfl, ?_⟩
  intro h
  rw [show channelSend ⟨[("ping", ⟨fun d => .succ d⟩)], true, none, none, none, none, ""⟩
      "nope" (some (.num 1)) = ["\x7b\"$ch\":\"nope\",\"p\":1\x7d"] from rfl] at h
  exact List.cons_ne_nil _ _ h

/-- C4 (amended): `send(type, payload)` performs no runtime schema-key
check — for every type string, known or not, it encodes the payload
with the channel prefix and posts exactly that one message to the
window.  The runtime allowlist exists elsewhere: `on()` silently
ignores registration for unknown types. -/
theorem send_posts_unconditionally :
    (∀ (cfg : ChannelConfig) (type : String) (payload : Option JValue),
      channelSend cfg type payload = [encode (prefixCh cfg.channelId type) payload]) ∧
    (∀ (cfg : ChannelConfig) (st : ChannelState) (t : String) (h : Nat),
      keyIn cfg.schemas t = false → channelOn cfg st t h = st) := by
  refine ⟨fun cfg type payload => rfl, ?_⟩
  intro cfg st t h hk
  rw [channelOn, if_pos (by simp [hk])]

/-- Witness for `send_posts_unconditionally` at a concrete channel. -/
theorem send_posts_unconditionally_witness :
    channelSend ⟨[], true, none, none, none, none, "ns"⟩ "evt" none =
        [encode (prefixCh "ns" "evt") none] ∧
      channelOn ⟨[], true, none, none, none, none, ""⟩ ⟨[], []⟩ "evt" 0 = ⟨[], []⟩ :=
  ⟨send_posts_unconditionally.1 ⟨[], true, none, none, none, none, "ns"⟩ "evt" none,
    send_posts_unconditionally.2 ⟨[], true, none, none, none, none, ""⟩ ⟨[], []⟩ "evt" 0 rfl⟩

-- ── C3: deferred client injection ──────────────────────────────────

/-- C3 counterexample: a channel created with `injectClient` and the
non-empty user-supplied list `trustedOrigins = ["not a url"]` — whose
sole entry fails origin normalization, leaving the normalized set
empty — injects the client script immediately at initialization, so
the claim that a non-empty `trustedOrigins` list always defers
injection is false on the code. -/
theorem deferred_injection_counterexample :
    (⟨[], true, some ["not a url"], none, none, none, ""⟩ : ChannelConfig).injectClient
        = true ∧
      (⟨[], true, some ["not a url"], none, none, none, ""⟩ : ChannelConfig).trustedOrigins
        = some ["not a url"] ∧
      ["not a url"] ≠ ([] : List String) ∧
      normalizeOrigin "not a url" = none ∧
      initialInjectClient ⟨[], true, some ["not a url"], none, none, none, ""⟩ = true := by
  exact ⟨rfl, rfl, by simp, rfl, rfl⟩

/-- C3 (amended): the injection decisions are driven by the
*normalized* trusted-origin set.  When `injectClient` is set and the
normalized set is non-empty, the script is not injected at
initialization, and a `finished` page load injects exactly when the
page URL's origin is trusted; when no normalized origin remains
(option absent, or every entry dropped by normalization) the script is
injected immediately and on every `finished` load; non-`finished`
events never inject. -/
theorem deferred_injection_amended (cfg : ChannelConfig) (hinj : cfg.injectClient = true) :
    (∀ l, normalizedOrigins cfg = some l → l ≠ [] →
      initialInjectClient cfg = false ∧
      (∀ url, pageLoadInjectClient cfg "finished" url = isOriginTrusted url l)) ∧
    ((normalizedOrigins cfg = none ∨ normalizedOrigins cfg = some []) →
      initialInjectClient cfg = true ∧
      (∀ url, pageLoadInjectClient cfg "finished" url = true)) ∧
    (∀ e url, (e == "finished") = false → pageLoadInjectClient cfg e url = false) := by
  refine ⟨?_, ?_, ?_⟩
  · intro l hn hne
    have hie : l.isEmpty = false := by
      cases l with
      | nil => exact absurd rfl hne
      | cons a l' => rfl
    constructor
    · rw [initialInjectClient, hn]
      simp [hie]
    · intro url
      rw [pageLoadInjectClient, hn]
      simp [hinj, hie]
  · intro hcase
    rcases hcase with h | h
    · exact ⟨by rw [initialInjectClient, h]; simp [hinj],
        fun url => by rw [pageLoadInjectClient, h]; simp [hinj]⟩
    · exact ⟨by rw [initialInjectClient, h]; simp [hinj],
        fun url => by rw [pageLoadInjectClient, h]; simp [hinj]⟩
  · intro e url he
    rw [pageLoadInjectClient, he]
    simp

/-- Witness for `deferred_injection_amended`: with the normalized
trusted origin `https://app.local`, initialization does not inject and
a finished load injects exactly per the origin check. -/
theorem deferred_injection_amended_witness :
    initialInjectClient ⟨[], true, some ["https://app.local"], none, none, none, ""⟩
        = false ∧
      pageLoadInjectClient ⟨[], true, some ["https://app.local"], none, none, none, ""⟩
          "finished" "https://evil.com/"
        = isOriginTrusted "https://evil.com/" ["https://app.local"] ∧
      pageLoadInjectClient ⟨[], true, some ["https://app.local"], none, none, none, ""⟩
          "started" "https://app.local/"
        = false := by
  have h := deferred_injection_amended
    ⟨[], true, some ["https://app.local"], none, none, none, ""⟩ rfl
  have h2 := h.1 ["https://app.local"] rfl (by simp)
  exact ⟨h2.1, h2.2 "https://evil.com/", h.2.2 "started" "https://app.local/" rfl⟩

-- ── C1: origin gate ────────────────────────────────────────────────

/-- C1 counterexample: a channel whose user-supplied `trustedOrigins`
is the non-empty list `["not a url"]` normalizes to the empty set, so
the origin gate is skipped entirely and a well-formed message from
`https://evil.com/x` — an origin that is certainly not in the
(normalized) trusted set — is dispatched to the registered handler,
refuting the claim as stated over non-empty `trustedOrigins` lists. -/
theorem origin_gate_counterexample :
    (⟨[("ping", ⟨fun d => .succ d⟩)], true, some ["not a url"], none, none, none, ""⟩ :
        ChannelConfig).trustedOrigins = some ["not a url"] ∧
      ["not a url"] ≠ ([] : List String) ∧
      (∀ o, urlOrigin "https://evil.com/x" = some o →
        o ∉ ["not a url"].filterMap normalizeOrigin) ∧
      (processMessage
          ⟨[("ping", ⟨fun d => .succ d⟩)], true, some ["not a url"], none, none, none, ""⟩
          ⟨[], [("ping", [7])]⟩ 0 "\x7b\"$ch\":\"ping\",\"p\":1\x7d"
          "https://evil.com/x").2 = .dispatched "ping" [7] (some (.num 1)) := by
  refine ⟨rfl, by simp, ?_, rfl⟩
  intro o ho
  simp [show ["not a url"].filterMap normalizeOrigin = [] from rfl]

/-- C1 (amended): when the *normalized* trusted-origin set of the
channel is non-empty, any incoming `(raw, sourceUrl)` whose source
URL's WHATWG origin is absent (empty or malformed URL) or not a member
of that set invokes no handler; and matching is case-insensitive in
the sense that the entry `"HTTPS://APP.LOCAL"` normalizes to
`https://app.local` and a message from `https://app.local/page` is
delivered. -/
theorem origin_gate_amended :
    (∀ (cfg : ChannelConfig) (st : ChannelState) (now : Int) (raw sourceUrl : String)
        (l : List String),
      normalizedOrigins cfg = some l → l ≠ [] →
      (∀ o, urlOrigin sourceUrl = some o → o ∉ l) →
      isDispatch (processMessage cfg st now raw sourceUrl).2 = false) ∧
    normalizeOrigin "HTTPS://APP.LOCAL" = some "https://app.local" ∧
    (processMessage
        ⟨[("ping", ⟨fun d => .succ d⟩)], true, some ["HTTPS://APP.LOCAL"], none, none,
          none, ""⟩
        ⟨[], [("ping", [7])]⟩ 0 "\x7b\"$ch\":\"ping\",\"p\":1\x7d"
        "https://app.local/page").2 = .dispatched "ping" [7] (some (.num 1)) := by
  refine ⟨?_, rfl, rfl⟩
  intro cfg st now raw src l hn hne hsrc
  have hie : l.isEmpty = false := by
    cases l with
    | nil => exact absurd rfl hne
    | cons a l' => rfl
  have htr : isOriginTrusted src l = false := by
    rw [isOriginTrusted]
    cases ho : urlOrigin src with
    | none => rfl
    | some o =>
      have hmem := hsrc o ho
      show l.contains o = false
      cases hc : l.contains o with
      | false => rfl
      | true => exact absurd (List.mem_of_elem_eq_true hc) hmem
  have hb : originBlocked cfg src = true := by
    rw [originBlocked, hn]
    simp [hie, htr]
  have hd : ∀ st' : ChannelState, isDispatch (processDecoded cfg st' raw src).2 = false := by
    intro st'
    simp only [processDecoded]
    cases hdec : decode raw (cfg.maxMessageSize.getD MAX_MESSAGE_SIZE) with
    | none => simp [isDispatch]
    | some env =>
      cases hup : unprefixCh cfg.channelId env.ch with
      | none => simp [hup, isDispatch]
      | some et => simp [hup, hb, isDispatch]
  cases hr : cfg.rateLimit with
  | none => simpa [processMessage, hr] using hd st
  | some r =>
    by_cases hr0 : 0 < r
    · by_cases hlen : r ≤ (st.rateWindow.dropWhile fun t => t ≤ now - 1000).length
      · simp [processMessage, hr, hr0, hlen, isDispatch]
      · simpa [processMessage, hr, hr0, hlen] using hd _
    · simpa [processMessage, hr, hr0] using hd st

/-- Witness for `origin_gate_amended`: a malformed source URL and an
untrusted origin are both gated at a concrete channel. -/
theorem origin_gate_amended_witness :
    isDispatch (processMessage
        ⟨[("ping", ⟨fun d => .succ d⟩)], true, some ["https://app.local"], none, none,
          none, ""⟩
        ⟨[], [("ping", [7])]⟩ 0 "\x7b\"$ch\":\"ping\",\"p\":1\x7d"
        "https://evil.com/").2 = false ∧
      isDispatch (processMessage
        ⟨[("ping", ⟨fun d => .succ d⟩)], true, some ["https://app.local"], none, none,
          none, ""⟩
        ⟨[], [("ping", [7])]⟩ 0 "\x7b\"$ch\":\"ping\",\"p\":1\x7d" "").2 = false := by
  constructor
  · exact origin_gate_amended.1 _ _ 0 _ "https://evil.com/" ["https://app.local"] rfl
      (by simp) (by intro o ho; rw [show urlOrigin "https://evil.com/" =
        some "https://evil.com" from rfl] at ho; cases ho; simp)
  · exact origin_gate_amended.1 _ _ 0 _ "" ["https://app.local"] rfl
      (by simp) (by intro o ho; rw [show urlOrigin "" = none from rfl] at ho; cases ho)

-- ── C2: envelope rejection ─────────────────────────────────────────

theorem lookupField_filter_proto (fields : List (String × JValue)) (k : String)
    (hk : (k == "__proto__") = false) :
    lookupField (fields.filter (fun kv => !(kv.1 == "__proto__"))) k =
      lookupField fields k := by
  induction fields with
  | nil => rfl
  | cons kv fs ih =>
    by_cases hp : kv.1 = "__proto__"
    · have h1 : (kv.1 == "__proto__") = true := by simp [hp]
      have h2 : (kv.1 == k) = false := by
        rw [hp]
        cases hc : ("__proto__" == k) with
        | false => rfl
        | true =>
          have he : "__proto__" = k := by simpa using hc
          rw [← he] at hk
          simp at hk
      rw [List.filter_cons, h1]
      rw [show lookupField (kv :: fs) k = if kv.1 == k then some kv.2 else lookupField fs k
        from rfl]
      rw [h2]
      simpa using ih
    · have h1 : (kv.1 == "__proto__") = false := by simp [hp]
      rw [List.filter_cons, h1]
      rw [show lookupField (kv :: fs) k = if kv.1 == k then some kv.2 else lookupField fs k
        from rfl]
      simp only [Bool.not_false]
      rw [if_pos trivial]
      rw [show lookupField (kv :: List.filter (fun kv => !(kv.1 == "__proto__")) fs) k =
        if kv.1 == k then some kv.2 else
          lookupField (List.filter (fun kv => !(kv.1 == "__proto__")) fs) k from rfl]
      cases hke : (kv.1 == k) with
      | true => simp
      | false => simpa using ih

theorem decodeVal_none_of_not_envelopeOk (v : JValue) (h : envelopeOk v = false) :
    decodeVal v = none := by
  cases v with
  | null => rfl
  | bool b => rfl
  | num n => rfl
  | str s => rfl
  | arr vs => rfl
  | obj fields =>
    rw [decodeVal]
    rw [lookupField_filter_proto fields "$ch" (by decide)]
    rw [envelopeOk] at h
    cases hl : lookupField fields "$ch" with
    | none => rfl
    | some w =>
      cases w with
      | str s =>
        rw [hl] at h
        simp at h
      | null => rfl
      | bool b => rfl
      | num n => rfl
      | arr vs => rfl
      | obj fs => rfl

/-- C2 counterexample: a raw message whose JSON-parsed value carries a
`__proto__` own-property both at the top level and nested inside `p`
is **not** rejected: the top-level key is stripped, the nested one is
passed through, `safeParse` runs and the handler is invoked, refuting
the claim that any `__proto__` key causes rejection before schema
lookup. -/
theorem envelope_proto_counterexample :
    jsonParse
        "\x7b\"$ch\":\"ping\",\"p\":\x7b\"x\":1,\"__proto__\":5\x7d,\"__proto__\":7\x7d" =
      some (.obj [("$ch", .str "ping"),
        ("p", .obj [("x", .num 1), ("__proto__", .num 5)]), ("__proto__", .num 7)]) ∧
      ([("$ch", JValue.str "ping"),
        ("p", JValue.obj [("x", .num 1), ("__proto__", .num 5)]),
        ("__proto__", JValue.num 7)].any (fun kv => kv.1 == "__proto__")) = true ∧
      (processMessage
          ⟨[("ping", ⟨fun d => .succ d⟩)], true, none, none, none, none, ""⟩
          ⟨[], [("ping", [7])]⟩ 0
          "\x7b\"$ch\":\"ping\",\"p\":\x7b\"x\":1,\"__proto__\":5\x7d,\"__proto__\":7\x7d"
          "https://app.local/").2 =
        .dispatched "ping" [7] (some (.obj [("x", .num 1), ("__proto__", .num 5)])) := by
  exact ⟨rfl, rfl, rfl⟩

/-- C2 (amended): an incoming message whose parsed value has a
non-string or missing `$ch` is rejected before any schema lookup — the
outcome is `badDecode` (or `rateLimited`, in which case no decoding
happened at all), so `safeParse` is never called and no handler is
invoked.  A top-level `__proto__` own-property, however, is deleted
rather than causing rejection: `decode` returns the envelope read from
the remaining fields, and `__proto__` keys nested inside `p` are
passed through untouched. -/
theorem envelope_rejection_amended :
    (∀ (cfg : ChannelConfig) (st : ChannelState) (now : Int) (raw src : String)
        (v : JValue),
      jsonParse raw = some v → envelopeOk v = false →
      (processMessage cfg st now raw src).2 = .rateLimited ∨
        (processMessage cfg st now raw src).2 = .badDecode) ∧
    (∀ (fields : List (String × JValue)) (s : String),
      lookupField fields "$ch" = some (.str s) →
      decodeVal (.obj fields) =
        some ⟨s, lookupField (fields.filter (fun kv => !(kv.1 == "__proto__"))) "p"⟩) := by
  constructor
  · intro cfg st now raw src v hparse hbad
    have hdec : ∀ ms, decode raw ms = none := by
      intro ms
      rw [decode]
      by_cases hsz : ms < raw.length
      · rw [if_pos hsz]
      · rw [if_neg hsz, hparse]
        show decodeVal v = none
        exact decodeVal_none_of_not_envelopeOk v hbad
    have hd : ∀ st' : ChannelState,
        (processDecoded cfg st' raw src).2 = MsgOutcome.badDecode := by
      intro st'
      simp only [processDecoded]
      rw [hdec]
    cases hr : cfg.rateLimit with
    | none =>
      right
      simpa [processMessage, hr] using hd st
    | some r =>
      by_cases hr0 : 0 < r
      · by_cases hlen : r ≤ (st.rateWindow.dropWhile fun t => t ≤ now - 1000).length
        · left
          simp [processMessage, hr, hr0, hlen]
        · right
          simpa [processMessage, hr, hr0, hlen] using hd _
      · right
        simpa [processMessage, hr, hr0] using hd st
  · intro fields s h
    rw [decodeVal]
    rw [lookupField_filter_proto fields "$ch" (by decide), h]

/-- Witness for `envelope_rejection_amended`: a missing `$ch` and a
non-string `$ch` are rejected before schema lookup, and the envelope
with a top-level `__proto__` decodes with that key stripped. -/
theorem envelope_rejection_amended_witness :
    ((processMessage ⟨[("ping", ⟨fun d => .succ d⟩)], true, none, none, none, none, ""⟩
        ⟨[], [("ping", [7])]⟩ 0 "\x7b\"p\":1\x7d" "u").2 = .rateLimited ∨
      (processMessage ⟨[("ping", ⟨fun d => .succ d⟩)], true, none, none, none, none, ""⟩
        ⟨[], [("ping", [7])]⟩ 0 "\x7b\"p\":1\x7d" "u").2 = .badDecode) ∧
      ((processMessage ⟨[("ping", ⟨fun d => .succ d⟩)], true, none, none, none, none, ""⟩
        ⟨[], [("ping", [7])]⟩ 0 "\x7b\"$ch\":3\x7d" "u").2 = .rateLimited ∨
      (processMessage ⟨[("ping", ⟨fun d => .succ d⟩)], true, none, none, none, none, ""⟩
        ⟨[], [("ping", [7])]⟩ 0 "\x7b\"$ch\":3\x7d" "u").2 = .badDecode) ∧
      decodeVal (.obj [("$ch", .str "t"), ("__proto__", .num 7)]) =
        some ⟨"t", lookupField ([("$ch", JValue.str "t"), ("__proto__", JValue.num 7)].filter
          (fun kv => !(kv.1 == "__proto__"))) "p"⟩ := by
  refine ⟨?_, ?_, ?_⟩
  · exact envelope_rejection_amended.1 _ _ 0 _ "u" (.obj [("p", .num 1)]) rfl rfl
  · exact envelope_rejection_amended.1 _ _ 0 _ "u" (.obj [("$ch", .num 3)]) rfl rfl
  · exact envelope_rejection_amended.2 [("$ch", .str "t"), ("__proto__", .num 7)] "t" rfl

-- ── C5: envelope round trip ────────────────────────────────────────

/-- C5 counterexample: a schema-keyed pair whose payload validates and
whose event has a registered handler is nevertheless dropped when the
encoded envelope exceeds the channel's configured `maxMessageSize`
(here 5), so the round-trip claim is false without a size-bound
hypothesis. -/
theorem roundtrip_size_counterexample :
    (⟨fun d => .succ d⟩ : SchemaLike).safeParse (some (.num 1)) = .succ (some (.num 1)) ∧
      keyIn [("ping", (⟨fun d => .succ d⟩ : SchemaLike))] "ping" = true ∧
      lisGet [("ping", [7])] "ping" = some [7] ∧
      5 < (encode (prefixCh "" "ping") (some (.num 1))).length ∧
      (processMessage ⟨[("ping", ⟨fun d => .succ d⟩)], true, none, some 5, none, none, ""⟩
          ⟨[], [("ping", [7])]⟩ 0 (encode (prefixCh "" "ping") (some (.num 1))) "u").2 =
        .badDecode := by
  exact ⟨rfl, rfl, rfl, by decide, rfl⟩

/-- C5 (amended): for every schema-keyed `(type, payload)` whose
payload validates, **provided the encoded envelope fits the channel's
`maxMessageSize`** (default 1 MB) and the channel imposes no origin or
rate restriction, decoding `encode(prefix_of(type), payload)` yields
the envelope `{$ch: prefix_of(type), p: payload}`, and delivering that
message invokes exactly the handlers registered for `type`, in stored
(insertion) order, with the schema-transformed payload (`safeParse`'s
`.data`). -/
theorem envelope_roundtrip_amended (cfg : ChannelConfig) (st : ChannelState) (now : Int)
    (src type : String) (payload : Option JValue) (schema : SchemaLike)
    (data : Option JValue) (hs : List Nat)
    (hto : cfg.trustedOrigins = none) (hrl : cfg.rateLimit = none)
    (hsch : lookupSchema cfg.schemas type = some schema)
    (hkey : keyIn cfg.schemas type = true)
    (hval : schema.safeParse payload = .succ data)
    (hwf : ∀ v, payload = some v → jwfVal v = true)
    (hlis : lisGet st.listeners type = some hs)
    (hsz : (encode (prefixCh cfg.channelId type) payload).length ≤
      cfg.maxMessageSize.getD MAX_MESSAGE_SIZE) :
    decode (encode (prefixCh cfg.channelId type) payload)
        (cfg.maxMessageSize.getD MAX_MESSAGE_SIZE) =
      some ⟨prefixCh cfg.channelId type, payload⟩ ∧
    (processMessage cfg st now (encode (prefixCh cfg.channelId type) payload) src).2 =
      .dispatched type hs data := by
  have hdec := decode_encode (prefixCh cfg.channelId type) payload _ hwf hsz
  refine ⟨hdec, ?_⟩
  have horig : originBlocked cfg src = false := by
    rw [originBlocked, normalizedOrigins, hto]
    rfl
  simp only [processMessage, hrl]
  simp only [processDecoded, hdec, unprefixCh_prefixCh, horig]
  simp [hlis, hkey, hsch, validatePayload, hval]

/-- Witness for `envelope_roundtrip_amended` on a concrete namespaced
channel with two registered handlers. -/
theorem envelope_roundtrip_amended_witness :
    decode (encode (prefixCh "ns" "ping") (some (.num 1)))
        ((⟨[("ping", ⟨fun d => .succ d⟩)], true, none, none, none, none, "ns"⟩ :
          ChannelConfig).maxMessageSize.getD MAX_MESSAGE_SIZE) =
      some ⟨prefixCh "ns" "ping", some (.num 1)⟩ ∧
    (processMessage
        ⟨[("ping", ⟨fun d => .succ d⟩)], true, none, none, none, none, "ns"⟩
        ⟨[], [("ping", [7, 9])]⟩ 0 (encode (prefixCh "ns" "ping") (some (.num 1)))
        "u").2 = .dispatched "ping" [7, 9] (some (.num 1)) := by
  exact envelope_roundtrip_amended
    ⟨[("ping", ⟨fun d => .succ d⟩)], true, none, none, none, none, "ns"⟩
    ⟨[], [("ping", [7, 9])]⟩ 0 "u" "ping" (some (.num 1)) ⟨fun d => .succ d⟩
    (some (.num 1)) [7, 9] rfl rfl rfl rfl rfl
    (fun v hv => by cases hv; rfl) rfl (by decide)


-- ── C6: rate limiting ──────────────────────────────────────────────

theorem processDecoded_fst (cfg : ChannelConfig) (st : ChannelState) (raw src : String) :
    (processDecoded cfg st raw src).1 = st := by
  simp only [processDecoded]
  repeat' split
  all_goals rfl

theorem filter_nil_of_false {α : Type _} (p : α → Bool) :
    ∀ l : List α, (∀ x ∈ l, p x = false) → l.filter p = [] := by
  intro l
  induction l with
  | nil => intro _; rfl
  | cons h t ih =>
    intro hall
    rw [List.filter_cons]
    rw [hall h (by simp)]
    simp only [Bool.false_eq_true, if_false]
    exact ih (fun x hx => hall x (by simp [hx]))

theorem mem_takeWhile_pred {α : Type _} (p : α → Bool) :
    ∀ (l : List α) (x : α), x ∈ l.takeWhile p → p x = true := by
  intro l
  induction l with
  | nil => intro x hx; simp [List.takeWhile] at hx
  | cons h t ih =>
    intro x hx
    rw [List.takeWhile_cons] at hx
    by_cases hp : p h = true
    · rw [if_pos hp] at hx
      rcases List.mem_cons.mp hx with rfl | hx'
      · exact hp
      · exact ih x hx'
    · rw [if_neg hp] at hx
      exact absurd hx (List.not_mem_nil x)

theorem length_dropWhile_le_self {α : Type _} (p : α → Bool) :
    ∀ l : List α, (l.dropWhile p).length ≤ l.length := by
  intro l
  induction l with
  | nil => exact Nat.le_refl 0
  | cons h t ih =>
    rw [List.dropWhile_cons]
    by_cases hp : p h = true
    · rw [if_pos hp]
      simp only [List.length_cons]
      omega
    · rw [if_neg hp]

theorem dispatchCountIn_cons (t : Int) (o : MsgOutcome)
    (rest : List (Int × MsgOutcome)) (a b : Int) :
    dispatchCountIn ((t, o) :: rest) a b =
      (if decide (a ≤ t) && decide (t ≤ b) && isDispatch o then 1 else 0) +
        dispatchCountIn rest a b := by
  by_cases h : (decide (a ≤ t) && decide (t ≤ b) && isDispatch o) = true
  · simp [dispatchCountIn, List.filter_cons, h, Nat.add_comm]
  · simp only [Bool.not_eq_true] at h
    simp [dispatchCountIn, List.filter_cons, h]

theorem dispatchCountIn_zero_of_late (cfg : ChannelConfig) (a b : Int) :
    ∀ (msgs : List (Int × String × String)) (st : ChannelState),
      (∀ m ∈ msgs, b < m.1) →
      dispatchCountIn (runMessages cfg st msgs) a b = 0 := by
  intro msgs
  induction msgs with
  | nil => intro st _; rfl
  | cons m rest ih =>
    intro st hlate
    have hm : b < m.1 := hlate m (by simp)
    have hrest : ∀ q ∈ rest, b < q.1 := fun q hq => hlate q (by simp [hq])
    rw [show runMessages cfg st (m :: rest) =
        (m.1, (processMessage cfg st m.1 m.2.1 m.2.2).2) ::
          runMessages cfg (processMessage cfg st m.1 m.2.1 m.2.2).1 rest from rfl]
    rw [dispatchCountIn_cons]
    have hb : decide (m.1 ≤ b) = false := by simp; omega
    rw [hb]
    simp only [Bool.and_false, Bool.false_and, Bool.false_eq_true, if_false]
    rw [ih _ hrest]

theorem processMessage_rl_eq (cfg : ChannelConfig) (st : ChannelState) (now : Int)
    (raw src : String) (r : Nat) (hr : cfg.rateLimit = some r) (hr0 : 0 < r) :
    processMessage cfg st now raw src =
      (if r ≤ (st.rateWindow.dropWhile (fun t => decide (t ≤ now - 1000))).length
       then ({ st with rateWindow :=
           st.rateWindow.dropWhile (fun t => decide (t ≤ now - 1000)) },
         MsgOutcome.rateLimited)
       else processDecoded cfg
         { st with rateWindow :=
             st.rateWindow.dropWhile (fun t => decide (t ≤ now - 1000)) ++ [now] }
         raw src) := by
  simp only [processMessage, hr]
  rw [if_pos hr0]

theorem rl_count_bound (cfg : ChannelConfig) (r : Nat) (hr : cfg.rateLimit = some r)
    (hr0 : 0 < r) (a b : Int) (hab : b < a + 1000) :
    ∀ (msgs : List (Int × String × String)) (st : ChannelState),
      List.Pairwise (fun p q => p.1 ≤ q.1) msgs →
      st.rateWindow.length ≤ r →
      dispatchCountIn (runMessages cfg st msgs) a b +
        (st.rateWindow.filter (fun t => decide (a ≤ t) && decide (t ≤ b))).length ≤ r := by
  intro msgs
  induction msgs with
  | nil =>
    intro st _ hw
    have hfl := List.length_filter_le (fun t => decide (a ≤ t) && decide (t ≤ b))
      st.rateWindow
    simp only [runMessages, dispatchCountIn, List.filter_nil, List.length_nil]
    omega
  | cons m rest ih =>
    intro st hsort hw
    have hsort' := (List.pairwise_cons.mp hsort).2
    have hhead := (List.pairwise_cons.mp hsort).1
    by_cases hlate : a + 1000 ≤ m.1
    · -- every message of the run is past the end of the interval
      have hz : dispatchCountIn (runMessages cfg st (m :: rest)) a b = 0 :=
        dispatchCountIn_zero_of_late cfg a b (m :: rest) st (fun q hq => by
          rcases List.mem_cons.mp hq with rfl | h
          · omega
          · have := hhead q h
            omega)
      have hfl := List.length_filter_le (fun t => decide (a ≤ t) && decide (t ≤ b))
        st.rateWindow
      omega
    · push_neg at hlate
      have hstep := processMessage_rl_eq cfg st m.1 m.2.1 m.2.2 r hr hr0
      have hwlen : (st.rateWindow.dropWhile
          (fun t => decide (t ≤ m.1 - 1000))).length ≤ st.rateWindow.length :=
        length_dropWhile_le_self _ _
      have hdropped : (st.rateWindow.filter
          (fun t => decide (a ≤ t) && decide (t ≤ b))).length =
          ((st.rateWindow.dropWhile (fun t => decide (t ≤ m.1 - 1000))).filter
            (fun t => decide (a ≤ t) && decide (t ≤ b))).length := by
        conv_lhs => rw [← List.takeWhile_append_dropWhile
          (p := fun t => decide (t ≤ m.1 - 1000)) (l := st.rateWindow)]
        rw [List.filter_append, List.length_append]
        rw [filter_nil_of_false _ _ (fun x hx => by
          have hxp := mem_takeWhile_pred _ _ x hx
          have hxa : x ≤ m.1 - 1000 := by simpa using hxp
          have hax : decide (a ≤ x) = false := by simp; omega
          rw [hax]
          rfl)]
        simp
      rw [show runMessages cfg st (m :: rest) =
          (m.1, (processMessage cfg st m.1 m.2.1 m.2.2).2) ::
            runMessages cfg (processMessage cfg st m.1 m.2.1 m.2.2).1 rest from rfl]
      rw [dispatchCountIn_cons]
      by_cases hfull : r ≤ (st.rateWindow.dropWhile
          (fun t => decide (t ≤ m.1 - 1000))).length
      · rw [if_pos hfull] at hstep
        rw [hstep]
        simp only [isDispatch, Bool.and_false, Bool.false_eq_true, if_false]
        have ihx : dispatchCountIn (runMessages cfg
            { st with rateWindow :=
                st.rateWindow.dropWhile (fun t => decide (t ≤ m.1 - 1000)) } rest) a b +
            ((st.rateWindow.dropWhile (fun t => decide (t ≤ m.1 - 1000))).filter
              (fun t => decide (a ≤ t) && decide (t ≤ b))).length ≤ r :=
          ih _ hsort' (by
            show (st.rateWindow.dropWhile (fun t => decide (t ≤ m.1 - 1000))).length ≤ r
            omega)
        rw [hdropped]
        omega
      · rw [if_neg hfull] at hstep
        push_neg at hfull
        rw [hstep, processDecoded_fst]
        have ihx : dispatchCountIn (runMessages cfg
            { st with rateWindow :=
                st.rateWindow.dropWhile (fun t => decide (t ≤ m.1 - 1000)) ++ [m.1] }
              rest) a b +
            (((st.rateWindow.dropWhile (fun t => decide (t ≤ m.1 - 1000)) ++ [m.1]).filter
              (fun t => decide (a ≤ t) && decide (t ≤ b))).length) ≤ r :=
          ih _ hsort' (by
            simp only [List.length_append, List.length_cons, List.length_nil]
            omega)
        have hsplit : ((st.rateWindow.dropWhile (fun t => decide (t ≤ m.1 - 1000)) ++
            [m.1]).filter (fun t => decide (a ≤ t) && decide (t ≤ b))).length =
            ((st.rateWindow.dropWhile (fun t => decide (t ≤ m.1 - 1000))).filter
              (fun t => decide (a ≤ t) && decide (t ≤ b))).length +
              (if decide (a ≤ m.1) && decide (m.1 ≤ b) then 1 else 0) := by
          rw [List.filter_append, List.length_append]
          by_cases h : (decide (a ≤ m.1) && decide (m.1 ≤ b)) = true
          · simp [h]
          · simp only [Bool.not_eq_true] at h
            simp [h]
        rw [hsplit] at ihx
        have hhead_le : (if decide (a ≤ m.1) && decide (m.1 ≤ b) &&
            isDispatch (processDecoded cfg
              { st with rateWindow :=
                  st.rateWindow.dropWhile (fun t => decide (t ≤ m.1 - 1000)) ++ [m.1] }
              m.2.1 m.2.2).2 then 1 else 0) ≤
            (if decide (a ≤ m.1) && decide (m.1 ≤ b) then 1 else 0) := by
          by_cases hA : (decide (a ≤ m.1) && decide (m.1 ≤ b)) = true
          · by_cases hD : isDispatch (processDecoded cfg
                { st with rateWindow :=
                    st.rateWindow.dropWhile (fun t => decide (t ≤ m.1 - 1000)) ++ [m.1] }
                m.2.1 m.2.2).2 = true
            · simp [hA, hD]
            · simp only [Bool.not_eq_true] at hD
              simp [hA, hD]
          · simp only [Bool.not_eq_true] at hA
            simp [hA]
        rw [hdropped]
        omega

/-- C6 counterexample: with `rateLimit = 1`, two valid messages arriving
at times 0 ms and 1000 ms are **both** dispatched — the sliding window
evicts a timestamp at exactly one second (`t <= now - 1000`) — so the
closed interval `[0, 1000]`, of duration exactly one second, sees
2 > 1 dispatched messages, refuting the claim as stated for windows of
duration equal to one second. -/
theorem rate_limit_counterexample :
    (⟨[("ping", ⟨fun d => .succ d⟩)], true, none, none, some 1, none, ""⟩ :
        ChannelConfig).rateLimit = some 1 ∧
      ((1000 : Int) - 0) ≤ 1000 ∧
      (runMessages ⟨[("ping", ⟨fun d => .succ d⟩)], true, none, none, some 1, none, ""⟩
          ⟨[], [("ping", [7])]⟩
          [(0, "\x7b\"$ch\":\"ping\",\"p\":1\x7d", "u"),
            (1000, "\x7b\"$ch\":\"ping\",\"p\":1\x7d", "u")]).map
          (fun p => isDispatch p.2) = [true, true] ∧
      dispatchCountIn
          (runMessages ⟨[("ping", ⟨fun d => .succ d⟩)], true, none, none, some 1, none, ""⟩
            ⟨[], [("ping", [7])]⟩
            [(0, "\x7b\"$ch\":\"ping\",\"p\":1\x7d", "u"),
              (1000, "\x7b\"$ch\":\"ping\",\"p\":1\x7d", "u")]) 0 1000 = 2 := by
  exact ⟨rfl, by norm_num, rfl, rfl⟩

/-- C6 (amended): with `rateLimit = r > 0`, within any time interval of
duration **strictly less** than one second (`b < a + 1000`, in
milliseconds) at most `r` messages are dispatched to handlers; and
concretely with `r = 3`, of five valid messages arriving in the same
millisecond exactly the first three are delivered and the fourth and
fifth dropped, while a sixth arriving 1.1 s later is delivered again.
At exactly one second of separation the window has already slid (see
the counterexample), so the bound holds only for strictly shorter
intervals. -/
theorem rate_limit_amended :
    (∀ (cfg : ChannelConfig) (r : Nat) (msgs : List (Int × String × String))
        (ls : List (String × List Nat)) (a b : Int),
      cfg.rateLimit = some r → 0 < r → b < a + 1000 →
      List.Pairwise (fun p q => p.1 ≤ q.1) msgs →
      dispatchCountIn (runMessages cfg ⟨[], ls⟩ msgs) a b ≤ r) ∧
    (runMessages ⟨[("ping", ⟨fun d => .succ d⟩)], true, none, none, some 3, none, ""⟩
        ⟨[], [("ping", [7])]⟩
        [(0, "\x7b\"$ch\":\"ping\",\"p\":1\x7d", "u"),
          (0, "\x7b\"$ch\":\"ping\",\"p\":1\x7d", "u"),
          (0, "\x7b\"$ch\":\"ping\",\"p\":1\x7d", "u"),
          (0, "\x7b\"$ch\":\"ping\",\"p\":1\x7d", "u"),
          (0, "\x7b\"$ch\":\"ping\",\"p\":1\x7d", "u"),
          (1100, "\x7b\"$ch\":\"ping\",\"p\":1\x7d", "u")]).map
        (fun p => isDispatch p.2) = [true, true, true, false, false, true] := by
  refine ⟨?_, rfl⟩
  intro cfg r msgs ls a b hr hr0 hab hsort
  have h := rl_count_bound cfg r hr hr0 a b hab msgs ⟨[], ls⟩ hsort (by simp)
  simpa using h

/-- Witness for `rate_limit_amended`: the strict-interval bound applied
to a concrete five-message burst in the interval `[0, 999]`. -/
theorem rate_limit_amended_witness :
    dispatchCountIn
        (runMessages ⟨[("ping", ⟨fun d => .succ d⟩)], true, none, none, some 3, none, ""⟩
          ⟨[], [("ping", [7])]⟩
          [(0, "\x7b\"$ch\":\"ping\",\"p\":1\x7d", "u"),
            (0, "\x7b\"$ch\":\"ping\",\"p\":1\x7d", "u"),
            (0, "\x7b\"$ch\":\"ping\",\"p\":1\x7d", "u"),
            (0, "\x7b\"$ch\":\"ping\",\"p\":1\x7d", "u"),
            (0, "\x7b\"$ch\":\"ping\",\"p\":1\x7d", "u")]) 0 999 ≤ 3 :=
  rate_limit_amended.1
    ⟨[("ping", ⟨fun d => .succ d⟩)], true, none, none, some 3, none, ""⟩ 3 _
    [("ping", [7])] 0 999 rfl (by norm_num) (by norm_num)
    (by simp)

-- ── C7: captured prototypes in the client script ───────────────────

theorem occursChars_append_of_right (p t : List Char) (h : occursChars p t = true) :
    ∀ s : List Char, occursChars p (s ++ t) = true := by
  intro s
  induction s with
  | nil => simpa using h
  | cons c cs ih =>
    rw [List.cons_append]
    show ((stripPfxChars p (c :: (cs ++ t))).isSome || occursChars p (cs ++ t)) = true
    rw [ih]
    exact Bool.or_true _

/-- C7 counterexample: in the generated client script (default
`channelId`), `JSON.stringify`, `JSON.parse`, `Object.defineProperty`,
`Object.freeze` and `Object.create` are **not** saved into local
variables: every occurrence of each name is an immediate call on the
dynamically-looked-up global (always directly followed by `(`, never
assigned); moreover the listener registry's `on` function uses the
dynamically-looked-up array method `.push` (`_l[t].push(h)`) rather
than the captured `_push` local, refuting both halves of the claim for
these five functions. -/
theorem captured_prototypes_counterexample :
    occursChars "JSON.stringify".data (getClientScript none).data = true ∧
      occurrencesFollowedBy "JSON.stringify".data "(".data
        (getClientScript none).data = true ∧
      occursChars "JSON.parse".data (getClientScript none).data = true ∧
      occurrencesFollowedBy "JSON.parse".data "(".data
        (getClientScript none).data = true ∧
      occursChars "Object.defineProperty".data (getClientScript none).data = true ∧
      occurrencesFollowedBy "Object.defineProperty".data "(".data
        (getClientScript none).data = true ∧
      occursChars "Object.freeze".data (getClientScript none).data = true ∧
      occurrencesFollowedBy "Object.freeze".data "(".data
        (getClientScript none).data = true ∧
      occursChars "Object.create".data (getClientScript none).data = true ∧
      occurrencesFollowedBy "Object.create".data "(".data
        (getClientScript none).data = true ∧
      occursChars "_l[t].push(h)".data (getClientScript none).data = true := by
  exact ⟨rfl, rfl, rfl, rfl, rfl, rfl, rfl, rfl, rfl, rfl, rfl⟩

/-- C7 (amended): for every `channelId` option, the generated client
script begins with the fixed header that captures exactly the five
`Array.prototype` methods `slice`, `filter`, `push`, `indexOf` and
`splice` into locals before any other code, the dispatcher and
external-listener registry invoke those locals (`_slice.call(`,
`_filter.call(`, `_push.call(`, `_indexOf.call(`, `_splice.call(`),
and the script contains the literal hardening substrings: the
size-limit constant `1048576`, the descriptor
`writable:false,configurable:false`, and the `__proto__` strip.
(`JSON.*` and `Object.*` are used as dynamic globals, not captured —
see the counterexample.) -/
theorem captured_prototypes_amended :
    ∀ cid : Option String,
      startsWithChars clientHeader.data (getClientScript cid).data = true ∧
      occursChars "1048576".data (getClientScript cid).data = true ∧
      occursChars "writable:false,configurable:false".data
        (getClientScript cid).data = true ∧
      occursChars "\"__proto__\" in o)delete o.__proto__".data
        (getClientScript cid).data = true ∧
      occursChars "_slice.call(".data (getClientScript cid).data = true ∧
      occursChars "_filter.call(".data (getClientScript cid).data = true ∧
      occursChars "_push.call(".data (getClientScript cid).data = true ∧
      occursChars "_indexOf.call(".data (getClientScript cid).data = true ∧
      occursChars "_splice.call(".data (getClientScript cid).data = true := by
  intro cid
  have hdata : (getClientScript cid).data =
      clientHeader.data ++ (stringifyVal (.str (cid.getD "")) ++ clientTail.data) := by
    rw [show getClientScript cid =
      clientHeader ++ String.mk (stringifyVal (.str (cid.getD ""))) ++ clientTail from rfl]
    rw [String.data_append, String.data_append, List.append_assoc]
  refine ⟨?_, ?_, ?_, ?_, ?_, ?_, ?_, ?_, ?_⟩
  · rw [hdata]
    show (stripPfxChars clientHeader.data (clientHeader.data ++ _)).isSome = true
    rw [stripPfxChars_self]
    rfl
  all_goals
    rw [hdata]
    exact occursChars_append_of_right _ _
      (occursChars_append_of_right _ _ (by rfl) _) _

-- ── C10 machinery: basic stripping facts ───────────────────────────

theorem stripPfxChars_some_append (p : List Char) :
    ∀ s t, stripPfxChars p s = some t → s = p ++ t := by
  induction p with
  | nil =>
    intro s t h
    simp [stripPfxChars] at h
    simp [h]
  | cons c cs ih =>
    intro s t h
    cases s with
    | nil => simp [stripPfxChars] at h
    | cons d ds =>
      by_cases hd : d = c
      · rw [show stripPfxChars (c :: cs) (d :: ds) = stripPfxChars cs ds from by
          simp [stripPfxChars, hd]] at h
        have := ih ds t h
        simp [hd, this]
      · rw [show stripPfxChars (c :: cs) (d :: ds) = none from by
          simp [stripPfxChars, hd]] at h
        exact absurd h (by simp)

theorem stripPfxCI_some_parts (p : List Char) :
    ∀ s t, stripPfxCI p s = some t →
      ∃ pre, s = pre ++ t ∧
        List.Forall₂ (fun a b => lowerEq b a = true) p pre := by
  induction p with
  | nil =>
    intro s t h
    simp [stripPfxCI] at h
    exact ⟨[], by simp [h], List.Forall₂.nil⟩
  | cons c cs ih =>
    intro s t h
    cases s with
    | nil => simp [stripPfxCI] at h
    | cons d ds =>
      by_cases hd : lowerEq d c = true
      · rw [show stripPfxCI (c :: cs) (d :: ds) = stripPfxCI cs ds from by
          simp [stripPfxCI, hd]] at h
        obtain ⟨pre, hpre, hfa⟩ := ih ds t h
        exact ⟨d :: pre, by simp [hpre], List.Forall₂.cons hd hfa⟩
      · rw [show stripPfxCI (c :: cs) (d :: ds) = none from by
          simp only [Bool.not_eq_true] at hd
          simp [stripPfxCI, hd]] at h
        exact absurd h (by simp)

theorem stripPfxCI_nil_of_ne (p : List Char) (h : p ≠ []) :
    stripPfxCI p [] = none := by
  cases p with
  | nil => exact absurd rfl h
  | cons c cs => rfl

theorem startsWithChars_single (m c : Char) (t : List Char) :
    startsWithChars [m] (c :: t) = decide (c = m) := by
  by_cases h : c = m
  · simp [startsWithChars, stripPfxChars, h]
  · simp [startsWithChars, stripPfxChars, h]

-- ── C10 machinery: character membership under replacement ──────────

theorem mem_replaceAllF (pat repl : List Char) :
    ∀ fuel s x, x ∈ replaceAllF fuel pat repl s → x ∈ repl ∨ x ∈ s := by
  intro fuel
  induction fuel with
  | zero => intro s x hx; exact Or.inr hx
  | succ n ih =>
    intro s x hx
    cases s with
    | nil => simp [replaceAllF] at hx
    | cons c rest =>
      rw [show replaceAllF (n + 1) pat repl (c :: rest) =
          (match stripPfxChars pat (c :: rest) with
           | some after => repl ++ replaceAllF n pat repl after
           | none => c :: replaceAllF n pat repl rest) from rfl] at hx
      cases hm : stripPfxChars pat (c :: rest) with
      | some after =>
        rw [hm] at hx
        rcases List.mem_append.mp hx with h | h
        · exact Or.inl h
        · rcases ih after x h with h' | h'
          · exact Or.inl h'
          · exact Or.inr (by rw [stripPfxChars_some_append pat _ _ hm]; simp [h'])
      | none =>
        rw [hm] at hx
        rcases List.mem_cons.mp hx with rfl | h
        · exact Or.inr (by simp)
        · rcases ih rest x h with h' | h'
          · exact Or.inl h'
          · exact Or.inr (by simp [h'])

theorem mem_replaceAllCIF (pat repl : List Char) :
    ∀ fuel s x, x ∈ replaceAllCIF fuel pat repl s → x ∈ repl ∨ x ∈ s := by
  intro fuel
  induction fuel with
  | zero => intro s x hx; exact Or.inr hx
  | succ n ih =>
    intro s x hx
    cases s with
    | nil => simp [replaceAllCIF] at hx
    | cons c rest =>
      rw [show replaceAllCIF (n + 1) pat repl (c :: rest) =
          (match stripPfxCI pat (c :: rest) with
           | some after => repl ++ replaceAllCIF n pat repl after
           | none => c :: replaceAllCIF n pat repl rest) from rfl] at hx
      cases hm : stripPfxCI pat (c :: rest) with
      | some after =>
        rw [hm] at hx
        rcases List.mem_append.mp hx with h | h
        · exact Or.inl h
        · rcases ih after x h with h' | h'
          · exact Or.inl h'
          · obtain ⟨pre, hpre, _⟩ := stripPfxCI_some_parts pat _ _ hm
            exact Or.inr (by rw [hpre]; simp [h'])
      | none =>
        rw [hm] at hx
        rcases List.mem_cons.mp hx with rfl | h
        · exact Or.inr (by simp)
        · rcases ih rest x h with h' | h'
          · exact Or.inl h'
          · exact Or.inr (by simp [h'])

theorem not_mem_replaceAllF_elim (m : Char) (repl : List Char)
    (hm : m ∉ repl) :
    ∀ fuel s, s.length ≤ fuel → m ∉ replaceAllF fuel [m] repl s := by
  intro fuel
  induction fuel with
  | zero =>
    intro s hs
    have : s = [] := List.length_eq_zero.mp (Nat.le_zero.mp hs)
    subst this
    simp [replaceAllF]
  | succ n ih =>
    intro s hs
    cases s with
    | nil => simp [replaceAllF]
    | cons c rest =>
      rw [show replaceAllF (n + 1) [m] repl (c :: rest) =
          (match stripPfxChars [m] (c :: rest) with
           | some after => repl ++ replaceAllF n [m] repl after
           | none => c :: replaceAllF n [m] repl rest) from rfl]
      by_cases hc : c = m
      · rw [show stripPfxChars [m] (c :: rest) = some rest from by
          simp [stripPfxChars, hc]]
        intro hx
        rcases List.mem_append.mp hx with h | h
        · exact hm h
        · exact ih rest (by simpa using hs) h
      · rw [show stripPfxChars [m] (c :: rest) = none from by
          simp [stripPfxChars, hc]]
        intro hx
        rcases List.mem_cons.mp hx with h | h
        · exact absurd h.symm hc
        · exact ih rest (by simpa using Nat.le_of_succ_le_succ hs) h

-- ── C10 machinery: backslash-run parity ────────────────────────────

theorem band_parts {a b : Bool} (h : (a && b) = true) : a = true ∧ b = true := by
  cases a <;> cases b <;> simp_all

theorem startsWithChars_head_ne (mh : Char) (mt : List Char) (c : Char)
    (t : List Char) (hc : c ≠ mh) :
    startsWithChars (mh :: mt) (c :: t) = false := by
  simp [startsWithChars, stripPfxChars, hc]

theorem parityAfter_concat (par : Bool) (ys : List Char) (y : Char)
    (hy : y ≠ '\\') : parityAfter par (ys ++ [y]) = false := by
  simp only [parityAfter, List.foldl_append, List.foldl_cons, List.foldl_nil]
  simp [parityStep, hy]

theorem parityAfter_all_nonbs (xs : List Char) (hne : xs ≠ [])
    (hxs : ∀ c ∈ xs, c ≠ '\\') (par : Bool) : parityAfter par xs = false := by
  rcases List.eq_nil_or_concat xs with rfl | ⟨ys, y, rfl⟩
  · exact absurd rfl hne
  · rw [List.concat_eq_append]
    exact parityAfter_concat par ys y (hxs y (by simp))

theorem scanReq_parity (mark post : List Char) (hm : mark ≠ []) :
    ∀ pre par, scanReq mark true par (pre ++ (mark ++ post)) = true →
      parityAfter par pre = true := by
  intro pre
  induction pre with
  | nil =>
    intro par h
    cases mark with
    | nil => exact absurd rfl hm
    | cons mh mt =>
      rw [show ([] : List Char) ++ ((mh :: mt) ++ post) = mh :: (mt ++ post) from by
        simp] at h
      rw [show scanReq (mh :: mt) true par (mh :: (mt ++ post)) =
          ((!(startsWithChars (mh :: mt) (mh :: (mt ++ post))) || (par == true)) &&
            scanReq (mh :: mt) true (parityStep par mh) (mt ++ post)) from rfl] at h
      have hsw : startsWithChars (mh :: mt) (mh :: (mt ++ post)) = true := by
        show (stripPfxChars (mh :: mt) ((mh :: mt) ++ post)).isSome = true
        rw [stripPfxChars_self]
        rfl
      rw [hsw] at h
      have := (band_parts h).1
      simpa using this
  | cons c pre' ih =>
    intro par h
    rw [List.cons_append] at h
    cases mark with
    | nil => exact absurd rfl hm
    | cons mh mt =>
      rw [show scanReq (mh :: mt) true par (c :: (pre' ++ ((mh :: mt) ++ post))) =
          ((!(startsWithChars (mh :: mt) (c :: (pre' ++ ((mh :: mt) ++ post)))) ||
              (par == true)) &&
            scanReq (mh :: mt) true (parityStep par c)
              (pre' ++ ((mh :: mt) ++ post))) from rfl] at h
      have hrec := (band_parts h).2
      have := ih (parityStep par c) hrec
      simpa [parityAfter] using this

theorem trailingBackslashes_parity :
    ∀ pre : List Char, parityAfter false pre = true ↔ Odd (trailingBackslashes pre) := by
  intro pre
  induction pre using List.reverseRecOn with
  | nil =>
    simp [parityAfter, trailingBackslashes]
  | append_singleton ys y ih =>
    by_cases hy : y = '\\'
    · subst hy
      have h1 : parityAfter false (ys ++ ['\\']) = !(parityAfter false ys) := by
        simp [parityAfter, List.foldl_append, parityStep]
      have h2 : trailingBackslashes (ys ++ ['\\']) = trailingBackslashes ys + 1 := by
        simp only [trailingBackslashes, List.reverse_append, List.reverse_cons,
          List.reverse_nil, List.nil_append, List.cons_append, List.nil_append]
        rw [show List.takeWhile (fun c => decide (c = '\\')) ('\\' :: ys.reverse) =
          '\\' :: List.takeWhile (fun c => decide (c = '\\')) ys.reverse from by
            simp [List.takeWhile_cons]]
        simp
      rw [h1, h2]
      constructor
      · intro h
        have : parityAfter false ys = false := by
          cases hpa : parityAfter false ys
          · rfl
          · rw [hpa] at h; simp at h
        have hnot : ¬ Odd (trailingBackslashes ys) := by
          intro hodd
          rw [ih.mpr hodd] at this
          simp at this
        rw [Nat.odd_add_one]
        exact hnot
      · intro h
        rw [Nat.odd_add_one] at h
        have : parityAfter false ys = false := by
          cases hpa : parityAfter false ys
          · rfl
          · exact absurd (ih.mp hpa) h
        rw [this]
        rfl
    · have h1 : parityAfter false (ys ++ [y]) = false := parityAfter_concat false ys y hy
      have h2 : trailingBackslashes (ys ++ [y]) = 0 := by
        simp only [trailingBackslashes, List.reverse_append, List.reverse_cons,
          List.reverse_nil, List.nil_append, List.cons_append, List.nil_append]
        rw [show List.takeWhile (fun c => decide (c = '\\')) (y :: ys.reverse) =
          [] from by simp [List.takeWhile_cons, hy]]
        rfl
      rw [h1, h2]
      simp [Nat.odd_iff]

theorem scanReq_oddEscapedBefore (mark : List Char) (hm : mark ≠ [])
    (s : List Char) (h : scanReq mark true false s = true) :
    oddEscapedBefore mark s := by
  intro pre post hdecomp
  have h' : scanReq mark true false (pre ++ (mark ++ post)) = true := by
    rw [← List.append_assoc, ← hdecomp]
    exact h
  have := scanReq_parity mark post hm pre false h'
  exact (trailingBackslashes_parity pre).mp this

theorem scanReq_peel (mh : Char) (mt : List Char) (want : Bool) :
    ∀ (xs : List Char), (∀ c ∈ xs, c ≠ mh) → ∀ ys par,
      scanReq (mh :: mt) want par (xs ++ ys) = true →
      scanReq (mh :: mt) want (parityAfter par xs) ys = true := by
  intro xs
  induction xs with
  | nil => intro _ ys par h; exact h
  | cons c xs' ih =>
    intro hxs ys par h
    rw [List.cons_append] at h
    rw [show scanReq (mh :: mt) want par (c :: (xs' ++ ys)) =
        ((!(startsWithChars (mh :: mt) (c :: (xs' ++ ys))) || (par == want)) &&
          scanReq (mh :: mt) want (parityStep par c) (xs' ++ ys)) from rfl] at h
    have hrec := (band_parts h).2
    have := ih (fun x hx => hxs x (by simp [hx])) ys (parityStep par c) hrec
    simpa [parityAfter] using this

theorem scanReq_emit (mh : Char) (mt : List Char) (want : Bool) :
    ∀ (xs : List Char), (∀ c ∈ xs, c ≠ mh) → ∀ ys par,
      scanReq (mh :: mt) want (parityAfter par xs) ys = true →
      scanReq (mh :: mt) want par (xs ++ ys) = true := by
  intro xs
  induction xs with
  | nil => intro _ ys par h; exact h
  | cons c xs' ih =>
    intro hxs ys par h
    rw [List.cons_append]
    rw [show scanReq (mh :: mt) want par (c :: (xs' ++ ys)) =
        ((!(startsWithChars (mh :: mt) (c :: (xs' ++ ys))) || (par == want)) &&
          scanReq (mh :: mt) want (parityStep par c) (xs' ++ ys)) from rfl]
    have hsw : startsWithChars (mh :: mt) (c :: (xs' ++ ys)) = false :=
      startsWithChars_head_ne mh mt c _ (hxs c (by simp))
    rw [hsw]
    have hpa : parityAfter par (c :: xs') = parityAfter (parityStep par c) xs' := by
      simp [parityAfter]
    rw [hpa] at h
    rw [ih (fun x hx => hxs x (by simp [hx])) ys (parityStep par c) h]
    simp

-- ── C10 machinery: establishment of escape parity ──────────────────

theorem eq_false_of_beq {a : Bool} (h : (a == false) = true) : a = false := by
  cases a <;> simp_all

theorem scanReq_after_doubling (mh : Char) (mt : List Char) (hmh : mh ≠ '\\') :
    ∀ fuel s, s.length ≤ fuel →
      scanReq (mh :: mt) false false (replaceAllF fuel ['\\'] ['\\', '\\'] s) = true := by
  have hsw : ∀ t, startsWithChars (mh :: mt) ('\\' :: t) = false :=
    fun t => startsWithChars_head_ne mh mt '\\' t (Ne.symm hmh)
  intro fuel
  induction fuel with
  | zero =>
    intro s hs
    have : s = [] := List.length_eq_zero.mp (Nat.le_zero.mp hs)
    subst this
    rfl
  | succ n ih =>
    intro s hs
    cases s with
    | nil => rfl
    | cons c rest =>
      by_cases hc : c = '\\'
      · subst hc
        have hstrip : stripPfxChars ['\\'] ('\\' :: rest) = some rest := by
          simp [stripPfxChars]
        rw [show replaceAllF (n + 1) ['\\'] ['\\', '\\'] ('\\' :: rest) =
            (match stripPfxChars ['\\'] ('\\' :: rest) with
             | some after => ['\\', '\\'] ++ replaceAllF n ['\\'] ['\\', '\\'] after
             | none => '\\' :: replaceAllF n ['\\'] ['\\', '\\'] rest) from rfl, hstrip]
        simp only [List.cons_append, List.nil_append]
        simp only [scanReq, hsw, parityStep]
        simpa using ih rest (by simpa using Nat.le_of_succ_le_succ hs)
      · have hstrip : stripPfxChars ['\\'] (c :: rest) = none := by
          simp [stripPfxChars, hc]
        rw [show replaceAllF (n + 1) ['\\'] ['\\', '\\'] (c :: rest) =
            (match stripPfxChars ['\\'] (c :: rest) with
             | some after => ['\\', '\\'] ++ replaceAllF n ['\\'] ['\\', '\\'] after
             | none => c :: replaceAllF n ['\\'] ['\\', '\\'] rest) from rfl, hstrip]
        simp only [scanReq]
        rw [show (parityStep false c) = false from by simp [parityStep, hc]]
        rw [ih rest (by simpa using Nat.le_of_succ_le_succ hs)]
        simp

theorem scanReq_escape_single (m : Char) (hm : m ≠ '\\') :
    ∀ fuel s par, s.length ≤ fuel → scanReq [m] false par s = true →
      scanReq [m] true par (replaceAllF fuel [m] ['\\', m] s) = true := by
  intro fuel
  induction fuel with
  | zero =>
    intro s par hs _
    have : s = [] := List.length_eq_zero.mp (Nat.le_zero.mp hs)
    subst this
    rfl
  | succ n ih =>
    intro s par hs h
    cases s with
    | nil => rfl
    | cons c rest =>
      by_cases hc : c = m
      · subst hc
        have hstrip : stripPfxChars [c] (c :: rest) = some rest := by
          simp [stripPfxChars]
        have hswt : startsWithChars [c] (c :: rest) = true := by
          simp [startsWithChars, hstrip]
        rw [show scanReq [c] false par (c :: rest) =
            ((!(startsWithChars [c] (c :: rest)) || (par == false)) &&
              scanReq [c] false (parityStep par c) rest) from rfl, hswt] at h
        obtain ⟨hchk, hrec⟩ := band_parts h
        have hpar : par = false := eq_false_of_beq (by simpa using hchk)
        subst hpar
        have hps : parityStep false c = false := by simp [parityStep, hm]
        rw [hps] at hrec
        rw [show replaceAllF (n + 1) [c] ['\\', c] (c :: rest) =
            (match stripPfxChars [c] (c :: rest) with
             | some after => ['\\', c] ++ replaceAllF n [c] ['\\', c] after
             | none => c :: replaceAllF n [c] ['\\', c] rest) from rfl, hstrip]
        simp only [List.cons_append, List.nil_append]
        have hsw1 : startsWithChars [c] ('\\' :: (c :: replaceAllF n [c] ['\\', c] rest)) =
            false := startsWithChars_head_ne c [] '\\' _ (Ne.symm hm)
        have hsw2 : startsWithChars [c] (c :: replaceAllF n [c] ['\\', c] rest) = true := by
          simp [startsWithChars, stripPfxChars]
        rw [show scanReq [c] true false
            ('\\' :: (c :: replaceAllF n [c] ['\\', c] rest)) =
            ((!(startsWithChars [c] ('\\' :: (c :: replaceAllF n [c] ['\\', c] rest))) ||
                (false == true)) &&
              scanReq [c] true (parityStep false '\\')
                (c :: replaceAllF n [c] ['\\', c] rest)) from rfl, hsw1]
        rw [show parityStep false '\\' = true from by simp [parityStep]]
        rw [show scanReq [c] true true (c :: replaceAllF n [c] ['\\', c] rest) =
            ((!(startsWithChars [c] (c :: replaceAllF n [c] ['\\', c] rest)) ||
                (true == true)) &&
              scanReq [c] true (parityStep true c)
                (replaceAllF n [c] ['\\', c] rest)) from rfl, hsw2]
        rw [show parityStep true c = false from by simp [parityStep, hm]]
        rw [ih rest false (by simpa using Nat.le_of_succ_le_succ hs) hrec]
        simp
      · have hstrip : stripPfxChars [m] (c :: rest) = none := by
          simp [stripPfxChars, hc]
        rw [show scanReq [m] false par (c :: rest) =
            ((!(startsWithChars [m] (c :: rest)) || (par == false)) &&
              scanReq [m] false (parityStep par c) rest) from rfl] at h
        have hrec := (band_parts h).2
        rw [show replaceAllF (n + 1) [m] ['\\', m] (c :: rest) =
            (match stripPfxChars [m] (c :: rest) with
             | some after => ['\\', m] ++ replaceAllF n [m] ['\\', m] after
             | none => c :: replaceAllF n [m] ['\\', m] rest) from rfl, hstrip]
        rw [show scanReq [m] true par (c :: replaceAllF n [m] ['\\', m] rest) =
            ((!(startsWithChars [m] (c :: replaceAllF n [m] ['\\', m] rest)) ||
                (par == true)) &&
              scanReq [m] true (parityStep par c)
                (replaceAllF n [m] ['\\', m] rest)) from rfl]
        rw [startsWithChars_head_ne m [] c _ hc]
        rw [ih rest (parityStep par c) (by simpa using Nat.le_of_succ_le_succ hs) hrec]
        simp

theorem replaceDollar_out_head (n : Nat) (rest : List Char)
    (hrest : stripPfxChars ['\x7b'] rest = none) :
    stripPfxChars ['\x7b'] (replaceAllF n ['$', '\x7b'] ['\\', '$', '\x7b'] rest) =
      none := by
  cases n with
  | zero => exact hrest
  | succ k =>
    cases rest with
    | nil => rfl
    | cons d rest2 =>
      cases hm2 : stripPfxChars ['$', '\x7b'] (d :: rest2) with
      | some a =>
        rw [show replaceAllF (k + 1) ['$', '\x7b'] ['\\', '$', '\x7b'] (d :: rest2) =
            (match stripPfxChars ['$', '\x7b'] (d :: rest2) with
             | some after =>
               ['\\', '$', '\x7b'] ++ replaceAllF k ['$', '\x7b'] ['\\', '$', '\x7b'] after
             | none => d :: replaceAllF k ['$', '\x7b'] ['\\', '$', '\x7b'] rest2)
          from rfl, hm2]
        simp [stripPfxChars]
      | none =>
        rw [show replaceAllF (k + 1) ['$', '\x7b'] ['\\', '$', '\x7b'] (d :: rest2) =
            (match stripPfxChars ['$', '\x7b'] (d :: rest2) with
             | some after =>
               ['\\', '$', '\x7b'] ++ replaceAllF k ['$', '\x7b'] ['\\', '$', '\x7b'] after
             | none => d :: replaceAllF k ['$', '\x7b'] ['\\', '$', '\x7b'] rest2)
          from rfl, hm2]
        by_cases hd : d = '\x7b'
        · subst hd
          simp [stripPfxChars] at hrest
        · simp [stripPfxChars, hd]

theorem scanReq_escape_dollar :
    ∀ fuel s par, s.length ≤ fuel → scanReq ['$', '\x7b'] false par s = true →
      scanReq ['$', '\x7b'] true par
        (replaceAllF fuel ['$', '\x7b'] ['\\', '$', '\x7b'] s) = true := by
  intro fuel
  induction fuel with
  | zero =>
    intro s par hs _
    have : s = [] := List.length_eq_zero.mp (Nat.le_zero.mp hs)
    subst this
    rfl
  | succ n ih =>
    intro s par hs h
    cases s with
    | nil => rfl
    | cons c rest =>
      cases hm : stripPfxChars ['$', '\x7b'] (c :: rest) with
      | some after =>
        have hdec := stripPfxChars_some_append _ _ _ hm
        rw [List.cons_append, List.cons_append, List.nil_append] at hdec
        obtain ⟨hc, hrest⟩ : c = '$' ∧ rest = '\x7b' :: after := by
          simpa using hdec
        subst hc
        subst hrest
        have hsw1 : startsWithChars ['$', '\x7b'] ('$' :: '\x7b' :: after) = true := by
          show (stripPfxChars ['$', '\x7b'] (['$', '\x7b'] ++ after)).isSome = true
          rw [stripPfxChars_self]
          rfl
        rw [show scanReq ['$', '\x7b'] false par ('$' :: '\x7b' :: after) =
            ((!(startsWithChars ['$', '\x7b'] ('$' :: '\x7b' :: after)) ||
                (par == false)) &&
              scanReq ['$', '\x7b'] false (parityStep par '$') ('\x7b' :: after))
          from rfl, hsw1] at h
        obtain ⟨hchk, hrec1⟩ := band_parts h
        have hpar : par = false := eq_false_of_beq (by simpa using hchk)
        subst hpar
        rw [show parityStep false '$' = false from by simp [parityStep]] at hrec1
        rw [show scanReq ['$', '\x7b'] false false ('\x7b' :: after) =
            ((!(startsWithChars ['$', '\x7b'] ('\x7b' :: after)) || (false == false)) &&
              scanReq ['$', '\x7b'] false (parityStep false '\x7b') after)
          from rfl] at hrec1
        have hrec2 := (band_parts hrec1).2
        rw [show parityStep false '\x7b' = false from by simp [parityStep]] at hrec2
        rw [show replaceAllF (n + 1) ['$', '\x7b'] ['\\', '$', '\x7b']
            ('$' :: '\x7b' :: after) =
            (match stripPfxChars ['$', '\x7b'] ('$' :: '\x7b' :: after) with
             | some a =>
               ['\\', '$', '\x7b'] ++ replaceAllF n ['$', '\x7b'] ['\\', '$', '\x7b'] a
             | none =>
               '$' :: replaceAllF n ['$', '\x7b'] ['\\', '$', '\x7b'] ('\x7b' :: after))
          from rfl, hm]
        simp only [List.cons_append, List.nil_append]
        have hout := ih after false (by
          simp only [List.length_cons] at hs
          omega) hrec2
        have hsw2 : startsWithChars ['$', '\x7b']
            ('\\' :: '$' :: '\x7b' :: replaceAllF n ['$', '\x7b'] ['\\', '$', '\x7b']
              after) = false :=
          startsWithChars_head_ne '$' ['\x7b'] '\\' _ (by decide)
        have hsw3 : startsWithChars ['$', '\x7b']
            ('$' :: '\x7b' :: replaceAllF n ['$', '\x7b'] ['\\', '$', '\x7b'] after) =
            true := by
          show (stripPfxChars ['$', '\x7b']
            (['$', '\x7b'] ++ replaceAllF n ['$', '\x7b'] ['\\', '$', '\x7b']
              after)).isSome = true
          rw [stripPfxChars_self]
          rfl
        have hsw4 : startsWithChars ['$', '\x7b']
            ('\x7b' :: replaceAllF n ['$', '\x7b'] ['\\', '$', '\x7b'] after) = false :=
          startsWithChars_head_ne '$' ['\x7b'] '\x7b' _ (by decide)
        rw [show scanReq ['$', '\x7b'] true false
            ('\\' :: '$' :: '\x7b' :: replaceAllF n ['$', '\x7b'] ['\\', '$', '\x7b']
              after) =
            ((!(startsWithChars ['$', '\x7b']
                ('\\' :: '$' :: '\x7b' :: replaceAllF n ['$', '\x7b']
                  ['\\', '$', '\x7b'] after)) || (false == true)) &&
              scanReq ['$', '\x7b'] true (parityStep false '\\')
                ('$' :: '\x7b' :: replaceAllF n ['$', '\x7b'] ['\\', '$', '\x7b'] after))
          from rfl, hsw2]
        rw [show parityStep false '\\' = true from by simp [parityStep]]
        rw [show scanReq ['$', '\x7b'] true true
            ('$' :: '\x7b' :: replaceAllF n ['$', '\x7b'] ['\\', '$', '\x7b'] after) =
            ((!(startsWithChars ['$', '\x7b']
                ('$' :: '\x7b' :: replaceAllF n ['$', '\x7b'] ['\\', '$', '\x7b']
                  after)) || (true == true)) &&
              scanReq ['$', '\x7b'] true (parityStep true '$')
                ('\x7b' :: replaceAllF n ['$', '\x7b'] ['\\', '$', '\x7b'] after))
          from rfl, hsw3]
        rw [show parityStep true '$' = false from by simp [parityStep]]
        rw [show scanReq ['$', '\x7b'] true false
            ('\x7b' :: replaceAllF n ['$', '\x7b'] ['\\', '$', '\x7b'] after) =
            ((!(startsWithChars ['$', '\x7b']
                ('\x7b' :: replaceAllF n ['$', '\x7b'] ['\\', '$', '\x7b'] after)) ||
                (false == true)) &&
              scanReq ['$', '\x7b'] true (parityStep false '\x7b')
                (replaceAllF n ['$', '\x7b'] ['\\', '$', '\x7b'] after))
          from rfl, hsw4]
        rw [show parityStep false '\x7b' = false from by simp [parityStep]]
        rw [hout]
        simp
      | none =>
        rw [show scanReq ['$', '\x7b'] false par (c :: rest) =
            ((!(startsWithChars ['$', '\x7b'] (c :: rest)) || (par == false)) &&
              scanReq ['$', '\x7b'] false (parityStep par c) rest) from rfl] at h
        have hrec := (band_parts h).2
        rw [show replaceAllF (n + 1) ['$', '\x7b'] ['\\', '$', '\x7b'] (c :: rest) =
            (match stripPfxChars ['$', '\x7b'] (c :: rest) with
             | some a =>
               ['\\', '$', '\x7b'] ++ replaceAllF n ['$', '\x7b'] ['\\', '$', '\x7b'] a
             | none => c :: replaceAllF n ['$', '\x7b'] ['\\', '$', '\x7b'] rest)
          from rfl, hm]
        have hswo : startsWithChars ['$', '\x7b']
            (c :: replaceAllF n ['$', '\x7b'] ['\\', '$', '\x7b'] rest) = false := by
          by_cases hc : c = '$'
          · subst hc
            have hrest : stripPfxChars ['\x7b'] rest = none := by
              simpa [stripPfxChars] using hm
            have := replaceDollar_out_head n rest hrest
            simp [startsWithChars, stripPfxChars, this]
          · exact startsWithChars_head_ne '$' ['\x7b'] c _ hc
        rw [show scanReq ['$', '\x7b'] true par
            (c :: replaceAllF n ['$', '\x7b'] ['\\', '$', '\x7b'] rest) =
            ((!(startsWithChars ['$', '\x7b']
                (c :: replaceAllF n ['$', '\x7b'] ['\\', '$', '\x7b'] rest)) ||
                (par == true)) &&
              scanReq ['$', '\x7b'] true (parityStep par c)
                (replaceAllF n ['$', '\x7b'] ['\\', '$', '\x7b'] rest)) from rfl, hswo]
        rw [ih rest (parityStep par c) (by simpa using Nat.le_of_succ_le_succ hs) hrec]
        simp

-- ── C10 machinery: preservation of escape parity ───────────────────

theorem scanReq_preserve_single (m : Char) (want : Bool) (pat repl : List Char)
    (hpat0 : pat ≠ [])
    (hpatc : ∀ c ∈ pat, c ≠ '\\' ∧ c ≠ m)
    (hreplm : ∀ c ∈ repl, c ≠ m)
    (hlast : ∃ ys y, repl = ys ++ [y] ∧ y ≠ '\\') :
    ∀ fuel s par, scanReq [m] want par s = true →
      scanReq [m] want par (replaceAllF fuel pat repl s) = true := by
  intro fuel
  induction fuel with
  | zero => intro s par h; exact h
  | succ n ih =>
    intro s par h
    cases s with
    | nil => rfl
    | cons c rest =>
      cases hm : stripPfxChars pat (c :: rest) with
      | some after =>
        have hdec := stripPfxChars_some_append _ _ _ hm
        rw [hdec] at h
        have hpeel := scanReq_peel m [] want pat (fun x hx => (hpatc x hx).2)
          after par h
        rw [parityAfter_all_nonbs pat hpat0 (fun x hx => (hpatc x hx).1) par] at hpeel
        have hrec := ih after false hpeel
        rw [show replaceAllF (n + 1) pat repl (c :: rest) =
            (match stripPfxChars pat (c :: rest) with
             | some a => repl ++ replaceAllF n pat repl a
             | none => c :: replaceAllF n pat repl rest) from rfl, hm]
        refine scanReq_emit m [] want repl hreplm _ par ?_
        obtain ⟨ys, y, hre, hy⟩ := hlast
        rw [hre, parityAfter_concat par ys y hy]
        rw [← hre]
        exact hrec
      | none =>
        rw [show scanReq [m] want par (c :: rest) =
            ((!(startsWithChars [m] (c :: rest)) || (par == want)) &&
              scanReq [m] want (parityStep par c) rest) from rfl] at h
        obtain ⟨hchk, hrec⟩ := band_parts h
        rw [show replaceAllF (n + 1) pat repl (c :: rest) =
            (match stripPfxChars pat (c :: rest) with
             | some a => repl ++ replaceAllF n pat repl a
             | none => c :: replaceAllF n pat repl rest) from rfl, hm]
        rw [show scanReq [m] want par (c :: replaceAllF n pat repl rest) =
            ((!(startsWithChars [m] (c :: replaceAllF n pat repl rest)) ||
                (par == want)) &&
              scanReq [m] want (parityStep par c) (replaceAllF n pat repl rest))
          from rfl]
        rw [startsWithChars_single m c _] at hchk
        rw [startsWithChars_single m c _, hchk, ih rest (parityStep par c) hrec]
        rfl

theorem head_lbrace_pres (pat repl : List Char) (hpat0 : pat ≠ [])
    (hpatH : ∀ c ∈ pat, c ≠ '\x7b') (hreplH : ∀ c ∈ repl, c ≠ '\x7b')
    (hrepl0 : repl ≠ []) (n : Nat) (rest : List Char) :
    (stripPfxChars ['\x7b'] (replaceAllF n pat repl rest)).isSome =
      (stripPfxChars ['\x7b'] rest).isSome := by
  cases n with
  | zero => rfl
  | succ k =>
    cases rest with
    | nil => rfl
    | cons d rest2 =>
      rw [show replaceAllF (k + 1) pat repl (d :: rest2) =
          (match stripPfxChars pat (d :: rest2) with
           | some a => repl ++ replaceAllF k pat repl a
           | none => d :: replaceAllF k pat repl rest2) from rfl]
      cases hm : stripPfxChars pat (d :: rest2) with
      | some a =>
        have hdec := stripPfxChars_some_append _ _ _ hm
        cases pat with
        | nil => exact absurd rfl hpat0
        | cons p0 pt =>
          have hd : d = p0 := by
            rw [List.cons_append] at hdec
            exact (List.cons_eq_cons.mp hdec).1
          have hdne : d ≠ '\x7b' := hd ▸ hpatH p0 (by simp)
          cases repl with
          | nil => exact absurd rfl hrepl0
          | cons r0 rt =>
            have hrne : r0 ≠ '\x7b' := hreplH r0 (by simp)
            simp [stripPfxChars, hrne, hdne]
      | none =>
        by_cases hd : d = '\x7b'
        · subst hd
          rw [show stripPfxChars ['\x7b'] ('\x7b' :: replaceAllF k pat repl rest2) =
            some (replaceAllF k pat repl rest2) from by simp [stripPfxChars]]
          rw [show stripPfxChars ['\x7b'] ('\x7b' :: rest2) = some rest2 from by
            simp [stripPfxChars]]
          rfl
        · rw [show stripPfxChars ['\x7b'] (d :: replaceAllF k pat repl rest2) =
            none from by simp [stripPfxChars, hd]]
          rw [show stripPfxChars ['\x7b'] (d :: rest2) = none from by
            simp [stripPfxChars, hd]]

theorem scanReq_preserve_dollar (pat repl : List Char)
    (hpat0 : pat ≠ [])
    (hpatc : ∀ c ∈ pat, c ≠ '\\' ∧ c ≠ '$' ∧ c ≠ '\x7b')
    (hreplc : ∀ c ∈ repl, c ≠ '$' ∧ c ≠ '\x7b')
    (hlast : ∃ ys y, repl = ys ++ [y] ∧ y ≠ '\\') :
    ∀ fuel s par want, scanReq ['$', '\x7b'] want par s = true →
      scanReq ['$', '\x7b'] want par (replaceAllF fuel pat repl s) = true := by
  have hrepl0 : repl ≠ [] := by
    obtain ⟨ys, y, hre, _⟩ := hlast
    rw [hre]
    simp
  intro fuel
  induction fuel with
  | zero => intro s par want h; exact h
  | succ n ih =>
    intro s par want h
    cases s with
    | nil => rfl
    | cons c rest =>
      cases hm : stripPfxChars pat (c :: rest) with
      | some after =>
        have hdec := stripPfxChars_some_append _ _ _ hm
        rw [hdec] at h
        have hpeel := scanReq_peel '$' ['\x7b'] want pat
          (fun x hx => (hpatc x hx).2.1) after par h
        rw [parityAfter_all_nonbs pat hpat0 (fun x hx => (hpatc x hx).1) par] at hpeel
        have hrec := ih after false want hpeel
        rw [show replaceAllF (n + 1) pat repl (c :: rest) =
            (match stripPfxChars pat (c :: rest) with
             | some a => repl ++ replaceAllF n pat repl a
             | none => c :: replaceAllF n pat repl rest) from rfl, hm]
        refine scanReq_emit '$' ['\x7b'] want repl (fun x hx => (hreplc x hx).1)
          _ par ?_
        obtain ⟨ys, y, hre, hy⟩ := hlast
        rw [hre, parityAfter_concat par ys y hy]
        rw [← hre]
        exact hrec
      | none =>
        rw [show scanReq ['$', '\x7b'] want par (c :: rest) =
            ((!(startsWithChars ['$', '\x7b'] (c :: rest)) || (par == want)) &&
              scanReq ['$', '\x7b'] want (parityStep par c) rest) from rfl] at h
        obtain ⟨hchk, hrec⟩ := band_parts h
        rw [show replaceAllF (n + 1) pat repl (c :: rest) =
            (match stripPfxChars pat (c :: rest) with
             | some a => repl ++ replaceAllF n pat repl a
             | none => c :: replaceAllF n pat repl rest) from rfl, hm]
        rw [show scanReq ['$', '\x7b'] want par (c :: replaceAllF n pat repl rest) =
            ((!(startsWithChars ['$', '\x7b'] (c :: replaceAllF n pat repl rest)) ||
                (par == want)) &&
              scanReq ['$', '\x7b'] want (parityStep par c)
                (replaceAllF n pat repl rest)) from rfl]
        have hswEq : startsWithChars ['$', '\x7b'] (c :: replaceAllF n pat repl rest) =
            startsWithChars ['$', '\x7b'] (c :: rest) := by
          by_cases hc : c = '$'
          · subst hc
            show (stripPfxChars ['$', '\x7b'] ('$' :: replaceAllF n pat repl
              rest)).isSome = (stripPfxChars ['$', '\x7b'] ('$' :: rest)).isSome
            rw [show stripPfxChars ['$', '\x7b'] ('$' :: replaceAllF n pat repl rest) =
              stripPfxChars ['\x7b'] (replaceAllF n pat repl rest) from by
                simp [stripPfxChars]]
            rw [show stripPfxChars ['$', '\x7b'] ('$' :: rest) =
              stripPfxChars ['\x7b'] rest from by simp [stripPfxChars]]
            exact head_lbrace_pres pat repl hpat0 (fun x hx => (hpatc x hx).2.2)
              (fun x hx => (hreplc x hx).2) hrepl0 n rest
          · rw [startsWithChars_head_ne '$' ['\x7b'] c (replaceAllF n pat repl rest) hc,
              startsWithChars_head_ne '$' ['\x7b'] c rest hc]
        rw [hswEq, hchk, ih rest (parityStep par c) want hrec]
        rfl

theorem forall2_right {α β : Type _} {R : α → β → Prop} :
    ∀ {p : List α} {q : List β}, List.Forall₂ R p q →
      ∀ b ∈ q, ∃ a ∈ p, R a b := by
  intro p q h
  induction h with
  | nil => intro b hb; simp at hb
  | cons hr _ ih =>
    intro b hb
    rcases List.mem_cons.mp hb with rfl | hb'
    · exact ⟨_, by simp, hr⟩
    · obtain ⟨a, ha, hab⟩ := ih b hb'
      exact ⟨a, by simp [ha], hab⟩

theorem ci_char_ne (c pc x : Char) (h : lowerEq c pc = true)
    (hne : asciiLower pc ≠ asciiLower x) : c ≠ x := by
  intro hcx
  subst hcx
  have : asciiLower c = asciiLower pc := by
    have := h
    simp only [lowerEq, beq_iff_eq] at this
    exact this
  exact hne this.symm

theorem scanReq_preserve_single_ci (m : Char) (want : Bool) (pat repl : List Char)
    (hpat0 : pat ≠ [])
    (hpatc : ∀ pc ∈ pat, asciiLower pc ≠ asciiLower '\\' ∧
      asciiLower pc ≠ asciiLower m)
    (hreplm : ∀ c ∈ repl, c ≠ m)
    (hlast : ∃ ys y, repl = ys ++ [y] ∧ y ≠ '\\') :
    ∀ fuel s par, scanReq [m] want par s = true →
      scanReq [m] want par (replaceAllCIF fuel pat repl s) = true := by
  intro fuel
  induction fuel with
  | zero => intro s par h; exact h
  | succ n ih =>
    intro s par h
    cases s with
    | nil => rfl
    | cons c rest =>
      cases hm : stripPfxCI pat (c :: rest) with
      | some after =>
        obtain ⟨pre, hdec, hfa⟩ := stripPfxCI_some_parts _ _ _ hm
        have hpre0 : pre ≠ [] := by
          intro hnil
          have := hfa.length_eq
          rw [hnil] at this
          exact hpat0 (List.length_eq_zero.mp this)
        have hprec : ∀ x ∈ pre, x ≠ '\\' ∧ x ≠ m := by
          intro x hx
          obtain ⟨pc, hpc, hr⟩ := forall2_right hfa x hx
          exact ⟨ci_char_ne x pc '\\' hr (hpatc pc hpc).1,
            ci_char_ne x pc m hr (hpatc pc hpc).2⟩
        rw [hdec] at h
        have hpeel := scanReq_peel m [] want pre (fun x hx => (hprec x hx).2)
          after par h
        rw [parityAfter_all_nonbs pre hpre0 (fun x hx => (hprec x hx).1) par] at hpeel
        have hrec := ih after false hpeel
        rw [show replaceAllCIF (n + 1) pat repl (c :: rest) =
            (match stripPfxCI pat (c :: rest) with
             | some a => repl ++ replaceAllCIF n pat repl a
             | none => c :: replaceAllCIF n pat repl rest) from rfl, hm]
        refine scanReq_emit m [] want repl hreplm _ par ?_
        obtain ⟨ys, y, hre, hy⟩ := hlast
        rw [hre, parityAfter_concat par ys y hy]
        rw [← hre]
        exact hrec
      | none =>
        rw [show scanReq [m] want par (c :: rest) =
            ((!(startsWithChars [m] (c :: rest)) || (par == want)) &&
              scanReq [m] want (parityStep par c) rest) from rfl] at h
        obtain ⟨hchk, hrec⟩ := band_parts h
        rw [show replaceAllCIF (n + 1) pat repl (c :: rest) =
            (match stripPfxCI pat (c :: rest) with
             | some a => repl ++ replaceAllCIF n pat repl a
             | none => c :: replaceAllCIF n pat repl rest) from rfl, hm]
        rw [show scanReq [m] want par (c :: replaceAllCIF n pat repl rest) =
            ((!(startsWithChars [m] (c :: replaceAllCIF n pat repl rest)) ||
                (par == want)) &&
              scanReq [m] want (parityStep par c) (replaceAllCIF n pat repl rest))
          from rfl]
        rw [startsWithChars_single m c _] at hchk
        rw [startsWithChars_single m c _, hchk, ih rest (parityStep par c) hrec]
        rfl

theorem head_lbrace_pres_ci (pat repl : List Char) (hpat0 : pat ≠ [])
    (hpatH : ∀ pc ∈ pat, asciiLower pc ≠ asciiLower '\x7b')
    (hreplH : ∀ c ∈ repl, c ≠ '\x7b')
    (hrepl0 : repl ≠ []) (n : Nat) (rest : List Char) :
    (stripPfxChars ['\x7b'] (replaceAllCIF n pat repl rest)).isSome =
      (stripPfxChars ['\x7b'] rest).isSome := by
  cases n with
  | zero => rfl
  | succ k =>
    cases rest with
    | nil => rfl
    | cons d rest2 =>
      rw [show replaceAllCIF (k + 1) pat repl (d :: rest2) =
          (match stripPfxCI pat (d :: rest2) with
           | some a => repl ++ replaceAllCIF k pat repl a
           | none => d :: replaceAllCIF k pat repl rest2) from rfl]
      cases hm : stripPfxCI pat (d :: rest2) with
      | some a =>
        obtain ⟨pre, hdec, hfa⟩ := stripPfxCI_some_parts _ _ _ hm
        cases pre with
        | nil =>
          have hlen := hfa.length_eq
          simp at hlen
          exact absurd hlen hpat0
        | cons q0 qt =>
          have hd : d = q0 := (List.cons_eq_cons.mp hdec).1
          obtain ⟨pc, hpc, hr⟩ := forall2_right hfa q0 (by simp)
          have hdne : d ≠ '\x7b' := hd ▸ ci_char_ne q0 pc '\x7b' hr (hpatH pc hpc)
          cases repl with
          | nil => exact absurd rfl hrepl0
          | cons r0 rt =>
            have hrne : r0 ≠ '\x7b' := hreplH r0 (by simp)
            simp [stripPfxChars, hrne, hdne]
      | none =>
        by_cases hd : d = '\x7b'
        · subst hd
          rw [show stripPfxChars ['\x7b'] ('\x7b' :: replaceAllCIF k pat repl rest2) =
            some (replaceAllCIF k pat repl rest2) from by simp [stripPfxChars]]
          rw [show stripPfxChars ['\x7b'] ('\x7b' :: rest2) = some rest2 from by
            simp [stripPfxChars]]
          rfl
        · rw [show stripPfxChars ['\x7b'] (d :: replaceAllCIF k pat repl rest2) =
            none from by simp [stripPfxChars, hd]]
          rw [show stripPfxChars ['\x7b'] (d :: rest2) = none from by
            simp [stripPfxChars, hd]]

theorem scanReq_preserve_dollar_ci (pat repl : List Char)
    (hpat0 : pat ≠ [])
    (hpatc : ∀ pc ∈ pat, asciiLower pc ≠ asciiLower '\\' ∧
      asciiLower pc ≠ asciiLower '$' ∧ asciiLower pc ≠ asciiLower '\x7b')
    (hreplc : ∀ c ∈ repl, c ≠ '$' ∧ c ≠ '\x7b')
    (hlast : ∃ ys y, repl = ys ++ [y] ∧ y ≠ '\\') :
    ∀ fuel s par want, scanReq ['$', '\x7b'] want par s = true →
      scanReq ['$', '\x7b'] want par (replaceAllCIF fuel pat repl s) = true := by
  have hrepl0 : repl ≠ [] := by
    obtain ⟨ys, y, hre, _⟩ := hlast
    rw [hre]
    simp
  intro fuel
  induction fuel with
  | zero => intro s par want h; exact h
  | succ n ih =>
    intro s par want h
    cases s with
    | nil => rfl
    | cons c rest =>
      cases hm : stripPfxCI pat (c :: rest) with
      | some after =>
        obtain ⟨pre, hdec, hfa⟩ := stripPfxCI_some_parts _ _ _ hm
        have hpre0 : pre ≠ [] := by
          intro hnil
          have := hfa.length_eq
          rw [hnil] at this
          exact hpat0 (List.length_eq_zero.mp this)
        have hprec : ∀ x ∈ pre, x ≠ '\\' ∧ x ≠ '$' := by
          intro x hx
          obtain ⟨pc, hpc, hr⟩ := forall2_right hfa x hx
          exact ⟨ci_char_ne x pc '\\' hr (hpatc pc hpc).1,
            ci_char_ne x pc '$' hr (hpatc pc hpc).2.1⟩
        rw [hdec] at h
        have hpeel := scanReq_peel '$' ['\x7b'] want pre
          (fun x hx => (hprec x hx).2) after par h
        rw [parityAfter_all_nonbs pre hpre0 (fun x hx => (hprec x hx).1) par] at hpeel
        have hrec := ih after false want hpeel
        rw [show replaceAllCIF (n + 1) pat repl (c :: rest) =
            (match stripPfxCI pat (c :: rest) with
             | some a => repl ++ replaceAllCIF n pat repl a
             | none => c :: replaceAllCIF n pat repl rest) from rfl, hm]
        refine scanReq_emit '$' ['\x7b'] want repl (fun x hx => (hreplc x hx).1)
          _ par ?_
        obtain ⟨ys, y, hre, hy⟩ := hlast
        rw [hre, parityAfter_concat par ys y hy]
        rw [← hre]
        exact hrec
      | none =>
        rw [show scanReq ['$', '\x7b'] want par (c :: rest) =
            ((!(startsWithChars ['$', '\x7b'] (c :: rest)) || (par == want)) &&
              scanReq ['$', '\x7b'] want (parityStep par c) rest) from rfl] at h
        obtain ⟨hchk, hrec⟩ := band_parts h
        rw [show replaceAllCIF (n + 1) pat repl (c :: rest) =
            (match stripPfxCI pat (c :: rest) with
             | some a => repl ++ replaceAllCIF n pat repl a
             | none => c :: replaceAllCIF n pat repl rest) from rfl, hm]
        rw [show scanReq ['$', '\x7b'] want par (c :: replaceAllCIF n pat repl rest) =
            ((!(startsWithChars ['$', '\x7b'] (c :: replaceAllCIF n pat repl rest)) ||
                (par == want)) &&
              scanReq ['$', '\x7b'] want (parityStep par c)
                (replaceAllCIF n pat repl rest)) from rfl]
        have hswEq : startsWithChars ['$', '\x7b']
            (c :: replaceAllCIF n pat repl rest) =
            startsWithChars ['$', '\x7b'] (c :: rest) := by
          by_cases hc : c = '$'
          · subst hc
            show (stripPfxChars ['$', '\x7b'] ('$' :: replaceAllCIF n pat repl
              rest)).isSome = (stripPfxChars ['$', '\x7b'] ('$' :: rest)).isSome
            rw [show stripPfxChars ['$', '\x7b'] ('$' :: replaceAllCIF n pat repl
              rest) = stripPfxChars ['\x7b'] (replaceAllCIF n pat repl rest) from by
                simp [stripPfxChars]]
            rw [show stripPfxChars ['$', '\x7b'] ('$' :: rest) =
              stripPfxChars ['\x7b'] rest from by simp [stripPfxChars]]
            exact head_lbrace_pres_ci pat repl hpat0
              (fun x hx => (hpatc x hx).2.2) (fun x hx => (hreplc x hx).2)
              hrepl0 n rest
          · rw [startsWithChars_head_ne '$' ['\x7b'] c (replaceAllCIF n pat repl rest)
              hc, startsWithChars_head_ne '$' ['\x7b'] c rest hc]
        rw [hswEq, hchk, ih rest (parityStep par c) want hrec]
        rfl

-- ── C10 machinery: no case-variant of the script terminator ────────

theorem stripPfxCI_head_not_lt (d : Char) (hd : lowerEq d '<' = false)
    (x : List Char) : stripPfxCI "</script>".data (d :: x) = none := by
  show (if lowerEq d '<' = true then stripPfxCI "/script>".data x else none) = none
  rw [hd]
  simp

theorem stripPfxCI_lt_bs (x : List Char) :
    stripPfxCI "</script>".data ('<' :: '\\' :: x) = none := by
  show (if lowerEq '<' '<' = true then stripPfxCI "/script>".data ('\\' :: x)
    else none) = none
  rw [if_pos (by decide)]
  show (if lowerEq '\\' '/' = true then stripPfxCI "script>".data x else none) = none
  rw [if_neg (by decide)]

theorem script_strip_none :
    ∀ fuel ps, ps ≠ [] → ps <:+ "/script>".data →
      ∀ rest, stripPfxCI ps rest = none →
        stripPfxCI ps
          (replaceAllCIF fuel "</script>".data "<\\/script>".data rest) = none := by
  intro fuel
  induction fuel with
  | zero => intro ps _ _ rest h; exact h
  | succ n ih =>
    intro ps hne hsuf rest h
    cases rest with
    | nil =>
      cases ps with
      | nil => exact absurd rfl hne
      | cons p ps' => rfl
    | cons r rest2 =>
      rw [show replaceAllCIF (n + 1) "</script>".data "<\\/script>".data (r :: rest2) =
          (match stripPfxCI "</script>".data (r :: rest2) with
           | some a =>
             "<\\/script>".data ++ replaceAllCIF n "</script>".data "<\\/script>".data a
           | none => r :: replaceAllCIF n "</script>".data "<\\/script>".data rest2)
        from rfl]
      cases hm : stripPfxCI "</script>".data (r :: rest2) with
      | some a =>
        cases ps with
        | nil => exact absurd rfl hne
        | cons p ps' =>
          have hp : p ∈ "/script>".data := hsuf.subset (by simp)
          have hlp : lowerEq '<' p = false := by
            have hall : ∀ x ∈ "/script>".data, lowerEq '<' x = false := by decide
            exact hall p hp
          show (if lowerEq '<' p = true then stripPfxCI ps' ("\\/script>".data ++
            replaceAllCIF n "</script>".data "<\\/script>".data a) else none) = none
          rw [hlp]
          simp
      | none =>
        cases ps with
        | nil => exact absurd rfl hne
        | cons p ps' =>
          by_cases hl : lowerEq r p = true
          · have h' : stripPfxCI ps' rest2 = none := by
              rw [show stripPfxCI (p :: ps') (r :: rest2) =
                (if lowerEq r p = true then stripPfxCI ps' rest2 else none)
                from rfl, if_pos hl] at h
              exact h
            cases ps' with
            | nil => simp [stripPfxCI] at h'
            | cons q qs =>
              have hsuf' : (q :: qs) <:+ "/script>".data :=
                (List.suffix_cons p (q :: qs)).trans hsuf
              have hrec := ih (q :: qs) (by simp) hsuf' rest2 h'
              rw [show stripPfxCI (p :: q :: qs) (r :: replaceAllCIF n
                "</script>".data "<\\/script>".data rest2) =
                (if lowerEq r p = true then stripPfxCI (q :: qs)
                  (replaceAllCIF n "</script>".data "<\\/script>".data rest2)
                 else none) from rfl, if_pos hl]
              exact hrec
          · rw [show stripPfxCI (p :: ps') (r :: replaceAllCIF n "</script>".data
              "<\\/script>".data rest2) =
              (if lowerEq r p = true then stripPfxCI ps' (replaceAllCIF n
                "</script>".data "<\\/script>".data rest2) else none) from rfl,
              if_neg hl]

theorem scriptRepl_no_occ (t : List Char)
    (h : occursCI "</script>".data t = false) :
    occursCI "</script>".data ("<\\/script>".data ++ t) = false := by
  have hh : ∀ (d : Char), lowerEq d '<' = false →
      ∀ x, (stripPfxCI "</script>".data (d :: x)).isSome = false := by
    intro d hd x
    rw [stripPfxCI_head_not_lt d hd x]
    rfl
  show occursCI "</script>".data
    ('<' :: '\\' :: '/' :: 's' :: 'c' :: 'r' :: 'i' :: 'p' :: 't' :: '>' :: t) = false
  simp only [occursCI]
  rw [show (stripPfxCI "</script>".data ('<' :: '\\' :: '/' :: 's' :: 'c' :: 'r' ::
    'i' :: 'p' :: 't' :: '>' :: t)).isSome = false from by
      rw [stripPfxCI_lt_bs]; rfl]
  rw [hh '\\' (by decide), hh '/' (by decide), hh 's' (by decide), hh 'c' (by decide),
    hh 'r' (by decide), hh 'i' (by decide), hh 'p' (by decide), hh 't' (by decide),
    hh '>' (by decide), h]
  rfl

theorem script_replace_no_occursCI :
    ∀ fuel s, s.length ≤ fuel →
      occursCI "</script>".data
        (replaceAllCIF fuel "</script>".data "<\\/script>".data s) = false := by
  intro fuel
  induction fuel with
  | zero =>
    intro s hs
    have : s = [] := List.length_eq_zero.mp (Nat.le_zero.mp hs)
    subst this
    rfl
  | succ n ih =>
    intro s hs
    cases s with
    | nil => rfl
    | cons c rest =>
      rw [show replaceAllCIF (n + 1) "</script>".data "<\\/script>".data (c :: rest) =
          (match stripPfxCI "</script>".data (c :: rest) with
           | some a =>
             "<\\/script>".data ++ replaceAllCIF n "</script>".data "<\\/script>".data a
           | none => c :: replaceAllCIF n "</script>".data "<\\/script>".data rest)
        from rfl]
      cases hm : stripPfxCI "</script>".data (c :: rest) with
      | some a =>
        obtain ⟨pre, hdec, hfa⟩ := stripPfxCI_some_parts _ _ _ hm
        have hlen : a.length ≤ n := by
          have h1 : pre.length = ("</script>".data).length := hfa.length_eq.symm
          have h2 : (c :: rest).length = pre.length + a.length := by
            rw [hdec, List.length_append]
          simp only [List.length_cons] at h2 hs
          rw [show ("</script>".data).length = 9 from rfl] at h1
          omega
        exact scriptRepl_no_occ _ (ih a hlen)
      | none =>
        have hrest : rest.length ≤ n := by
          simp only [List.length_cons] at hs
          omega
        have htail := ih rest hrest
        show ((stripPfxCI "</script>".data
            (c :: replaceAllCIF n "</script>".data "<\\/script>".data rest)).isSome ||
          occursCI "</script>".data
            (replaceAllCIF n "</script>".data "<\\/script>".data rest)) = false
        rw [htail]
        by_cases hl : lowerEq c '<' = true
        · have h' : stripPfxCI "/script>".data rest = none := by
            rw [show stripPfxCI "</script>".data (c :: rest) =
              (if lowerEq c '<' = true then stripPfxCI "/script>".data rest else none)
              from rfl, if_pos hl] at hm
            exact hm
          have hstrip := script_strip_none n "/script>".data (by decide)
            (List.suffix_refl _) rest h'
          rw [show stripPfxCI "</script>".data
            (c :: replaceAllCIF n "</script>".data "<\\/script>".data rest) =
            (if lowerEq c '<' = true then stripPfxCI "/script>".data
              (replaceAllCIF n "</script>".data "<\\/script>".data rest) else none)
            from rfl, if_pos hl, hstrip]
          rfl
        · rw [show stripPfxCI "</script>".data
            (c :: replaceAllCIF n "</script>".data "<\\/script>".data rest) =
            (if lowerEq c '<' = true then stripPfxCI "/script>".data
              (replaceAllCIF n "</script>".data "<\\/script>".data rest) else none)
            from rfl, if_neg hl]
          rfl

theorem stripPfxCI_of_map_eq :
    ∀ (pat mid : List Char), mid.map asciiLower = pat.map asciiLower →
      ∀ post, stripPfxCI pat (mid ++ post) = some post := by
  intro pat
  induction pat with
  | nil =>
    intro mid h post
    have : mid = [] := by simpa using h
    subst this
    rfl
  | cons p pt ih =>
    intro mid h post
    cases mid with
    | nil => simp at h
    | cons m0 mt =>
      simp only [List.map_cons, List.cons_eq_cons] at h
      obtain ⟨h1, h2⟩ := h
      rw [show (m0 :: mt) ++ post = m0 :: (mt ++ post) from rfl]
      rw [show stripPfxCI (p :: pt) (m0 :: (mt ++ post)) =
        (if lowerEq m0 p = true then stripPfxCI pt (mt ++ post) else none) from rfl]
      rw [if_pos (by simp [lowerEq, h1])]
      exact ih mt h2 post

theorem occursCI_of_strip :
    ∀ (pre t pat : List Char), (stripPfxCI pat t).isSome = true →
      occursCI pat (pre ++ t) = true := by
  intro pre
  induction pre with
  | nil =>
    intro t pat h
    cases t with
    | nil => exact h
    | cons c rest =>
      show ((stripPfxCI pat (c :: rest)).isSome || occursCI pat rest) = true
      rw [h]
      rfl
  | cons c pre' ih =>
    intro t pat h
    show ((stripPfxCI pat (c :: (pre' ++ t))).isSome || occursCI pat (pre' ++ t)) = true
    rw [ih t pat h]
    simp

theorem not_containsCI_of_not_occursCI (pat s : List Char)
    (h : occursCI pat s = false) : ¬ containsCI pat s := by
  rintro ⟨pre, mid, post, hdecomp, hmap⟩
  have h1 := stripPfxCI_of_map_eq pat mid hmap post
  have h2 : occursCI pat s = true := by
    rw [hdecomp, List.append_assoc]
    exact occursCI_of_strip pre (mid ++ post) pat (by rw [h1]; rfl)
  rw [h] at h2
  exact Bool.false_ne_true h2

theorem data_mk (l : List Char) : (String.mk l).data = l := rfl

/-- C10: `sanitizeForJs` output safety — for every input string the
output contains no literal newline, carriage return, NUL, U+2028 or
U+2029; contains no ASCII case-variant of the substring `</script>`;
and every double quote, single quote, backtick and `$\x7b` occurrence
in the output is immediately preceded by an odd number of
backslashes, so embedding the output in a quoted JavaScript string
literal cannot terminate the literal or the enclosing script
element. -/
theorem sanitize_output_safety :
    ∀ input : String,
      '\n' ∉ (sanitizeForJs input).data ∧
      '\r' ∉ (sanitizeForJs input).data ∧
      '\x00' ∉ (sanitizeForJs input).data ∧
      '\u2028' ∉ (sanitizeForJs input).data ∧
      '\u2029' ∉ (sanitizeForJs input).data ∧
      ¬ containsCI "</script>".data (sanitizeForJs input).data ∧
      oddEscapedBefore ['"'] (sanitizeForJs input).data ∧
      oddEscapedBefore ['\x27'] (sanitizeForJs input).data ∧
      oddEscapedBefore ['\x60'] (sanitizeForJs input).data ∧
      oddEscapedBefore ['$', '\x7b'] (sanitizeForJs input).data := by
  intro input
  rw [show sanitizeForJs input = String.mk (
    replaceAllCI "</script>".data "<\\/script>".data (replaceAll ['\u2029'] "\\u2029".data (replaceAll ['\u2028'] "\\u2028".data (replaceAll ['\x00'] "\\0".data (replaceAll ['\r'] "\\r".data (replaceAll ['\n'] "\\n".data (replaceAll ['$', '\x7b'] "\\$\x7b".data (replaceAll ['\x60'] "\\\x60".data (replaceAll ['\"'] "\\\"".data (replaceAll ['\x27'] "\\\x27".data (replaceAll ['\\'] "\\\\".data (input.data)))))))))))) from rfl, data_mk]
  have dq1 : scanReq ['"'] false false (replaceAll ['\\'] "\\\\".data (input.data)) = true :=
    scanReq_after_doubling '"' [] (by decide) (input.data).length input.data (Nat.le_refl _)
  have dq2 : scanReq ['"'] false false (replaceAll ['\x27'] "\\\x27".data (replaceAll ['\\'] "\\\\".data (input.data))) = true :=
    scanReq_preserve_single '"' false ['\x27'] ("\\\x27".data)
      (by decide) (by decide) (by decide) ⟨['\\'], '\x27', rfl, by decide⟩
      (replaceAll ['\\'] "\\\\".data (input.data)).length (replaceAll ['\\'] "\\\\".data (input.data)) false dq1
  have dq3 : scanReq ['"'] true false (replaceAll ['\"'] "\\\"".data (replaceAll ['\x27'] "\\\x27".data (replaceAll ['\\'] "\\\\".data (input.data)))) = true :=
    scanReq_escape_single '"' (by decide) (replaceAll ['\x27'] "\\\x27".data (replaceAll ['\\'] "\\\\".data (input.data))).length
      (replaceAll ['\x27'] "\\\x27".data (replaceAll ['\\'] "\\\\".data (input.data))) false (Nat.le_refl _) dq2
  have dq4 : scanReq ['"'] true false (replaceAll ['\x60'] "\\\x60".data (replaceAll ['\"'] "\\\"".data (replaceAll ['\x27'] "\\\x27".data (replaceAll ['\\'] "\\\\".data (input.data))))) = true :=
    scanReq_preserve_single '"' true ['\x60'] ("\\\x60".data)
      (by decide) (by decide) (by decide) ⟨['\\'], '\x60', rfl, by decide⟩
      (replaceAll ['\"'] "\\\"".data (replaceAll ['\x27'] "\\\x27".data (replaceAll ['\\'] "\\\\".data (input.data)))).length (replaceAll ['\"'] "\\\"".data (replaceAll ['\x27'] "\\\x27".data (replaceAll ['\\'] "\\\\".data (input.data)))) false dq3
  have dq5 : scanReq ['"'] true false (replaceAll ['$', '\x7b'] "\\$\x7b".data (replaceAll ['\x60'] "\\\x60".data (replaceAll ['\"'] "\\\"".data (replaceAll ['\x27'] "\\\x27".data (replaceAll ['\\'] "\\\\".data (input.data)))))) = true :=
    scanReq_preserve_single '"' true ['$', '\x7b'] ("\\$\x7b".data)
      (by decide) (by decide) (by decide) ⟨['\\', '$'], '\x7b', rfl, by decide⟩
      (replaceAll ['\x60'] "\\\x60".data (replaceAll ['\"'] "\\\"".data (replaceAll ['\x27'] "\\\x27".data (replaceAll ['\\'] "\\\\".data (input.data))))).length (replaceAll ['\x60'] "\\\x60".data (replaceAll ['\"'] "\\\"".data (replaceAll ['\x27'] "\\\x27".data (replaceAll ['\\'] "\\\\".data (input.data))))) false dq4
  have dq6 : scanReq ['"'] true false (replaceAll ['\n'] "\\n".data (replaceAll ['$', '\x7b'] "\\$\x7b".data (replaceAll ['\x60'] "\\\x60".data (replaceAll ['\"'] "\\\"".data (replaceAll ['\x27'] "\\\x27".data (replaceAll ['\\'] "\\\\".data (input.data))))))) = true :=
    scanReq_preserve_single '"' true ['\n'] ("\\n".data)
      (by decide) (by decide) (by decide) ⟨['\\'], 'n', rfl, by decide⟩
      (replaceAll ['$', '\x7b'] "\\$\x7b".data (replaceAll ['\x60'] "\\\x60".data (replaceAll ['\"'] "\\\"".data (replaceAll ['\x27'] "\\\x27".data (replaceAll ['\\'] "\\\\".data (input.data)))))).length (replaceAll ['$', '\x7b'] "\\$\x7b".data (replaceAll ['\x60'] "\\\x60".data (replaceAll ['\"'] "\\\"".data (replaceAll ['\x27'] "\\\x27".data (replaceAll ['\\'] "\\\\".data (input.data)))))) false dq5
  have dq7 : scanReq ['"'] true false (replaceAll ['\r'] "\\r".data (replaceAll ['\n'] "\\n".data (replaceAll ['$', '\x7b'] "\\$\x7b".data (replaceAll ['\x60'] "\\\x60".data (replaceAll ['\"'] "\\\"".data (replaceAll ['\x27'] "\\\x27".data (replaceAll ['\\'] "\\\\".data (input.data)))))))) = true :=
    scanReq_preserve_single '"' true ['\r'] ("\\r".data)
      (by decide) (by decide) (by decide) ⟨['\\'], 'r', rfl, by decide⟩
      (replaceAll ['\n'] "\\n".data (replaceAll ['$', '\x7b'] "\\$\x7b".data (replaceAll ['\x60'] "\\\x60".data (replaceAll ['\"'] "\\\"".data (replaceAll ['\x27'] "\\\x27".data (replaceAll ['\\'] "\\\\".data (input.data))))))).length (replaceAll ['\n'] "\\n".data (replaceAll ['$', '\x7b'] "\\$\x7b".data (replaceAll ['\x60'] "\\\x60".data (replaceAll ['\"'] "\\\"".data (replaceAll ['\x27'] "\\\x27".data (replaceAll ['\\'] "\\\\".data (input.data))))))) false dq6
  have dq8 : scanReq ['"'] true false (replaceAll ['\x00'] "\\0".data (replaceAll ['\r'] "\\r".data (replaceAll ['\n'] "\\n".data (replaceAll ['$', '\x7b'] "\\$\x7b".data (replaceAll ['\x60'] "\\\x60".data (replaceAll ['\"'] "\\\"".data (replaceAll ['\x27'] "\\\x27".data (replaceAll ['\\'] "\\\\".data (input.data))))))))) = true :=
    scanReq_preserve_single '"' true ['\x00'] ("\\0".data)
      (by decide) (by decide) (by decide) ⟨['\\'], '0', rfl, by decide⟩
      (replaceAll ['\r'] "\\r".data (replaceAll ['\n'] "\\n".data (replaceAll ['$', '\x7b'] "\\$\x7b".data (replaceAll ['\x60'] "\\\x60".data (replaceAll ['\"'] "\\\"".data (replaceAll ['\x27'] "\\\x27".data (replaceAll ['\\'] "\\\\".data (input.data)))))))).length (replaceAll ['\r'] "\\r".data (replaceAll ['\n'] "\\n".data (replaceAll ['$', '\x7b'] "\\$\x7b".data (replaceAll ['\x60'] "\\\x60".data (replaceAll ['\"'] "\\\"".data (replaceAll ['\x27'] "\\\x27".data (replaceAll ['\\'] "\\\\".data (input.data)))))))) false dq7
  have dq9 : scanReq ['"'] true false (replaceAll ['\u2028'] "\\u2028".data (replaceAll ['\x00'] "\\0".data (replaceAll ['\r'] "\\r".data (replaceAll ['\n'] "\\n".data (replaceAll ['$', '\x7b'] "\\$\x7b".data (replaceAll ['\x60'] "\\\x60".data (replaceAll ['\"'] "\\\"".data (replaceAll ['\x27'] "\\\x27".data (replaceAll ['\\'] "\\\\".data (input.data)))))))))) = true :=
    scanReq_preserve_single '"' true ['\u2028'] ("\\u2028".data)
      (by decide) (by decide) (by decide) ⟨"\\u202".data, '8', rfl, by decide⟩
      (replaceAll ['\x00'] "\\0".data (replaceAll ['\r'] "\\r".data (replaceAll ['\n'] "\\n".data (replaceAll ['$', '\x7b'] "\\$\x7b".data (replaceAll ['\x60'] "\\\x60".data (replaceAll ['\"'] "\\\"".data (replaceAll ['\x27'] "\\\x27".data (replaceAll ['\\'] "\\\\".data (input.data))))))))).length (replaceAll ['\x00'] "\\0".data (replaceAll ['\r'] "\\r".data (replaceAll ['\n'] "\\n".data (replaceAll ['$', '\x7b'] "\\$\x7b".data (replaceAll ['\x60'] "\\\x60".data (replaceAll ['\"'] "\\\"".data (replaceAll ['\x27'] "\\\x27".data (replaceAll ['\\'] "\\\\".data (input.data))))))))) false dq8
  have dq10 : scanReq ['"'] true false (replaceAll ['\u2029'] "\\u2029".data (replaceAll ['\u2028'] "\\u2028".data (replaceAll ['\x00'] "\\0".data (replaceAll ['\r'] "\\r".data (replaceAll ['\n'] "\\n".data (replaceAll ['$', '\x7b'] "\\$\x7b".data (replaceAll ['\x60'] "\\\x60".data (replaceAll ['\"'] "\\\"".data (replaceAll ['\x27'] "\\\x27".data (replaceAll ['\\'] "\\\\".data (input.data))))))))))) = true :=
    scanReq_preserve_single '"' true ['\u2029'] ("\\u2029".data)
      (by decide) (by decide) (by decide) ⟨"\\u202".data, '9', rfl, by decide⟩
      (replaceAll ['\u2028'] "\\u2028".data (replaceAll ['\x00'] "\\0".data (replaceAll ['\r'] "\\r".data (replaceAll ['\n'] "\\n".data (replaceAll ['$', '\x7b'] "\\$\x7b".data (replaceAll ['\x60'] "\\\x60".data (replaceAll ['\"'] "\\\"".data (replaceAll ['\x27'] "\\\x27".data (replaceAll ['\\'] "\\\\".data (input.data)))))))))).length (replaceAll ['\u2028'] "\\u2028".data (replaceAll ['\x00'] "\\0".data (replaceAll ['\r'] "\\r".data (replaceAll ['\n'] "\\n".data (replaceAll ['$', '\x7b'] "\\$\x7b".data (replaceAll ['\x60'] "\\\x60".data (replaceAll ['\"'] "\\\"".data (replaceAll ['\x27'] "\\\x27".data (replaceAll ['\\'] "\\\\".data (input.data)))))))))) false dq9
  have dqX : scanReq ['"'] true false (replaceAllCI "</script>".data "<\\/script>".data (replaceAll ['\u2029'] "\\u2029".data (replaceAll ['\u2028'] "\\u2028".data (replaceAll ['\x00'] "\\0".data (replaceAll ['\r'] "\\r".data (replaceAll ['\n'] "\\n".data (replaceAll ['$', '\x7b'] "\\$\x7b".data (replaceAll ['\x60'] "\\\x60".data (replaceAll ['\"'] "\\\"".data (replaceAll ['\x27'] "\\\x27".data (replaceAll ['\\'] "\\\\".data (input.data)))))))))))) = true :=
    scanReq_preserve_single_ci '"' true "</script>".data ("<\\/script>".data)
      (by decide) (by decide) (by decide) ⟨"<\\/script".data, '>', rfl, by decide⟩
      (replaceAll ['\u2029'] "\\u2029".data (replaceAll ['\u2028'] "\\u2028".data (replaceAll ['\x00'] "\\0".data (replaceAll ['\r'] "\\r".data (replaceAll ['\n'] "\\n".data (replaceAll ['$', '\x7b'] "\\$\x7b".data (replaceAll ['\x60'] "\\\x60".data (replaceAll ['\"'] "\\\"".data (replaceAll ['\x27'] "\\\x27".data (replaceAll ['\\'] "\\\\".data (input.data))))))))))).length (replaceAll ['\u2029'] "\\u2029".data (replaceAll ['\u2028'] "\\u2028".data (replaceAll ['\x00'] "\\0".data (replaceAll ['\r'] "\\r".data (replaceAll ['\n'] "\\n".data (replaceAll ['$', '\x7b'] "\\$\x7b".data (replaceAll ['\x60'] "\\\x60".data (replaceAll ['\"'] "\\\"".data (replaceAll ['\x27'] "\\\x27".data (replaceAll ['\\'] "\\\\".data (input.data))))))))))) false dq10
  have dqF : oddEscapedBefore ['"'] (replaceAllCI "</script>".data "<\\/script>".data (replaceAll ['\u2029'] "\\u2029".data (replaceAll ['\u2028'] "\\u2028".data (replaceAll ['\x00'] "\\0".data (replaceAll ['\r'] "\\r".data (replaceAll ['\n'] "\\n".data (replaceAll ['$', '\x7b'] "\\$\x7b".data (replaceAll ['\x60'] "\\\x60".data (replaceAll ['\"'] "\\\"".data (replaceAll ['\x27'] "\\\x27".data (replaceAll ['\\'] "\\\\".data (input.data)))))))))))) :=
    scanReq_oddEscapedBefore ['"'] (by simp) _ dqX
  have sq1 : scanReq ['\x27'] false false (replaceAll ['\\'] "\\\\".data (input.data)) = true :=
    scanReq_after_doubling '\x27' [] (by decide) (input.data).length input.data (Nat.le_refl _)
  have sq2 : scanReq ['\x27'] true false (replaceAll ['\x27'] "\\\x27".data (replaceAll ['\\'] "\\\\".data (input.data))) = true :=
    scanReq_escape_single '\x27' (by decide) (replaceAll ['\\'] "\\\\".data (input.data)).length
      (replaceAll ['\\'] "\\\\".data (input.data)) false (Nat.le_refl _) sq1
  have sq3 : scanReq ['\x27'] true false (replaceAll ['\"'] "\\\"".data (replaceAll ['\x27'] "\\\x27".data (replaceAll ['\\'] "\\\\".data (input.data)))) = true :=
    scanReq_preserve_single '\x27' true ['\"'] ("\\\"".data)
      (by decide) (by decide) (by decide) ⟨['\\'], '"', rfl, by decide⟩
      (replaceAll ['\x27'] "\\\x27".data (replaceAll ['\\'] "\\\\".data (input.data))).length (replaceAll ['\x27'] "\\\x27".data (replaceAll ['\\'] "\\\\".data (input.data))) false sq2
  have sq4 : scanReq ['\x27'] true false (replaceAll ['\x60'] "\\\x60".data (replaceAll ['\"'] "\\\"".data (replaceAll ['\x27'] "\\\x27".data (replaceAll ['\\'] "\\\\".data (input.data))))) = true :=
    scanReq_preserve_single '\x27' true ['\x60'] ("\\\x60".data)
      (by decide) (by decide) (by decide) ⟨['\\'], '\x60', rfl, by decide⟩
      (replaceAll ['\"'] "\\\"".data (replaceAll ['\x27'] "\\\x27".data (replaceAll ['\\'] "\\\\".data (input.data)))).length (replaceAll ['\"'] "\\\"".data (replaceAll ['\x27'] "\\\x27".data (replaceAll ['\\'] "\\\\".data (input.data)))) false sq3
  have sq5 : scanReq ['\x27'] true false (replaceAll ['$', '\x7b'] "\\$\x7b".data (replaceAll ['\x60'] "\\\x60".data (replaceAll ['\"'] "\\\"".data (replaceAll ['\x27'] "\\\x27".data (replaceAll ['\\'] "\\\\".data (input.data)))))) = true :=
    scanReq_preserve_single '\x27' true ['$', '\x7b'] ("\\$\x7b".data)
      (by decide) (by decide) (by decide) ⟨['\\', '$'], '\x7b', rfl, by decide⟩
      (replaceAll ['\x60'] "\\\x60".data (replaceAll ['\"'] "\\\"".data (replaceAll ['\x27'] "\\\x27".data (replaceAll ['\\'] "\\\\".data (input.data))))).length (replaceAll ['\x60'] "\\\x60".data (replaceAll ['\"'] "\\\"".data (replaceAll ['\x27'] "\\\x27".data (replaceAll ['\\'] "\\\\".data (input.data))))) false sq4
  have sq6 : scanReq ['\x27'] true false (replaceAll ['\n'] "\\n".data (replaceAll ['$', '\x7b'] "\\$\x7b".data (replaceAll ['\x60'] "\\\x60".data (replaceAll ['\"'] "\\\"".data (replaceAll ['\x27'] "\\\x27".data (replaceAll ['\\'] "\\\\".data (input.data))))))) = true :=
    scanReq_preserve_single '\x27' true ['\n'] ("\\n".data)
      (by decide) (by decide) (by decide) ⟨['\\'], 'n', rfl, by decide⟩
      (replaceAll ['$', '\x7b'] "\\$\x7b".data (replaceAll ['\x60'] "\\\x60".data (replaceAll ['\"'] "\\\"".data (replaceAll ['\x27'] "\\\x27".data (replaceAll ['\\'] "\\\\".data (input.data)))))).length (replaceAll ['$', '\x7b'] "\\$\x7b".data (replaceAll ['\x60'] "\\\x60".data (replaceAll ['\"'] "\\\"".data (replaceAll ['\x27'] "\\\x27".data (replaceAll ['\\'] "\\\\".data (input.data)))))) false sq5
  have sq7 : scanReq ['\x27'] true false (replaceAll ['\r'] "\\r".data (replaceAll ['\n'] "\\n".data (replaceAll ['$', '\x7b'] "\\$\x7b".data (replaceAll ['\x60'] "\\\x60".data (replaceAll ['\"'] "\\\"".data (replaceAll ['\x27'] "\\\x27".data (replaceAll ['\\'] "\\\\".data (input.data)))))))) = true :=
    scanReq_preserve_single '\x27' true ['\r'] ("\\r".data)
      (by decide) (by decide) (by decide) ⟨['\\'], 'r', rfl, by decide⟩
      (replaceAll ['\n'] "\\n".data (replaceAll ['$', '\x7b'] "\\$\x7b".data (replaceAll ['\x60'] "\\\x60".data (replaceAll ['\"'] "\\\"".data (replaceAll ['\x27'] "\\\x27".data (replaceAll ['\\'] "\\\\".data (input.data))))))).length (replaceAll ['\n'] "\\n".data (replaceAll ['$', '\x7b'] "\\$\x7b".data (replaceAll ['\x60'] "\\\x60".data (replaceAll ['\"'] "\\\"".data (replaceAll ['\x27'] "\\\x27".data (replaceAll ['\\'] "\\\\".data (input.data))))))) false sq6
  have sq8 : scanReq ['\x27'] true false (replaceAll ['\x00'] "\\0".data (replaceAll ['\r'] "\\r".data (replaceAll ['\n'] "\\n".data (replaceAll ['$', '\x7b'] "\\$\x7b".data (replaceAll ['\x60'] "\\\x60".data (replaceAll ['\"'] "\\\"".data (replaceAll ['\x27'] "\\\x27".data (replaceAll ['\\'] "\\\\".data (input.data))))))))) = true :=
    scanReq_preserve_single '\x27' true ['\x00'] ("\\0".data)
      (by decide) (by decide) (by decide) ⟨['\\'], '0', rfl, by decide⟩
      (replaceAll ['\r'] "\\r".data (replaceAll ['\n'] "\\n".data (replaceAll ['$', '\x7b'] "\\$\x7b".data (replaceAll ['\x60'] "\\\x60".data (replaceAll ['\"'] "\\\"".data (replaceAll ['\x27'] "\\\x27".data (replaceAll ['\\'] "\\\\".data (input.data)))))))).length (replaceAll ['\r'] "\\r".data (replaceAll ['\n'] "\\n".data (replaceAll ['$', '\x7b'] "\\$\x7b".data (replaceAll ['\x60'] "\\\x60".data (replaceAll ['\"'] "\\\"".data (replaceAll ['\x27'] "\\\x27".data (replaceAll ['\\'] "\\\\".data (input.data)))))))) false sq7
  have sq9 : scanReq ['\x27'] true false (replaceAll ['\u2028'] "\\u2028".data (replaceAll ['\x00'] "\\0".data (replaceAll ['\r'] "\\r".data (replaceAll ['\n'] "\\n".data (replaceAll ['$', '\x7b'] "\\$\x7b".data (replaceAll ['\x60'] "\\\x60".data (replaceAll ['\"'] "\\\"".data (replaceAll ['\x27'] "\\\x27".data (replaceAll ['\\'] "\\\\".data (input.data)))))))))) = true :=
    scanReq_preserve_single '\x27' true ['\u2028'] ("\\u2028".data)
      (by decide) (by decide) (by decide) ⟨"\\u202".data, '8', rfl, by decide⟩
      (replaceAll ['\x00'] "\\0".data (replaceAll ['\r'] "\\r".data (replaceAll ['\n'] "\\n".data (replaceAll ['$', '\x7b'] "\\$\x7b".data (replaceAll ['\x60'] "\\\x60".data (replaceAll ['\"'] "\\\"".data (replaceAll ['\x27'] "\\\x27".data (replaceAll ['\\'] "\\\\".data (input.data))))))))).length (replaceAll ['\x00'] "\\0".data (replaceAll ['\r'] "\\r".data (replaceAll ['\n'] "\\n".data (replaceAll ['$', '\x7b'] "\\$\x7b".data (replaceAll ['\x60'] "\\\x60".data (replaceAll ['\"'] "\\\"".data (replaceAll ['\x27'] "\\\x27".data (replaceAll ['\\'] "\\\\".data (input.data))))))))) false sq8
  have sq10 : scanReq ['\x27'] true false (replaceAll ['\u2029'] "\\u2029".data (replaceAll ['\u2028'] "\\u2028".data (replaceAll ['\x00'] "\\0".data (replaceAll ['\r'] "\\r".data (replaceAll ['\n'] "\\n".data (replaceAll ['$', '\x7b'] "\\$\x7b".data (replaceAll ['\x60'] "\\\x60".data (replaceAll ['\"'] "\\\"".data (replaceAll ['\x27'] "\\\x27".data (replaceAll ['\\'] "\\\\".data (input.data))))))))))) = true :=
    scanReq_preserve_single '\x27' true ['\u2029'] ("\\u2029".data)
      (by decide) (by decide) (by decide) ⟨"\\u202".data, '9', rfl, by decide⟩
      (replaceAll ['\u2028'] "\\u2028".data (replaceAll ['\x00'] "\\0".data (replaceAll ['\r'] "\\r".data (replaceAll ['\n'] "\\n".data (replaceAll ['$', '\x7b'] "\\$\x7b".data (replaceAll ['\x60'] "\\\x60".data (replaceAll ['\"'] "\\\"".data (replaceAll ['\x27'] "\\\x27".data (replaceAll ['\\'] "\\\\".data (input.data)))))))))).length (replaceAll ['\u2028'] "\\u2028".data (replaceAll ['\x00'] "\\0".data (replaceAll ['\r'] "\\r".data (replaceAll ['\n'] "\\n".data (replaceAll ['$', '\x7b'] "\\$\x7b".data (replaceAll ['\x60'] "\\\x60".data (replaceAll ['\"'] "\\\"".data (replaceAll ['\x27'] "\\\x27".data (replaceAll ['\\'] "\\\\".data (input.data)))))))))) false sq9
  have sqX : scanReq ['\x27'] true false (replaceAllCI "</script>".data "<\\/script>".data (replaceAll ['\u2029'] "\\u2029".data (replaceAll ['\u2028'] "\\u2028".data (replaceAll ['\x00'] "\\0".data (replaceAll ['\r'] "\\r".data (replaceAll ['\n'] "\\n".data (replaceAll ['$', '\x7b'] "\\$\x7b".data (replaceAll ['\x60'] "\\\x60".data (replaceAll ['\"'] "\\\"".data (replaceAll ['\x27'] "\\\x27".data (replaceAll ['\\'] "\\\\".data (input.data)))))))))))) = true :=
    scanReq_preserve_single_ci '\x27' true "</script>".data ("<\\/script>".data)
      (by decide) (by decide) (by decide) ⟨"<\\/script".data, '>', rfl, by decide⟩
      (replaceAll ['\u2029'] "\\u2029".data (replaceAll ['\u2028'] "\\u2028".data (replaceAll ['\x00'] "\\0".data (replaceAll ['\r'] "\\r".data (replaceAll ['\n'] "\\n".data (replaceAll ['$', '\x7b'] "\\$\x7b".data (replaceAll ['\x60'] "\\\x60".data (replaceAll ['\"'] "\\\"".data (replaceAll ['\x27'] "\\\x27".data (replaceAll ['\\'] "\\\\".data (input.data))))))))))).length (replaceAll ['\u2029'] "\\u2029".data (replaceAll ['\u2028'] "\\u2028".data (replaceAll ['\x00'] "\\0".data (replaceAll ['\r'] "\\r".data (replaceAll ['\n'] "\\n".data (replaceAll ['$', '\x7b'] "\\$\x7b".data (replaceAll ['\x60'] "\\\x60".data (replaceAll ['\"'] "\\\"".data (replaceAll ['\x27'] "\\\x27".data (replaceAll ['\\'] "\\\\".data (input.data))))))))))) false sq10
  have sqF : oddEscapedBefore ['\x27'] (replaceAllCI "</script>".data "<\\/script>".data (replaceAll ['\u2029'] "\\u2029".data (replaceAll ['\u2028'] "\\u2028".data (replaceAll ['\x00'] "\\0".data (replaceAll ['\r'] "\\r".data (replaceAll ['\n'] "\\n".data (replaceAll ['$', '\x7b'] "\\$\x7b".data (replaceAll ['\x60'] "\\\x60".data (replaceAll ['\"'] "\\\"".data (replaceAll ['\x27'] "\\\x27".data (replaceAll ['\\'] "\\\\".data (input.data)))))))))))) :=
    scanReq_oddEscapedBefore ['\x27'] (by simp) _ sqX
  have bt1 : scanReq ['\x60'] false false (replaceAll ['\\'] "\\\\".data (input.data)) = true :=
    scanReq_after_doubling '\x60' [] (by decide) (input.data).length input.data (Nat.le_refl _)
  have bt2 : scanReq ['\x60'] false false (replaceAll ['\x27'] "\\\x27".data (replaceAll ['\\'] "\\\\".data (input.data))) = true :=
    scanReq_preserve_single '\x60' false ['\x27'] ("\\\x27".data)
      (by decide) (by decide) (by decide) ⟨['\\'], '\x27', rfl, by decide⟩
      (replaceAll ['\\'] "\\\\".data (input.data)).length (replaceAll ['\\'] "\\\\".data (input.data)) false bt1
  have bt3 : scanReq ['\x60'] false false (replaceAll ['\"'] "\\\"".data (replaceAll ['\x27'] "\\\x27".data (replaceAll ['\\'] "\\\\".data (input.data)))) = true :=
    scanReq_preserve_single '\x60' false ['\"'] ("\\\"".data)
      (by decide) (by decide) (by decide) ⟨['\\'], '"', rfl, by decide⟩
      (replaceAll ['\x27'] "\\\x27".data (replaceAll ['\\'] "\\\\".data (input.data))).length (replaceAll ['\x27'] "\\\x27".data (replaceAll ['\\'] "\\\\".data (input.data))) false bt2
  have bt4 : scanReq ['\x60'] true false (replaceAll ['\x60'] "\\\x60".data (replaceAll ['\"'] "\\\"".data (replaceAll ['\x27'] "\\\x27".data (replaceAll ['\\'] "\\\\".data (input.data))))) = true :=
    scanReq_escape_single '\x60' (by decide) (replaceAll ['\"'] "\\\"".data (replaceAll ['\x27'] "\\\x27".data (replaceAll ['\\'] "\\\\".data (input.data)))).length
      (replaceAll ['\"'] "\\\"".data (replaceAll ['\x27'] "\\\x27".data (replaceAll ['\\'] "\\\\".data (input.data)))) false (Nat.le_refl _) bt3
  have bt5 : scanReq ['\x60'] true false (replaceAll ['$', '\x7b'] "\\$\x7b".data (replaceAll ['\x60'] "\\\x60".data (replaceAll ['\"'] "\\\"".data (replaceAll ['\x27'] "\\\x27".data (replaceAll ['\\'] "\\\\".data (input.data)))))) = true :=
    scanReq_preserve_single '\x60' true ['$', '\x7b'] ("\\$\x7b".data)
      (by decide) (by decide) (by decide) ⟨['\\', '$'], '\x7b', rfl, by decide⟩
      (replaceAll ['\x60'] "\\\x60".data (replaceAll ['\"'] "\\\"".data (replaceAll ['\x27'] "\\\x27".data (replaceAll ['\\'] "\\\\".data (input.data))))).length (replaceAll ['\x60'] "\\\x60".data (replaceAll ['\"'] "\\\"".data (replaceAll ['\x27'] "\\\x27".data (replaceAll ['\\'] "\\\\".data (input.data))))) false bt4
  have bt6 : scanReq ['\x60'] true false (replaceAll ['\n'] "\\n".data (replaceAll ['$', '\x7b'] "\\$\x7b".data (replaceAll ['\x60'] "\\\x60".data (replaceAll ['\"'] "\\\"".data (replaceAll ['\x27'] "\\\x27".data (replaceAll ['\\'] "\\\\".data (input.data))))))) = true :=
    scanReq_preserve_single '\x60' true ['\n'] ("\\n".data)
      (by decide) (by decide) (by decide) ⟨['\\'], 'n', rfl, by decide⟩
      (replaceAll ['$', '\x7b'] "\\$\x7b".data (replaceAll ['\x60'] "\\\x60".data (replaceAll ['\"'] "\\\"".data (replaceAll ['\x27'] "\\\x27".data (replaceAll ['\\'] "\\\\".data (input.data)))))).length (replaceAll ['$', '\x7b'] "\\$\x7b".data (replaceAll ['\x60'] "\\\x60".data (replaceAll ['\"'] "\\\"".data (replaceAll ['\x27'] "\\\x27".data (replaceAll ['\\'] "\\\\".data (input.data)))))) false bt5
  have bt7 : scanReq ['\x60'] true false (replaceAll ['\r'] "\\r".data (replaceAll ['\n'] "\\n".data (replaceAll ['$', '\x7b'] "\\$\x7b".data (replaceAll ['\x60'] "\\\x60".data (replaceAll ['\"'] "\\\"".data (replaceAll ['\x27'] "\\\x27".data (replaceAll ['\\'] "\\\\".data (input.data)))))))) = true :=
    scanReq_preserve_single '\x60' true ['\r'] ("\\r".data)
      (by decide) (by decide) (by decide) ⟨['\\'], 'r', rfl, by decide⟩
      (replaceAll ['\n'] "\\n".data (replaceAll ['$', '\x7b'] "\\$\x7b".data (replaceAll ['\x60'] "\\\x60".data (replaceAll ['\"'] "\\\"".data (replaceAll ['\x27'] "\\\x27".data (replaceAll ['\\'] "\\\\".data (input.data))))))).length (replaceAll ['\n'] "\\n".data (replaceAll ['$', '\x7b'] "\\$\x7b".data (replaceAll ['\x60'] "\\\x60".data (replaceAll ['\"'] "\\\"".data (replaceAll ['\x27'] "\\\x27".data (replaceAll ['\\'] "\\\\".data (input.data))))))) false bt6
  have bt8 : scanReq ['\x60'] true false (replaceAll ['\x00'] "\\0".data (replaceAll ['\r'] "\\r".data (replaceAll ['\n'] "\\n".data (replaceAll ['$', '\x7b'] "\\$\x7b".data (replaceAll ['\x60'] "\\\x60".data (replaceAll ['\"'] "\\\"".data (replaceAll ['\x27'] "\\\x27".data (replaceAll ['\\'] "\\\\".data (input.data))))))))) = true :=
    scanReq_preserve_single '\x60' true ['\x00'] ("\\0".data)
      (by decide) (by decide) (by decide) ⟨['\\'], '0', rfl, by decide⟩
      (replaceAll ['\r'] "\\r".data (replaceAll ['\n'] "\\n".data (replaceAll ['$', '\x7b'] "\\$\x7b".data (replaceAll ['\x60'] "\\\x60".data (replaceAll ['\"'] "\\\"".data (replaceAll ['\x27'] "\\\x27".data (replaceAll ['\\'] "\\\\".data (input.data)))))))).length (replaceAll ['\r'] "\\r".data (replaceAll ['\n'] "\\n".data (replaceAll ['$', '\x7b'] "\\$\x7b".data (replaceAll ['\x60'] "\\\x60".data (replaceAll ['\"'] "\\\"".data (replaceAll ['\x27'] "\\\x27".data (replaceAll ['\\'] "\\\\".data (input.data)))))))) false bt7
  have bt9 : scanReq ['\x60'] true false (replaceAll ['\u2028'] "\\u2028".data (replaceAll ['\x00'] "\\0".data (replaceAll ['\r'] "\\r".data (replaceAll ['\n'] "\\n".data (replaceAll ['$', '\x7b'] "\\$\x7b".data (replaceAll ['\x60'] "\\\x60".data (replaceAll ['\"'] "\\\"".data (replaceAll ['\x27'] "\\\x27".data (replaceAll ['\\'] "\\\\".data (input.data)))))))))) = true :=
    scanReq_preserve_single '\x60' true ['\u2028'] ("\\u2028".data)
      (by decide) (by decide) (by decide) ⟨"\\u202".data, '8', rfl, by decide⟩
      (replaceAll ['\x00'] "\\0".data (replaceAll ['\r'] "\\r".data (replaceAll ['\n'] "\\n".data (replaceAll ['$', '\x7b'] "\\$\x7b".data (replaceAll ['\x60'] "\\\x60".data (replaceAll ['\"'] "\\\"".data (replaceAll ['\x27'] "\\\x27".data (replaceAll ['\\'] "\\\\".data (input.data))))))))).length (replaceAll ['\x00'] "\\0".data (replaceAll ['\r'] "\\r".data (replaceAll ['\n'] "\\n".data (replaceAll ['$', '\x7b'] "\\$\x7b".data (replaceAll ['\x60'] "\\\x60".data (replaceAll ['\"'] "\\\"".data (replaceAll ['\x27'] "\\\x27".data (replaceAll ['\\'] "\\\\".data (input.data))))))))) false bt8
  have bt10 : scanReq ['\x60'] true false (replaceAll ['\u2029'] "\\u2029".data (replaceAll ['\u2028'] "\\u2028".data (replaceAll ['\x00'] "\\0".data (replaceAll ['\r'] "\\r".data (replaceAll ['\n'] "\\n".data (replaceAll ['$', '\x7b'] "\\$\x7b".data (replaceAll ['\x60'] "\\\x60".data (replaceAll ['\"'] "\\\"".data (replaceAll ['\x27'] "\\\x27".data (replaceAll ['\\'] "\\\\".data (input.data))))))))))) = true :=
    scanReq_preserve_single '\x60' true ['\u2029'] ("\\u2029".data)
      (by decide) (by decide) (by decide) ⟨"\\u202".data, '9', rfl, by decide⟩
      (replaceAll ['\u2028'] "\\u2028".data (replaceAll ['\x00'] "\\0".data (replaceAll ['\r'] "\\r".data (replaceAll ['\n'] "\\n".data (replaceAll ['$', '\x7b'] "\\$\x7b".data (replaceAll ['\x60'] "\\\x60".data (replaceAll ['\"'] "\\\"".data (replaceAll ['\x27'] "\\\x27".data (replaceAll ['\\'] "\\\\".data (input.data)))))))))).length (replaceAll ['\u2028'] "\\u2028".data (replaceAll ['\x00'] "\\0".data (replaceAll ['\r'] "\\r".data (replaceAll ['\n'] "\\n".data (replaceAll ['$', '\x7b'] "\\$\x7b".data (replaceAll ['\x60'] "\\\x60".data (replaceAll ['\"'] "\\\"".data (replaceAll ['\x27'] "\\\x27".data (replaceAll ['\\'] "\\\\".data (input.data)))))))))) false bt9
  have btX : scanReq ['\x60'] true false (replaceAllCI "</script>".data "<\\/script>".data (replaceAll ['\u2029'] "\\u2029".data (replaceAll ['\u2028'] "\\u2028".data (replaceAll ['\x00'] "\\0".data (replaceAll ['\r'] "\\r".data (replaceAll ['\n'] "\\n".data (replaceAll ['$', '\x7b'] "\\$\x7b".data (replaceAll ['\x60'] "\\\x60".data (replaceAll ['\"'] "\\\"".data (replaceAll ['\x27'] "\\\x27".data (replaceAll ['\\'] "\\\\".data (input.data)))))))))))) = true :=
    scanReq_preserve_single_ci '\x60' true "</script>".data ("<\\/script>".data)
      (by decide) (by decide) (by decide) ⟨"<\\/script".data, '>', rfl, by decide⟩
      (replaceAll ['\u2029'] "\\u2029".data (replaceAll ['\u2028'] "\\u2028".data (replaceAll ['\x00'] "\\0".data (replaceAll ['\r'] "\\r".data (replaceAll ['\n'] "\\n".data (replaceAll ['$', '\x7b'] "\\$\x7b".data (replaceAll ['\x60'] "\\\x60".data (replaceAll ['\"'] "\\\"".data (replaceAll ['\x27'] "\\\x27".data (replaceAll ['\\'] "\\\\".data (input.data))))))))))).length (replaceAll ['\u2029'] "\\u2029".data (replaceAll ['\u2028'] "\\u2028".data (replaceAll ['\x00'] "\\0".data (replaceAll ['\r'] "\\r".data (replaceAll ['\n'] "\\n".data (replaceAll ['$', '\x7b'] "\\$\x7b".data (replaceAll ['\x60'] "\\\x60".data (replaceAll ['\"'] "\\\"".data (replaceAll ['\x27'] "\\\x27".data (replaceAll ['\\'] "\\\\".data (input.data))))))))))) false bt10
  have btF : oddEscapedBefore ['\x60'] (replaceAllCI "</script>".data "<\\/script>".data (replaceAll ['\u2029'] "\\u2029".data (replaceAll ['\u2028'] "\\u2028".data (replaceAll ['\x00'] "\\0".data (replaceAll ['\r'] "\\r".data (replaceAll ['\n'] "\\n".data (replaceAll ['$', '\x7b'] "\\$\x7b".data (replaceAll ['\x60'] "\\\x60".data (replaceAll ['\"'] "\\\"".data (replaceAll ['\x27'] "\\\x27".data (replaceAll ['\\'] "\\\\".data (input.data)))))))))))) :=
    scanReq_oddEscapedBefore ['\x60'] (by simp) _ btX
  have dl1 : scanReq ['$', '\x7b'] false false (replaceAll ['\\'] "\\\\".data (input.data)) = true :=
    scanReq_after_doubling '$' ['\x7b'] (by decide) (input.data).length input.data (Nat.le_refl _)
  have dl2 : scanReq ['$', '\x7b'] false false (replaceAll ['\x27'] "\\\x27".data (replaceAll ['\\'] "\\\\".data (input.data))) = true :=
    scanReq_preserve_dollar ['\x27'] ("\\\x27".data)
      (by decide) (by decide) (by decide) ⟨['\\'], '\x27', rfl, by decide⟩
      (replaceAll ['\\'] "\\\\".data (input.data)).length (replaceAll ['\\'] "\\\\".data (input.data)) false false dl1
  have dl3 : scanReq ['$', '\x7b'] false false (replaceAll ['\"'] "\\\"".data (replaceAll ['\x27'] "\\\x27".data (replaceAll ['\\'] "\\\\".data (input.data)))) = true :=
    scanReq_preserve_dollar ['\"'] ("\\\"".data)
      (by decide) (by decide) (by decide) ⟨['\\'], '"', rfl, by decide⟩
      (replaceAll ['\x27'] "\\\x27".data (replaceAll ['\\'] "\\\\".data (input.data))).length (replaceAll ['\x27'] "\\\x27".data (replaceAll ['\\'] "\\\\".data (input.data))) false false dl2
  have dl4 : scanReq ['$', '\x7b'] false false (replaceAll ['\x60'] "\\\x60".data (replaceAll ['\"'] "\\\"".data (replaceAll ['\x27'] "\\\x27".data (replaceAll ['\\'] "\\\\".data (input.data))))) = true :=
    scanReq_preserve_dollar ['\x60'] ("\\\x60".data)
      (by decide) (by decide) (by decide) ⟨['\\'], '\x60', rfl, by decide⟩
      (replaceAll ['\"'] "\\\"".data (replaceAll ['\x27'] "\\\x27".data (replaceAll ['\\'] "\\\\".data (input.data)))).length (replaceAll ['\"'] "\\\"".data (replaceAll ['\x27'] "\\\x27".data (replaceAll ['\\'] "\\\\".data (input.data)))) false false dl3
  have dl5 : scanReq ['$', '\x7b'] true false (replaceAll ['$', '\x7b'] "\\$\x7b".data (replaceAll ['\x60'] "\\\x60".data (replaceAll ['\"'] "\\\"".data (replaceAll ['\x27'] "\\\x27".data (replaceAll ['\\'] "\\\\".data (input.data)))))) = true :=
    scanReq_escape_dollar (replaceAll ['\x60'] "\\\x60".data (replaceAll ['\"'] "\\\"".data (replaceAll ['\x27'] "\\\x27".data (replaceAll ['\\'] "\\\\".data (input.data))))).length (replaceAll ['\x60'] "\\\x60".data (replaceAll ['\"'] "\\\"".data (replaceAll ['\x27'] "\\\x27".data (replaceAll ['\\'] "\\\\".data (input.data))))) false
      (Nat.le_refl _) dl4
  have dl6 : scanReq ['$', '\x7b'] true false (replaceAll ['\n'] "\\n".data (replaceAll ['$', '\x7b'] "\\$\x7b".data (replaceAll ['\x60'] "\\\x60".data (replaceAll ['\"'] "\\\"".data (replaceAll ['\x27'] "\\\x27".data (replaceAll ['\\'] "\\\\".data (input.data))))))) = true :=
    scanReq_preserve_dollar ['\n'] ("\\n".data)
      (by decide) (by decide) (by decide) ⟨['\\'], 'n', rfl, by decide⟩
      (replaceAll ['$', '\x7b'] "\\$\x7b".data (replaceAll ['\x60'] "\\\x60".data (replaceAll ['\"'] "\\\"".data (replaceAll ['\x27'] "\\\x27".data (replaceAll ['\\'] "\\\\".data (input.data)))))).length (replaceAll ['$', '\x7b'] "\\$\x7b".data (replaceAll ['\x60'] "\\\x60".data (replaceAll ['\"'] "\\\"".data (replaceAll ['\x27'] "\\\x27".data (replaceAll ['\\'] "\\\\".data (input.data)))))) false true dl5
  have dl7 : scanReq ['$', '\x7b'] true false (replaceAll ['\r'] "\\r".data (replaceAll ['\n'] "\\n".data (replaceAll ['$', '\x7b'] "\\$\x7b".data (replaceAll ['\x60'] "\\\x60".data (replaceAll ['\"'] "\\\"".data (replaceAll ['\x27'] "\\\x27".data (replaceAll ['\\'] "\\\\".data (input.data)))))))) = true :=
    scanReq_preserve_dollar ['\r'] ("\\r".data)
      (by decide) (by decide) (by decide) ⟨['\\'], 'r', rfl, by decide⟩
      (replaceAll ['\n'] "\\n".data (replaceAll ['$', '\x7b'] "\\$\x7b".data (replaceAll ['\x60'] "\\\x60".data (replaceAll ['\"'] "\\\"".data (replaceAll ['\x27'] "\\\x27".data (replaceAll ['\\'] "\\\\".data (input.data))))))).length (replaceAll ['\n'] "\\n".data (replaceAll ['$', '\x7b'] "\\$\x7b".data (replaceAll ['\x60'] "\\\x60".data (replaceAll ['\"'] "\\\"".data (replaceAll ['\x27'] "\\\x27".data (replaceAll ['\\'] "\\\\".data (input.data))))))) false true dl6
  have dl8 : scanReq ['$', '\x7b'] true false (replaceAll ['\x00'] "\\0".data (replaceAll ['\r'] "\\r".data (replaceAll ['\n'] "\\n".data (replaceAll ['$', '\x7b'] "\\$\x7b".data (replaceAll ['\x60'] "\\\x60".data (replaceAll ['\"'] "\\\"".data (replaceAll ['\x27'] "\\\x27".data (replaceAll ['\\'] "\\\\".data (input.data))))))))) = true :=
    scanReq_preserve_dollar ['\x00'] ("\\0".data)
      (by decide) (by decide) (by decide) ⟨['\\'], '0', rfl, by decide⟩
      (replaceAll ['\r'] "\\r".data (replaceAll ['\n'] "\\n".data (replaceAll ['$', '\x7b'] "\\$\x7b".data (replaceAll ['\x60'] "\\\x60".data (replaceAll ['\"'] "\\\"".data (replaceAll ['\x27'] "\\\x27".data (replaceAll ['\\'] "\\\\".data (input.data)))))))).length (replaceAll ['\r'] "\\r".data (replaceAll ['\n'] "\\n".data (replaceAll ['$', '\x7b'] "\\$\x7b".data (replaceAll ['\x60'] "\\\x60".data (replaceAll ['\"'] "\\\"".data (replaceAll ['\x27'] "\\\x27".data (replaceAll ['\\'] "\\\\".data (input.data)))))))) false true dl7
  have dl9 : scanReq ['$', '\x7b'] true false (replaceAll ['\u2028'] "\\u2028".data (replaceAll ['\x00'] "\\0".data (replaceAll ['\r'] "\\r".data (replaceAll ['\n'] "\\n".data (replaceAll ['$', '\x7b'] "\\$\x7b".data (replaceAll ['\x60'] "\\\x60".data (replaceAll ['\"'] "\\\"".data (replaceAll ['\x27'] "\\\x27".data (replaceAll ['\\'] "\\\\".data (input.data)))))))))) = true :=
    scanReq_preserve_dollar ['\u2028'] ("\\u2028".data)
      (by decide) (by decide) (by decide) ⟨"\\u202".data, '8', rfl, by decide⟩
      (replaceAll ['\x00'] "\\0".data (replaceAll ['\r'] "\\r".data (replaceAll ['\n'] "\\n".data (replaceAll ['$', '\x7b'] "\\$\x7b".data (replaceAll ['\x60'] "\\\x60".data (replaceAll ['\"'] "\\\"".data (replaceAll ['\x27'] "\\\x27".data (replaceAll ['\\'] "\\\\".data (input.data))))))))).length (replaceAll ['\x00'] "\\0".data (replaceAll ['\r'] "\\r".data (replaceAll ['\n'] "\\n".data (replaceAll ['$', '\x7b'] "\\$\x7b".data (replaceAll ['\x60'] "\\\x60".data (replaceAll ['\"'] "\\\"".data (replaceAll ['\x27'] "\\\x27".data (replaceAll ['\\'] "\\\\".data (input.data))))))))) false true dl8
  have dl10 : scanReq ['$', '\x7b'] true false (replaceAll ['\u2029'] "\\u2029".data (replaceAll ['\u2028'] "\\u2028".data (replaceAll ['\x00'] "\\0".data (replaceAll ['\r'] "\\r".data (replaceAll ['\n'] "\\n".data (replaceAll ['$', '\x7b'] "\\$\x7b".data (replaceAll ['\x60'] "\\\x60".data (replaceAll ['\"'] "\\\"".data (replaceAll ['\x27'] "\\\x27".data (replaceAll ['\\'] "\\\\".data (input.data))))))))))) = true :=
    scanReq_preserve_dollar ['\u2029'] ("\\u2029".data)
      (by decide) (by decide) (by decide) ⟨"\\u202".data, '9', rfl, by decide⟩
      (replaceAll ['\u2028'] "\\u2028".data (replaceAll ['\x00'] "\\0".data (replaceAll ['\r'] "\\r".data (replaceAll ['\n'] "\\n".data (replaceAll ['$', '\x7b'] "\\$\x7b".data (replaceAll ['\x60'] "\\\x60".data (replaceAll ['\"'] "\\\"".data (replaceAll ['\x27'] "\\\x27".data (replaceAll ['\\'] "\\\\".data (input.data)))))))))).length (replaceAll ['\u2028'] "\\u2028".data (replaceAll ['\x00'] "\\0".data (replaceAll ['\r'] "\\r".data (replaceAll ['\n'] "\\n".data (replaceAll ['$', '\x7b'] "\\$\x7b".data (replaceAll ['\x60'] "\\\x60".data (replaceAll ['\"'] "\\\"".data (replaceAll ['\x27'] "\\\x27".data (replaceAll ['\\'] "\\\\".data (input.data)))))))))) false true dl9
  have dlX : scanReq ['$', '\x7b'] true false (replaceAllCI "</script>".data "<\\/script>".data (replaceAll ['\u2029'] "\\u2029".data (replaceAll ['\u2028'] "\\u2028".data (replaceAll ['\x00'] "\\0".data (replaceAll ['\r'] "\\r".data (replaceAll ['\n'] "\\n".data (replaceAll ['$', '\x7b'] "\\$\x7b".data (replaceAll ['\x60'] "\\\x60".data (replaceAll ['\"'] "\\\"".data (replaceAll ['\x27'] "\\\x27".data (replaceAll ['\\'] "\\\\".data (input.data)))))))))))) = true :=
    scanReq_preserve_dollar_ci "</script>".data ("<\\/script>".data)
      (by decide) (by decide) (by decide) ⟨"<\\/script".data, '>', rfl, by decide⟩
      (replaceAll ['\u2029'] "\\u2029".data (replaceAll ['\u2028'] "\\u2028".data (replaceAll ['\x00'] "\\0".data (replaceAll ['\r'] "\\r".data (replaceAll ['\n'] "\\n".data (replaceAll ['$', '\x7b'] "\\$\x7b".data (replaceAll ['\x60'] "\\\x60".data (replaceAll ['\"'] "\\\"".data (replaceAll ['\x27'] "\\\x27".data (replaceAll ['\\'] "\\\\".data (input.data))))))))))).length (replaceAll ['\u2029'] "\\u2029".data (replaceAll ['\u2028'] "\\u2028".data (replaceAll ['\x00'] "\\0".data (replaceAll ['\r'] "\\r".data (replaceAll ['\n'] "\\n".data (replaceAll ['$', '\x7b'] "\\$\x7b".data (replaceAll ['\x60'] "\\\x60".data (replaceAll ['\"'] "\\\"".data (replaceAll ['\x27'] "\\\x27".data (replaceAll ['\\'] "\\\\".data (input.data))))))))))) false true dl10
  have dlF : oddEscapedBefore ['$', '\x7b'] (replaceAllCI "</script>".data "<\\/script>".data (replaceAll ['\u2029'] "\\u2029".data (replaceAll ['\u2028'] "\\u2028".data (replaceAll ['\x00'] "\\0".data (replaceAll ['\r'] "\\r".data (replaceAll ['\n'] "\\n".data (replaceAll ['$', '\x7b'] "\\$\x7b".data (replaceAll ['\x60'] "\\\x60".data (replaceAll ['\"'] "\\\"".data (replaceAll ['\x27'] "\\\x27".data (replaceAll ['\\'] "\\\\".data (input.data)))))))))))) :=
    scanReq_oddEscapedBefore ['$', '\x7b'] (by simp) _ dlX
  have nl6 : '\n' ∉ (replaceAll ['\n'] "\\n".data (replaceAll ['$', '\x7b'] "\\$\x7b".data (replaceAll ['\x60'] "\\\x60".data (replaceAll ['\"'] "\\\"".data (replaceAll ['\x27'] "\\\x27".data (replaceAll ['\\'] "\\\\".data (input.data))))))) :=
    not_mem_replaceAllF_elim '\n' ("\\n".data) (by decide)
      (replaceAll ['$', '\x7b'] "\\$\x7b".data (replaceAll ['\x60'] "\\\x60".data (replaceAll ['\"'] "\\\"".data (replaceAll ['\x27'] "\\\x27".data (replaceAll ['\\'] "\\\\".data (input.data)))))).length (replaceAll ['$', '\x7b'] "\\$\x7b".data (replaceAll ['\x60'] "\\\x60".data (replaceAll ['\"'] "\\\"".data (replaceAll ['\x27'] "\\\x27".data (replaceAll ['\\'] "\\\\".data (input.data)))))) (Nat.le_refl _)
  have nl7 : '\n' ∉ (replaceAll ['\r'] "\\r".data (replaceAll ['\n'] "\\n".data (replaceAll ['$', '\x7b'] "\\$\x7b".data (replaceAll ['\x60'] "\\\x60".data (replaceAll ['\"'] "\\\"".data (replaceAll ['\x27'] "\\\x27".data (replaceAll ['\\'] "\\\\".data (input.data)))))))) :=
    fun hx => (mem_replaceAllF ['\r'] ("\\r".data)
      (replaceAll ['\n'] "\\n".data (replaceAll ['$', '\x7b'] "\\$\x7b".data (replaceAll ['\x60'] "\\\x60".data (replaceAll ['\"'] "\\\"".data (replaceAll ['\x27'] "\\\x27".data (replaceAll ['\\'] "\\\\".data (input.data))))))).length (replaceAll ['\n'] "\\n".data (replaceAll ['$', '\x7b'] "\\$\x7b".data (replaceAll ['\x60'] "\\\x60".data (replaceAll ['\"'] "\\\"".data (replaceAll ['\x27'] "\\\x27".data (replaceAll ['\\'] "\\\\".data (input.data))))))) '\n' hx).elim
      (fun h => absurd h (by decide)) (fun h => nl6 h)
  have nl8 : '\n' ∉ (replaceAll ['\x00'] "\\0".data (replaceAll ['\r'] "\\r".data (replaceAll ['\n'] "\\n".data (replaceAll ['$', '\x7b'] "\\$\x7b".data (replaceAll ['\x60'] "\\\x60".data (replaceAll ['\"'] "\\\"".data (replaceAll ['\x27'] "\\\x27".data (replaceAll ['\\'] "\\\\".data (input.data))))))))) :=
    fun hx => (mem_replaceAllF ['\x00'] ("\\0".data)
      (replaceAll ['\r'] "\\r".data (replaceAll ['\n'] "\\n".data (replaceAll ['$', '\x7b'] "\\$\x7b".data (replaceAll ['\x60'] "\\\x60".data (replaceAll ['\"'] "\\\"".data (replaceAll ['\x27'] "\\\x27".data (replaceAll ['\\'] "\\\\".data (input.data)))))))).length (replaceAll ['\r'] "\\r".data (replaceAll ['\n'] "\\n".data (replaceAll ['$', '\x7b'] "\\$\x7b".data (replaceAll ['\x60'] "\\\x60".data (replaceAll ['\"'] "\\\"".data (replaceAll ['\x27'] "\\\x27".data (replaceAll ['\\'] "\\\\".data (input.data)))))))) '\n' hx).elim
      (fun h => absurd h (by decide)) (fun h => nl7 h)
  have nl9 : '\n' ∉ (replaceAll ['\u2028'] "\\u2028".data (replaceAll ['\x00'] "\\0".data (replaceAll ['\r'] "\\r".data (replaceAll ['\n'] "\\n".data (replaceAll ['$', '\x7b'] "\\$\x7b".data (replaceAll ['\x60'] "\\\x60".data (replaceAll ['\"'] "\\\"".data (replaceAll ['\x27'] "\\\x27".data (replaceAll ['\\'] "\\\\".data (input.data)))))))))) :=
    fun hx => (mem_replaceAllF ['\u2028'] ("\\u2028".data)
      (replaceAll ['\x00'] "\\0".data (replaceAll ['\r'] "\\r".data (replaceAll ['\n'] "\\n".data (replaceAll ['$', '\x7b'] "\\$\x7b".data (replaceAll ['\x60'] "\\\x60".data (replaceAll ['\"'] "\\\"".data (replaceAll ['\x27'] "\\\x27".data (replaceAll ['\\'] "\\\\".data (input.data))))))))).length (replaceAll ['\x00'] "\\0".data (replaceAll ['\r'] "\\r".data (replaceAll ['\n'] "\\n".data (replaceAll ['$', '\x7b'] "\\$\x7b".data (replaceAll ['\x60'] "\\\x60".data (replaceAll ['\"'] "\\\"".data (replaceAll ['\x27'] "\\\x27".data (replaceAll ['\\'] "\\\\".data (input.data))))))))) '\n' hx).elim
      (fun h => absurd h (by decide)) (fun h => nl8 h)
  have nl10 : '\n' ∉ (replaceAll ['\u2029'] "\\u2029".data (replaceAll ['\u2028'] "\\u2028".data (replaceAll ['\x00'] "\\0".data (replaceAll ['\r'] "\\r".data (replaceAll ['\n'] "\\n".data (replaceAll ['$', '\x7b'] "\\$\x7b".data (replaceAll ['\x60'] "\\\x60".data (replaceAll ['\"'] "\\\"".data (replaceAll ['\x27'] "\\\x27".data (replaceAll ['\\'] "\\\\".data (input.data))))))))))) :=
    fun hx => (mem_replaceAllF ['\u2029'] ("\\u2029".data)
      (replaceAll ['\u2028'] "\\u2028".data (replaceAll ['\x00'] "\\0".data (replaceAll ['\r'] "\\r".data (replaceAll ['\n'] "\\n".data (replaceAll ['$', '\x7b'] "\\$\x7b".data (replaceAll ['\x60'] "\\\x60".data (replaceAll ['\"'] "\\\"".data (replaceAll ['\x27'] "\\\x27".data (replaceAll ['\\'] "\\\\".data (input.data)))))))))).length (replaceAll ['\u2028'] "\\u2028".data (replaceAll ['\x00'] "\\0".data (replaceAll ['\r'] "\\r".data (replaceAll ['\n'] "\\n".data (replaceAll ['$', '\x7b'] "\\$\x7b".data (replaceAll ['\x60'] "\\\x60".data (replaceAll ['\"'] "\\\"".data (replaceAll ['\x27'] "\\\x27".data (replaceAll ['\\'] "\\\\".data (input.data)))))))))) '\n' hx).elim
      (fun h => absurd h (by decide)) (fun h => nl9 h)
  have nlF : '\n' ∉ (replaceAllCI "</script>".data "<\\/script>".data (replaceAll ['\u2029'] "\\u2029".data (replaceAll ['\u2028'] "\\u2028".data (replaceAll ['\x00'] "\\0".data (replaceAll ['\r'] "\\r".data (replaceAll ['\n'] "\\n".data (replaceAll ['$', '\x7b'] "\\$\x7b".data (replaceAll ['\x60'] "\\\x60".data (replaceAll ['\"'] "\\\"".data (replaceAll ['\x27'] "\\\x27".data (replaceAll ['\\'] "\\\\".data (input.data)))))))))))) :=
    fun hx => (mem_replaceAllCIF "</script>".data ("<\\/script>".data)
      (replaceAll ['\u2029'] "\\u2029".data (replaceAll ['\u2028'] "\\u2028".data (replaceAll ['\x00'] "\\0".data (replaceAll ['\r'] "\\r".data (replaceAll ['\n'] "\\n".data (replaceAll ['$', '\x7b'] "\\$\x7b".data (replaceAll ['\x60'] "\\\x60".data (replaceAll ['\"'] "\\\"".data (replaceAll ['\x27'] "\\\x27".data (replaceAll ['\\'] "\\\\".data (input.data))))))))))).length (replaceAll ['\u2029'] "\\u2029".data (replaceAll ['\u2028'] "\\u2028".data (replaceAll ['\x00'] "\\0".data (replaceAll ['\r'] "\\r".data (replaceAll ['\n'] "\\n".data (replaceAll ['$', '\x7b'] "\\$\x7b".data (replaceAll ['\x60'] "\\\x60".data (replaceAll ['\"'] "\\\"".data (replaceAll ['\x27'] "\\\x27".data (replaceAll ['\\'] "\\\\".data (input.data))))))))))) '\n' hx).elim
      (fun h => absurd h (by decide)) (fun h => nl10 h)
  have cr7 : '\r' ∉ (replaceAll ['\r'] "\\r".data (replaceAll ['\n'] "\\n".data (replaceAll ['$', '\x7b'] "\\$\x7b".data (replaceAll ['\x60'] "\\\x60".data (replaceAll ['\"'] "\\\"".data (replaceAll ['\x27'] "\\\x27".data (replaceAll ['\\'] "\\\\".data (input.data)))))))) :=
    not_mem_replaceAllF_elim '\r' ("\\r".data) (by decide)
      (replaceAll ['\n'] "\\n".data (replaceAll ['$', '\x7b'] "\\$\x7b".data (replaceAll ['\x60'] "\\\x60".data (replaceAll ['\"'] "\\\"".data (replaceAll ['\x27'] "\\\x27".data (replaceAll ['\\'] "\\\\".data (input.data))))))).length (replaceAll ['\n'] "\\n".data (replaceAll ['$', '\x7b'] "\\$\x7b".data (replaceAll ['\x60'] "\\\x60".data (replaceAll ['\"'] "\\\"".data (replaceAll ['\x27'] "\\\x27".data (replaceAll ['\\'] "\\\\".data (input.data))))))) (Nat.le_refl _)
  have cr8 : '\r' ∉ (replaceAll ['\x00'] "\\0".data (replaceAll ['\r'] "\\r".data (replaceAll ['\n'] "\\n".data (replaceAll ['$', '\x7b'] "\\$\x7b".data (replaceAll ['\x60'] "\\\x60".data (replaceAll ['\"'] "\\\"".data (replaceAll ['\x27'] "\\\x27".data (replaceAll ['\\'] "\\\\".data (input.data))))))))) :=
    fun hx => (mem_replaceAllF ['\x00'] ("\\0".data)
      (replaceAll ['\r'] "\\r".data (replaceAll ['\n'] "\\n".data (replaceAll ['$', '\x7b'] "\\$\x7b".data (replaceAll ['\x60'] "\\\x60".data (replaceAll ['\"'] "\\\"".data (replaceAll ['\x27'] "\\\x27".data (replaceAll ['\\'] "\\\\".data (input.data)))))))).length (replaceAll ['\r'] "\\r".data (replaceAll ['\n'] "\\n".data (replaceAll ['$', '\x7b'] "\\$\x7b".data (replaceAll ['\x60'] "\\\x60".data (replaceAll ['\"'] "\\\"".data (replaceAll ['\x27'] "\\\x27".data (replaceAll ['\\'] "\\\\".data (input.data)))))))) '\r' hx).elim
      (fun h => absurd h (by decide)) (fun h => cr7 h)
  have cr9 : '\r' ∉ (replaceAll ['\u2028'] "\\u2028".data (replaceAll ['\x00'] "\\0".data (replaceAll ['\r'] "\\r".data (replaceAll ['\n'] "\\n".data (replaceAll ['$', '\x7b'] "\\$\x7b".data (replaceAll ['\x60'] "\\\x60".data (replaceAll ['\"'] "\\\"".data (replaceAll ['\x27'] "\\\x27".data (replaceAll ['\\'] "\\\\".data (input.data)))))))))) :=
    fun hx => (mem_replaceAllF ['\u2028'] ("\\u2028".data)
      (replaceAll ['\x00'] "\\0".data (replaceAll ['\r'] "\\r".data (replaceAll ['\n'] "\\n".data (replaceAll ['$', '\x7b'] "\\$\x7b".data (replaceAll ['\x60'] "\\\x60".data (replaceAll ['\"'] "\\\"".data (replaceAll ['\x27'] "\\\x27".data (replaceAll ['\\'] "\\\\".data (input.data))))))))).length (replaceAll ['\x00'] "\\0".data (replaceAll ['\r'] "\\r".data (replaceAll ['\n'] "\\n".data (replaceAll ['$', '\x7b'] "\\$\x7b".data (replaceAll ['\x60'] "\\\x60".data (replaceAll ['\"'] "\\\"".data (replaceAll ['\x27'] "\\\x27".data (replaceAll ['\\'] "\\\\".data (input.data))))))))) '\r' hx).elim
      (fun h => absurd h (by decide)) (fun h => cr8 h)
  have cr10 : '\r' ∉ (replaceAll ['\u2029'] "\\u2029".data (replaceAll ['\u2028'] "\\u2028".data (replaceAll ['\x00'] "\\0".data (replaceAll ['\r'] "\\r".data (replaceAll ['\n'] "\\n".data (replaceAll ['$', '\x7b'] "\\$\x7b".data (replaceAll ['\x60'] "\\\x60".data (replaceAll ['\"'] "\\\"".data (replaceAll ['\x27'] "\\\x27".data (replaceAll ['\\'] "\\\\".data (input.data))))))))))) :=
    fun hx => (mem_replaceAllF ['\u2029'] ("\\u2029".data)
      (replaceAll ['\u2028'] "\\u2028".data (replaceAll ['\x00'] "\\0".data (replaceAll ['\r'] "\\r".data (replaceAll ['\n'] "\\n".data (replaceAll ['$', '\x7b'] "\\$\x7b".data (replaceAll ['\x60'] "\\\x60".data (replaceAll ['\"'] "\\\"".data (replaceAll ['\x27'] "\\\x27".data (replaceAll ['\\'] "\\\\".data (input.data)))))))))).length (replaceAll ['\u2028'] "\\u2028".data (replaceAll ['\x00'] "\\0".data (replaceAll ['\r'] "\\r".data (replaceAll ['\n'] "\\n".data (replaceAll ['$', '\x7b'] "\\$\x7b".data (replaceAll ['\x60'] "\\\x60".data (replaceAll ['\"'] "\\\"".data (replaceAll ['\x27'] "\\\x27".data (replaceAll ['\\'] "\\\\".data (input.data)))))))))) '\r' hx).elim
      (fun h => absurd h (by decide)) (fun h => cr9 h)
  have crF : '\r' ∉ (replaceAllCI "</script>".data "<\\/script>".data (replaceAll ['\u2029'] "\\u2029".data (replaceAll ['\u2028'] "\\u2028".data (replaceAll ['\x00'] "\\0".data (replaceAll ['\r'] "\\r".data (replaceAll ['\n'] "\\n".data (replaceAll ['$', '\x7b'] "\\$\x7b".data (replaceAll ['\x60'] "\\\x60".data (replaceAll ['\"'] "\\\"".data (replaceAll ['\x27'] "\\\x27".data (replaceAll ['\\'] "\\\\".data (input.data)))))))))))) :=
    fun hx => (mem_replaceAllCIF "</script>".data ("<\\/script>".data)
      (replaceAll ['\u2029'] "\\u2029".data (replaceAll ['\u2028'] "\\u2028".data (replaceAll ['\x00'] "\\0".data (replaceAll ['\r'] "\\r".data (replaceAll ['\n'] "\\n".data (replaceAll ['$', '\x7b'] "\\$\x7b".data (replaceAll ['\x60'] "\\\x60".data (replaceAll ['\"'] "\\\"".data (replaceAll ['\x27'] "\\\x27".data (replaceAll ['\\'] "\\\\".data (input.data))))))))))).length (replaceAll ['\u2029'] "\\u2029".data (replaceAll ['\u2028'] "\\u2028".data (replaceAll ['\x00'] "\\0".data (replaceAll ['\r'] "\\r".data (replaceAll ['\n'] "\\n".data (replaceAll ['$', '\x7b'] "\\$\x7b".data (replaceAll ['\x60'] "\\\x60".data (replaceAll ['\"'] "\\\"".data (replaceAll ['\x27'] "\\\x27".data (replaceAll ['\\'] "\\\\".data (input.data))))))))))) '\r' hx).elim
      (fun h => absurd h (by decide)) (fun h => cr10 h)
  have nul8 : '\x00' ∉ (replaceAll ['\x00'] "\\0".data (replaceAll ['\r'] "\\r".data (replaceAll ['\n'] "\\n".data (replaceAll ['$', '\x7b'] "\\$\x7b".data (replaceAll ['\x60'] "\\\x60".data (replaceAll ['\"'] "\\\"".data (replaceAll ['\x27'] "\\\x27".data (replaceAll ['\\'] "\\\\".data (input.data))))))))) :=
    not_mem_replaceAllF_elim '\x00' ("\\0".data) (by decide)
      (replaceAll ['\r'] "\\r".data (replaceAll ['\n'] "\\n".data (replaceAll ['$', '\x7b'] "\\$\x7b".data (replaceAll ['\x60'] "\\\x60".data (replaceAll ['\"'] "\\\"".data (replaceAll ['\x27'] "\\\x27".data (replaceAll ['\\'] "\\\\".data (input.data)))))))).length (replaceAll ['\r'] "\\r".data (replaceAll ['\n'] "\\n".data (replaceAll ['$', '\x7b'] "\\$\x7b".data (replaceAll ['\x60'] "\\\x60".data (replaceAll ['\"'] "\\\"".data (replaceAll ['\x27'] "\\\x27".data (replaceAll ['\\'] "\\\\".data (input.data)))))))) (Nat.le_refl _)
  have nul9 : '\x00' ∉ (replaceAll ['\u2028'] "\\u2028".data (replaceAll ['\x00'] "\\0".data (replaceAll ['\r'] "\\r".data (replaceAll ['\n'] "\\n".data (replaceAll ['$', '\x7b'] "\\$\x7b".data (replaceAll ['\x60'] "\\\x60".data (replaceAll ['\"'] "\\\"".data (replaceAll ['\x27'] "\\\x27".data (replaceAll ['\\'] "\\\\".data (input.data)))))))))) :=
    fun hx => (mem_replaceAllF ['\u2028'] ("\\u2028".data)
      (replaceAll ['\x00'] "\\0".data (replaceAll ['\r'] "\\r".data (replaceAll ['\n'] "\\n".data (replaceAll ['$', '\x7b'] "\\$\x7b".data (replaceAll ['\x60'] "\\\x60".data (replaceAll ['\"'] "\\\"".data (replaceAll ['\x27'] "\\\x27".data (replaceAll ['\\'] "\\\\".data (input.data))))))))).length (replaceAll ['\x00'] "\\0".data (replaceAll ['\r'] "\\r".data (replaceAll ['\n'] "\\n".data (replaceAll ['$', '\x7b'] "\\$\x7b".data (replaceAll ['\x60'] "\\\x60".data (replaceAll ['\"'] "\\\"".data (replaceAll ['\x27'] "\\\x27".data (replaceAll ['\\'] "\\\\".data (input.data))))))))) '\x00' hx).elim
      (fun h => absurd h (by decide)) (fun h => nul8 h)
  have nul10 : '\x00' ∉ (replaceAll ['\u2029'] "\\u2029".data (replaceAll ['\u2028'] "\\u2028".data (replaceAll ['\x00'] "\\0".data (replaceAll ['\r'] "\\r".data (replaceAll ['\n'] "\\n".data (replaceAll ['$', '\x7b'] "\\$\x7b".data (replaceAll ['\x60'] "\\\x60".data (replaceAll ['\"'] "\\\"".data (replaceAll ['\x27'] "\\\x27".data (replaceAll ['\\'] "\\\\".data (input.data))))))))))) :=
    fun hx => (mem_replaceAllF ['\u2029'] ("\\u2029".data)
      (replaceAll ['\u2028'] "\\u2028".data (replaceAll ['\x00'] "\\0".data (replaceAll ['\r'] "\\r".data (replaceAll ['\n'] "\\n".data (replaceAll ['$', '\x7b'] "\\$\x7b".data (replaceAll ['\x60'] "\\\x60".data (replaceAll ['\"'] "\\\"".data (replaceAll ['\x27'] "\\\x27".data (replaceAll ['\\'] "\\\\".data (input.data)))))))))).length (replaceAll ['\u2028'] "\\u2028".data (replaceAll ['\x00'] "\\0".data (replaceAll ['\r'] "\\r".data (replaceAll ['\n'] "\\n".data (replaceAll ['$', '\x7b'] "\\$\x7b".data (replaceAll ['\x60'] "\\\x60".data (replaceAll ['\"'] "\\\"".data (replaceAll ['\x27'] "\\\x27".data (replaceAll ['\\'] "\\\\".data (input.data)))))))))) '\x00' hx).elim
      (fun h => absurd h (by decide)) (fun h => nul9 h)
  have nulF : '\x00' ∉ (replaceAllCI "</script>".data "<\\/script>".data (replaceAll ['\u2029'] "\\u2029".data (replaceAll ['\u2028'] "\\u2028".data (replaceAll ['\x00'] "\\0".data (replaceAll ['\r'] "\\r".data (replaceAll ['\n'] "\\n".data (replaceAll ['$', '\x7b'] "\\$\x7b".data (replaceAll ['\x60'] "\\\x60".data (replaceAll ['\"'] "\\\"".data (replaceAll ['\x27'] "\\\x27".data (replaceAll ['\\'] "\\\\".data (input.data)))))))))))) :=
    fun hx => (mem_replaceAllCIF "</script>".data ("<\\/script>".data)
      (replaceAll ['\u2029'] "\\u2029".data (replaceAll ['\u2028'] "\\u2028".data (replaceAll ['\x00'] "\\0".data (replaceAll ['\r'] "\\r".data (replaceAll ['\n'] "\\n".data (replaceAll ['$', '\x7b'] "\\$\x7b".data (replaceAll ['\x60'] "\\\x60".data (replaceAll ['\"'] "\\\"".data (replaceAll ['\x27'] "\\\x27".data (replaceAll ['\\'] "\\\\".data (input.data))))))))))).length (replaceAll ['\u2029'] "\\u2029".data (replaceAll ['\u2028'] "\\u2028".data (replaceAll ['\x00'] "\\0".data (replaceAll ['\r'] "\\r".data (replaceAll ['\n'] "\\n".data (replaceAll ['$', '\x7b'] "\\$\x7b".data (replaceAll ['\x60'] "\\\x60".data (replaceAll ['\"'] "\\\"".data (replaceAll ['\x27'] "\\\x27".data (replaceAll ['\\'] "\\\\".data (input.data))))))))))) '\x00' hx).elim
      (fun h => absurd h (by decide)) (fun h => nul10 h)
  have ls9 : '\u2028' ∉ (replaceAll ['\u2028'] "\\u2028".data (replaceAll ['\x00'] "\\0".data (replaceAll ['\r'] "\\r".data (replaceAll ['\n'] "\\n".data (replaceAll ['$', '\x7b'] "\\$\x7b".data (replaceAll ['\x60'] "\\\x60".data (replaceAll ['\"'] "\\\"".data (replaceAll ['\x27'] "\\\x27".data (replaceAll ['\\'] "\\\\".data (input.data)))))))))) :=
    not_mem_replaceAllF_elim '\u2028' ("\\u2028".data) (by decide)
      (replaceAll ['\x00'] "\\0".data (replaceAll ['\r'] "\\r".data (replaceAll ['\n'] "\\n".data (replaceAll ['$', '\x7b'] "\\$\x7b".data (replaceAll ['\x60'] "\\\x60".data (replaceAll ['\"'] "\\\"".data (replaceAll ['\x27'] "\\\x27".data (replaceAll ['\\'] "\\\\".data (input.data))))))))).length (replaceAll ['\x00'] "\\0".data (replaceAll ['\r'] "\\r".data (replaceAll ['\n'] "\\n".data (replaceAll ['$', '\x7b'] "\\$\x7b".data (replaceAll ['\x60'] "\\\x60".data (replaceAll ['\"'] "\\\"".data (replaceAll ['\x27'] "\\\x27".data (replaceAll ['\\'] "\\\\".data (input.data))))))))) (Nat.le_refl _)
  have ls10 : '\u2028' ∉ (replaceAll ['\u2029'] "\\u2029".data (replaceAll ['\u2028'] "\\u2028".data (replaceAll ['\x00'] "\\0".data (replaceAll ['\r'] "\\r".data (replaceAll ['\n'] "\\n".data (replaceAll ['$', '\x7b'] "\\$\x7b".data (replaceAll ['\x60'] "\\\x60".data (replaceAll ['\"'] "\\\"".data (replaceAll ['\x27'] "\\\x27".data (replaceAll ['\\'] "\\\\".data (input.data))))))))))) :=
    fun hx => (mem_replaceAllF ['\u2029'] ("\\u2029".data)
      (replaceAll ['\u2028'] "\\u2028".data (replaceAll ['\x00'] "\\0".data (replaceAll ['\r'] "\\r".data (replaceAll ['\n'] "\\n".data (replaceAll ['$', '\x7b'] "\\$\x7b".data (replaceAll ['\x60'] "\\\x60".data (replaceAll ['\"'] "\\\"".data (replaceAll ['\x27'] "\\\x27".data (replaceAll ['\\'] "\\\\".data (input.data)))))))))).length (replaceAll ['\u2028'] "\\u2028".data (replaceAll ['\x00'] "\\0".data (replaceAll ['\r'] "\\r".data (replaceAll ['\n'] "\\n".data (replaceAll ['$', '\x7b'] "\\$\x7b".data (replaceAll ['\x60'] "\\\x60".data (replaceAll ['\"'] "\\\"".data (replaceAll ['\x27'] "\\\x27".data (replaceAll ['\\'] "\\\\".data (input.data)))))))))) '\u2028' hx).elim
      (fun h => absurd h (by decide)) (fun h => ls9 h)
  have lsF : '\u2028' ∉ (replaceAllCI "</script>".data "<\\/script>".data (replaceAll ['\u2029'] "\\u2029".data (replaceAll ['\u2028'] "\\u2028".data (replaceAll ['\x00'] "\\0".data (replaceAll ['\r'] "\\r".data (replaceAll ['\n'] "\\n".data (replaceAll ['$', '\x7b'] "\\$\x7b".data (replaceAll ['\x60'] "\\\x60".data (replaceAll ['\"'] "\\\"".data (replaceAll ['\x27'] "\\\x27".data (replaceAll ['\\'] "\\\\".data (input.data)))))))))))) :=
    fun hx => (mem_replaceAllCIF "</script>".data ("<\\/script>".data)
      (replaceAll ['\u2029'] "\\u2029".data (replaceAll ['\u2028'] "\\u2028".data (replaceAll ['\x00'] "\\0".data (replaceAll ['\r'] "\\r".data (replaceAll ['\n'] "\\n".data (replaceAll ['$', '\x7b'] "\\$\x7b".data (replaceAll ['\x60'] "\\\x60".data (replaceAll ['\"'] "\\\"".data (replaceAll ['\x27'] "\\\x27".data (replaceAll ['\\'] "\\\\".data (input.data))))))))))).length (replaceAll ['\u2029'] "\\u2029".data (replaceAll ['\u2028'] "\\u2028".data (replaceAll ['\x00'] "\\0".data (replaceAll ['\r'] "\\r".data (replaceAll ['\n'] "\\n".data (replaceAll ['$', '\x7b'] "\\$\x7b".data (replaceAll ['\x60'] "\\\x60".data (replaceAll ['\"'] "\\\"".data (replaceAll ['\x27'] "\\\x27".data (replaceAll ['\\'] "\\\\".data (input.data))))))))))) '\u2028' hx).elim
      (fun h => absurd h (by decide)) (fun h => ls10 h)
  have ps10 : '\u2029' ∉ (replaceAll ['\u2029'] "\\u2029".data (replaceAll ['\u2028'] "\\u2028".data (replaceAll ['\x00'] "\\0".data (replaceAll ['\r'] "\\r".data (replaceAll ['\n'] "\\n".data (replaceAll ['$', '\x7b'] "\\$\x7b".data (replaceAll ['\x60'] "\\\x60".data (replaceAll ['\"'] "\\\"".data (replaceAll ['\x27'] "\\\x27".data (replaceAll ['\\'] "\\\\".data (input.data))))))))))) :=
    not_mem_replaceAllF_elim '\u2029' ("\\u2029".data) (by decide)
      (replaceAll ['\u2028'] "\\u2028".data (replaceAll ['\x00'] "\\0".data (replaceAll ['\r'] "\\r".data (replaceAll ['\n'] "\\n".data (replaceAll ['$', '\x7b'] "\\$\x7b".data (replaceAll ['\x60'] "\\\x60".data (replaceAll ['\"'] "\\\"".data (replaceAll ['\x27'] "\\\x27".data (replaceAll ['\\'] "\\\\".data (input.data)))))))))).length (replaceAll ['\u2028'] "\\u2028".data (replaceAll ['\x00'] "\\0".data (replaceAll ['\r'] "\\r".data (replaceAll ['\n'] "\\n".data (replaceAll ['$', '\x7b'] "\\$\x7b".data (replaceAll ['\x60'] "\\\x60".data (replaceAll ['\"'] "\\\"".data (replaceAll ['\x27'] "\\\x27".data (replaceAll ['\\'] "\\\\".data (input.data)))))))))) (Nat.le_refl _)
  have psF : '\u2029' ∉ (replaceAllCI "</script>".data "<\\/script>".data (replaceAll ['\u2029'] "\\u2029".data (replaceAll ['\u2028'] "\\u2028".data (replaceAll ['\x00'] "\\0".data (replaceAll ['\r'] "\\r".data (replaceAll ['\n'] "\\n".data (replaceAll ['$', '\x7b'] "\\$\x7b".data (replaceAll ['\x60'] "\\\x60".data (replaceAll ['\"'] "\\\"".data (replaceAll ['\x27'] "\\\x27".data (replaceAll ['\\'] "\\\\".data (input.data)))))))))))) :=
    fun hx => (mem_replaceAllCIF "</script>".data ("<\\/script>".data)
      (replaceAll ['\u2029'] "\\u2029".data (replaceAll ['\u2028'] "\\u2028".data (replaceAll ['\x00'] "\\0".data (replaceAll ['\r'] "\\r".data (replaceAll ['\n'] "\\n".data (replaceAll ['$', '\x7b'] "\\$\x7b".data (replaceAll ['\x60'] "\\\x60".data (replaceAll ['\"'] "\\\"".data (replaceAll ['\x27'] "\\\x27".data (replaceAll ['\\'] "\\\\".data (input.data))))))))))).length (replaceAll ['\u2029'] "\\u2029".data (replaceAll ['\u2028'] "\\u2028".data (replaceAll ['\x00'] "\\0".data (replaceAll ['\r'] "\\r".data (replaceAll ['\n'] "\\n".data (replaceAll ['$', '\x7b'] "\\$\x7b".data (replaceAll ['\x60'] "\\\x60".data (replaceAll ['\"'] "\\\"".data (replaceAll ['\x27'] "\\\x27".data (replaceAll ['\\'] "\\\\".data (input.data))))))))))) '\u2029' hx).elim
      (fun h => absurd h (by decide)) (fun h => ps10 h)
  have hocc : occursCI "</script>".data (replaceAllCI "</script>".data "<\\/script>".data (replaceAll ['\u2029'] "\\u2029".data (replaceAll ['\u2028'] "\\u2028".data (replaceAll ['\x00'] "\\0".data (replaceAll ['\r'] "\\r".data (replaceAll ['\n'] "\\n".data (replaceAll ['$', '\x7b'] "\\$\x7b".data (replaceAll ['\x60'] "\\\x60".data (replaceAll ['\"'] "\\\"".data (replaceAll ['\x27'] "\\\x27".data (replaceAll ['\\'] "\\\\".data (input.data)))))))))))) = false :=
    script_replace_no_occursCI (replaceAll ['\u2029'] "\\u2029".data (replaceAll ['\u2028'] "\\u2028".data (replaceAll ['\x00'] "\\0".data (replaceAll ['\r'] "\\r".data (replaceAll ['\n'] "\\n".data (replaceAll ['$', '\x7b'] "\\$\x7b".data (replaceAll ['\x60'] "\\\x60".data (replaceAll ['\"'] "\\\"".data (replaceAll ['\x27'] "\\\x27".data (replaceAll ['\\'] "\\\\".data (input.data))))))))))).length (replaceAll ['\u2029'] "\\u2029".data (replaceAll ['\u2028'] "\\u2028".data (replaceAll ['\x00'] "\\0".data (replaceAll ['\r'] "\\r".data (replaceAll ['\n'] "\\n".data (replaceAll ['$', '\x7b'] "\\$\x7b".data (replaceAll ['\x60'] "\\\x60".data (replaceAll ['\"'] "\\\"".data (replaceAll ['\x27'] "\\\x27".data (replaceAll ['\\'] "\\\\".data (input.data))))))))))) (Nat.le_refl _)
  have scF : ¬ containsCI "</script>".data (replaceAllCI "</script>".data "<\\/script>".data (replaceAll ['\u2029'] "\\u2029".data (replaceAll ['\u2028'] "\\u2028".data (replaceAll ['\x00'] "\\0".data (replaceAll ['\r'] "\\r".data (replaceAll ['\n'] "\\n".data (replaceAll ['$', '\x7b'] "\\$\x7b".data (replaceAll ['\x60'] "\\\x60".data (replaceAll ['\"'] "\\\"".data (replaceAll ['\x27'] "\\\x27".data (replaceAll ['\\'] "\\\\".data (input.data)))))))))))) :=
    not_containsCI_of_not_occursCI _ _ hocc
  exact ⟨nlF, crF, nulF, lsF, psF, scF, dqF, sqF, btF, dlF⟩
